import Mathlib

/-!
# MultiTron driver (`driver.c`)

A shallow embedding of the user-facing driver functions of `driver.c`
(`setFields`, `getDisplayID`, `mtron_getpixel`, `mtron_putpixel`,
`mtron_getrect`, `mtron_putrect`) and theorems about them.

Conventions of the embedding:

* `uint32_t` values are `Nat`s below `2^32`; `int` values are `Int`s.  A
  conversion to `uint32_t` is `toU32`, a conversion to `int` (and the result
  of `int` arithmetic) is `toI32`, i.e. two's complement wrap-around.
* Bytes are `Nat`s; byte buffers are `List Nat`.  `char scanline[256]` is an
  automatic array whose initial content is indeterminate: every driver
  function takes that content as the argument `scanline`.
* The hardware call `tronctl(op, buf)` is a parameter of the driver
  functions: it maps a device state, a command word and the buffer to a
  status, a new device state and the new buffer content.
* A call ends in `Exec.returns`, or in `Exec.undefined` when a `memcpy` leaves
  the arrays it is given (undefined behaviour in C), or in `Exec.fuelOut`
  when a loop is cut off by its iteration budget.
-/

namespace Multitron

/-! ## Machine integers -/

/-- The value of an integer expression converted to `uint32_t`. -/
def toU32 (z : Int) : Nat := (z % 4294967296).toNat

/-- The value of an integer expression converted to `int` (two's complement). -/
def toI32 (z : Int) : Int := (z + 2147483648) % 4294967296 - 2147483648

/-! ## Declarations of `mtron.h` -/

/-- Modelled from the spec: the constants of `mtron.h`, a header that is not
part of the sources.  `SUBDISPLAY_WIDTH` and `SUBDISPLAY_HEIGHT` are the
spec's `TILE_WIDTH` and `TILE_HEIGHT`; `MTRON_READ_LINE` and
`MTRON_WRITE_LINE` are the opcodes READ_LINE and WRITE_LINE. -/
structure Consts where
  SUBDISPLAY_WIDTH : Nat
  SUBDISPLAY_HEIGHT : Nat
  MTRON_READ_LINE : Nat
  MTRON_WRITE_LINE : Nat

/-- Modelled from the spec: `struct multitron` of `mtron.h`, the Display Grid
with its `int` fields `rows` and `cols` (`mtron_init` stores an `int` in
each). -/
structure multitron where
  rows : Int
  cols : Int

/-- Outcome of a driver call. -/
inductive Exec (α : Type) where
  | returns (a : α)
  | undefined
  | fuelOut

/-- The `tronctl` hardware interface as the driver sees it: device state,
command word and buffer in; status, device state and buffer out. -/
abbrev Tronctl (σ : Type) := σ → Nat → List Nat → Int × σ × List Nat

/-! ## `memcpy` on byte lists -/

/-- The call `memcpy(&dst[d], &src[s], n)` with `int` operands: `n` is
converted to `size_t`, so a negative `n` is a huge count.  The result is
`none` when one of the two ranges leaves its array. -/
def memcpy (dst : List Nat) (d : Int) (src : List Nat) (s : Int) (n : Int) :
    Option (List Nat) :=
  if 0 ≤ d ∧ 0 ≤ s ∧ 0 ≤ n ∧ d + n ≤ dst.length ∧ s + n ≤ src.length then
    some (dst.take d.toNat ++ ((src.drop s.toNat).take n.toNat ++ dst.drop (d.toNat + n.toNat)))
  else none

/-! ## The driver -/

/-- The function `setFields`: `d_id | (opcode << 7) | (res << 12) | (scan_line << 25)`,
returned as `uint32_t`.  The `int` arguments are given by their 32-bit
patterns. -/
def setFields (d_id opcode res scan_line : Nat) : Nat :=
  (d_id ||| (opcode <<< 7) ||| (res <<< 12) ||| (scan_line <<< 25)) % 4294967296

/-- The function `getDisplayID`; the result is the returned `int` followed by
the values stored in `*scaled_y` and `*scaled_x`. -/
def getDisplayID (k : Consts) (mtron : multitron) (x y : Nat) : Int × Nat × Nat :=
  let scaled_y := y % k.SUBDISPLAY_HEIGHT
  let scaled_x := x % k.SUBDISPLAY_WIDTH
  let row := toI32 (y / k.SUBDISPLAY_HEIGHT : Nat)
  let col := toI32 (x / k.SUBDISPLAY_WIDTH : Nat)
  let height := toI32 (mtron.rows * k.SUBDISPLAY_HEIGHT)
  let width := toI32 (mtron.cols * k.SUBDISPLAY_WIDTH)
  -- `y < 0` and `x < 0` are false for unsigned operands
  if y ≥ toU32 height ∨ x ≥ toU32 width then
    (-1, scaled_y, scaled_x)
  else
    (toI32 (row * mtron.cols + col), scaled_y, scaled_x)

/-- The function `mtron_getpixel`; the result is the returned `int`, the
device state and the byte at `*color` (`color` on entry). -/
def mtron_getpixel {σ : Type} (k : Consts) (tronctl : Tronctl σ) (mtron : multitron)
    (dev : σ) (scanline : List Nat) (x y : Nat) (color : Nat) : Exec (Int × σ × Nat) :=
  match getDisplayID k mtron x y with
  | (DisplayID, scaled_y, scaled_x) =>
    if DisplayID = -1 then .returns (-1, dev, color)
    else
      let op := setFields (toU32 DisplayID) k.MTRON_READ_LINE 0 scaled_y
      match tronctl dev op scanline with
      | (_, dev1, scanline1) =>
        match memcpy [color] 0 scanline1 scaled_x 1 with
        | none => .undefined
        | some c => .returns (0, dev1, c.headD color)

/-- The function `mtron_putpixel`; the result is the returned `int` and the
device state.  The two `printf` calls are not modelled. -/
def mtron_putpixel {σ : Type} (k : Consts) (tronctl : Tronctl σ) (mtron : multitron)
    (dev : σ) (scanline : List Nat) (x y : Nat) (color : Nat) : Exec (Int × σ) :=
  match getDisplayID k mtron x y with
  | (DisplayID, scaled_y, scaled_x) =>
    if DisplayID = -1 then .returns (-1, dev)
    else
      let op := setFields (toU32 DisplayID) k.MTRON_READ_LINE 0 scaled_y
      match tronctl dev op scanline with
      | (_, dev1, scanline1) =>
        match memcpy scanline1 scaled_x [color] 0 1 with
        | none => .undefined
        | some scanline2 =>
          let op2 := setFields (toU32 DisplayID) k.MTRON_WRITE_LINE 0 scaled_y
          match tronctl dev1 op2 scanline2 with
          | (_, dev2, _) => .returns (0, dev2)

/-- The `if`/`else if` chain of the rectangle loops: `start_pos` and
`end_pos` for tile `j` of a row whose tiles are `displayID .. displayID_end`. -/
def tilePos (k : Consts) (x w : Nat) (displayID displayID_end j : Int) : Int × Int :=
  if displayID = displayID_end then
    (toI32 (x % k.SUBDISPLAY_WIDTH : Nat),
     toI32 (((x + w + 4294967295) % 4294967296) % k.SUBDISPLAY_WIDTH : Nat))
  else if j = displayID then
    (toI32 (x % k.SUBDISPLAY_WIDTH : Nat), 255)
  else if j = displayID_end then
    (0, toI32 (((x + w + 4294967295) % 4294967296) % k.SUBDISPLAY_WIDTH : Nat))
  else
    (0, 255)

/-- The inner loop `for (j = displayID; j <= displayID_end; j++)` of
`mtron_getrect`, from the current `j`; the state is the device, `scanline`,
`data` and `read_data`. -/
def getrect_tiles {σ : Type} (k : Consts) (tronctl : Tronctl σ) (x w : Nat) (i : Int)
    (displayID displayID_end : Int) :
    Nat → Int → σ → List Nat → List Nat → Int → Exec (σ × List Nat × List Nat × Int)
  | 0, _, _, _, _, _ => .fuelOut
  | fuel + 1, j, dev, scanline, data, read_data =>
    if j ≤ displayID_end then
      let op := setFields (toU32 j) k.MTRON_READ_LINE 0 (toU32 (i.tmod k.SUBDISPLAY_HEIGHT))
      match tronctl dev op scanline with
      | (_, dev1, scanline1) =>
        match tilePos k x w displayID displayID_end j with
        | (start_pos, end_pos) =>
          let bytes_to_read := toI32 (end_pos - start_pos + 1)
          match memcpy data read_data scanline1 start_pos bytes_to_read with
          | none => .undefined
          | some data1 =>
            let read_data1 := toI32 (read_data + bytes_to_read)
            match tronctl dev1 op scanline1 with
            | (_, dev2, scanline2) =>
              getrect_tiles k tronctl x w i displayID displayID_end fuel (toI32 (j + 1))
                dev2 scanline2 data1 read_data1
    else .returns (dev, scanline, data, read_data)

/-- The outer loop `for (i = y; i < (y+h); i++)` of `mtron_getrect`, from the
current `i`; `yh` is the `uint32_t` value of `y+h`. -/
def getrect_rows {σ : Type} (k : Consts) (tronctl : Tronctl σ) (mtron : multitron)
    (x w yh : Nat) :
    Nat → Int → σ → List Nat → List Nat → Int → Exec (Int × σ × List Nat)
  | 0, _, _, _, _, _ => .fuelOut
  | fuel + 1, i, dev, scanline, data, read_data =>
    if toU32 i < yh then
      let displayID := (getDisplayID k mtron x (toU32 i)).1
      let displayID_end :=
        (getDisplayID k mtron ((x + w + 4294967295) % 4294967296) (toU32 i)).1
      if displayID < 0 ∨ displayID_end < 0 then .returns (-1, dev, data)
      else
        match getrect_tiles k tronctl x w i displayID displayID_end 4294967297 displayID
            dev scanline data read_data with
        | .returns (dev1, scanline1, data1, read_data1) =>
          getrect_rows k tronctl mtron x w yh fuel (toI32 (i + 1)) dev1 scanline1 data1
            read_data1
        | .undefined => .undefined
        | .fuelOut => .fuelOut
    else .returns (0, dev, data)

/-- The function `mtron_getrect`; the result is the returned `int`, the
device state and the content of the caller's buffer `data`. -/
def mtron_getrect {σ : Type} (k : Consts) (tronctl : Tronctl σ) (mtron : multitron)
    (dev : σ) (scanline : List Nat) (x y w h : Nat) (data : List Nat) :
    Exec (Int × σ × List Nat) :=
  if (x + w) % 4294967296 > toU32 (toI32 (mtron.cols * k.SUBDISPLAY_WIDTH)) ∨
      (y + h) % 4294967296 > toU32 (toI32 (mtron.rows * k.SUBDISPLAY_HEIGHT)) then
    .returns (-1, dev, data)
  else
    getrect_rows k tronctl mtron x w ((y + h) % 4294967296) 4294967297 (toI32 y)
      dev scanline data 0

/-- The inner loop `for (j = displayID; j <= displayID_end; j++)` of
`mtron_putrect`, from the current `j`; the state is the device, `scanline`
and `written_data`. -/
def putrect_tiles {σ : Type} (k : Consts) (tronctl : Tronctl σ) (x w : Nat) (i : Int)
    (displayID displayID_end : Int) (data : List Nat) :
    Nat → Int → σ → List Nat → Int → Exec (σ × List Nat × Int)
  | 0, _, _, _, _ => .fuelOut
  | fuel + 1, j, dev, scanline, written_data =>
    if j ≤ displayID_end then
      let op := setFields (toU32 j) k.MTRON_READ_LINE 0 (toU32 (i.tmod k.SUBDISPLAY_HEIGHT))
      match tronctl dev op scanline with
      | (_, dev1, scanline1) =>
        match tilePos k x w displayID displayID_end j with
        | (start_pos, end_pos) =>
          let bytes_to_write := toI32 (end_pos - start_pos + 1)
          match memcpy scanline1 start_pos data written_data bytes_to_write with
          | none => .undefined
          | some scanline2 =>
            let written_data1 := toI32 (written_data + bytes_to_write)
            let op2 :=
              setFields (toU32 j) k.MTRON_WRITE_LINE 0 (toU32 (i.tmod k.SUBDISPLAY_HEIGHT))
            match tronctl dev1 op2 scanline2 with
            | (_, dev2, scanline3) =>
              putrect_tiles k tronctl x w i displayID displayID_end data fuel (toI32 (j + 1))
                dev2 scanline3 written_data1
    else .returns (dev, scanline, written_data)

/-- The outer loop `for (i = y; i < (y+h); i++)` of `mtron_putrect`, from the
current `i`; `yh` is the `uint32_t` value of `y+h`. -/
def putrect_rows {σ : Type} (k : Consts) (tronctl : Tronctl σ) (mtron : multitron)
    (x w yh : Nat) (data : List Nat) :
    Nat → Int → σ → List Nat → Int → Exec (Int × σ)
  | 0, _, _, _, _ => .fuelOut
  | fuel + 1, i, dev, scanline, written_data =>
    if toU32 i < yh then
      let displayID := (getDisplayID k mtron x (toU32 i)).1
      let displayID_end :=
        (getDisplayID k mtron ((x + w + 4294967295) % 4294967296) (toU32 i)).1
      if displayID < 0 ∨ displayID_end < 0 then .returns (-1, dev)
      else
        match putrect_tiles k tronctl x w i displayID displayID_end data 4294967297 displayID
            dev scanline written_data with
        | .returns (dev1, scanline1, written_data1) =>
          putrect_rows k tronctl mtron x w yh data fuel (toI32 (i + 1)) dev1 scanline1
            written_data1
        | .undefined => .undefined
        | .fuelOut => .fuelOut
    else .returns (0, dev)

/-- The function `mtron_putrect`; the result is the returned `int` and the
device state. -/
def mtron_putrect {σ : Type} (k : Consts) (tronctl : Tronctl σ) (mtron : multitron)
    (dev : σ) (scanline : List Nat) (x y w h : Nat) (data : List Nat) : Exec (Int × σ) :=
  if (x + w) % 4294967296 > toU32 (toI32 (mtron.cols * k.SUBDISPLAY_WIDTH)) ∨
      (y + h) % 4294967296 > toU32 (toI32 (mtron.rows * k.SUBDISPLAY_HEIGHT)) then
    .returns (-1, dev)
  else
    putrect_rows k tronctl mtron x w ((y + h) % 4294967296) data 4294967297 (toI32 y)
      dev scanline 0

/-! ## The store/load hardware model -/

/-- Display state: the byte at a position of a scanline of a tile, as
`display tile line pos`. -/
abbrev Display := Nat → Nat → Nat → Nat

/-- The 256 bytes the display holds for a scanline of a tile. -/
def scanOf (display : Display) (tile line : Nat) : List Nat :=
  (List.range 256).map (display tile line)

/-- Modelled from the spec: `tronctl`, the hardware control primitive, which
is an external collaborator of the driver.  The command word is decoded by
the bit layout of section 4.1 (tile index at bit 0, opcode at bit 7, reserved
at bit 12, scanline at bit 25).  READ_LINE returns the stored 256-byte
scanline of the addressed tile and scanline, WRITE_LINE stores the 256 bytes
of the buffer there, and both succeed with status 0.  Other opcodes are not
served: status -1, nothing changes. -/
def storeLoad (k : Consts) : Tronctl Display := fun display op buf =>
  let tile := op % 128
  let opcode := (op / 128) % 32
  let line := (op / 33554432) % 128
  if opcode = k.MTRON_READ_LINE then
    (0, display, scanOf display tile line)
  else if opcode = k.MTRON_WRITE_LINE then
    (0, (fun t l p => if t = tile ∧ l = line ∧ p < 256 then buf.getD p 0 else display t l p),
      buf)
  else
    (-1, display, buf)


/-! ## Exchange traces and failing devices -/

/-- One `tronctl` exchange as seen at the interface: the command word, the
buffer handed to the call, the status returned and the buffer on return. -/
structure Exchange where
  op : Nat
  buf : List Nat
  status : Int
  out : List Nat

/-- The device `tronctl` with a record of its exchanges: the state is the
state of `tronctl` and the list of the exchanges so far, oldest first.  The
device itself behaves as before. -/
def traced {σ : Type} (tronctl : Tronctl σ) : Tronctl (σ × List Exchange) := fun dev op buf =>
  ((tronctl dev.1 op buf).1,
    ((tronctl dev.1 op buf).2.1,
      dev.2 ++ [⟨op, buf, (tronctl dev.1 op buf).1, (tronctl dev.1 op buf).2.2⟩]),
    (tronctl dev.1 op buf).2.2)

/-- Modelled from the spec: a `tronctl` on which every exchange signals a
device-level failure (section 6: a non-zero status), here -1, and leaves the
buffer as it is. -/
def failing : Tronctl Unit := fun dev _ buf => (-1, dev, buf)

/-- The device returns a 256-byte buffer when it is handed one: `tronctl`
works on the caller's `char[256]` array, whose size it cannot change. -/
def Keeps256 {σ : Type} (tronctl : Tronctl σ) : Prop :=
  ∀ (dev : σ) (op : Nat) (buf : List Nat), buf.length = 256 →
    (tronctl dev op buf).2.2.length = 256

/-! ## The tile steps of a rectangle transfer (section 4.4) -/

/-- One step of the algorithm of section 4.4, for one tile of one row: the
tile index `j`, the scanline `i mod TILE_HEIGHT`, the byte range
`[start_pos, end_pos]` inside the scanline and the position of the running
cursor in the caller's buffer before the step. -/
structure TileStep where
  tile : Nat
  line : Nat
  start_pos : Nat
  end_pos : Nat
  cursor : Nat

/-- The step for row `y + r` and tile column `q`, with tiles 256 bytes wide:
the columns of the rectangle that fall into the tile are
`max x (256 q) .. min (x+w-1) (256 q + 255)`, and the bytes of the row before
them are `max x (256 q) - x`. -/
def mkStep (k : Consts) (m : multitron) (x y w r q : Nat) : TileStep where
  tile := (y + r) / k.SUBDISPLAY_HEIGHT * m.cols.toNat + q
  line := (y + r) % k.SUBDISPLAY_HEIGHT
  start_pos := max x (256 * q) % 256
  end_pos := min (x + w - 1) (256 * q + 255) % 256
  cursor := r * w + (max x (256 * q) - x)

/-- The steps of row `y + r`, left to right: one for each of the tile columns
`x / 256 .. (x+w-1) / 256`. -/
def rowSteps (k : Consts) (m : multitron) (x y w r : Nat) : List TileStep :=
  (List.range' (x / 256) ((x + w - 1) / 256 + 1 - x / 256)).map (mkStep k m x y w r)

/-- The steps of the rectangle: the rows `y .. y+h-1` in increasing order. -/
def rectSteps (k : Consts) (m : multitron) (x y w h : Nat) : List TileStep :=
  (List.range' 0 h).flatMap (rowSteps k m x y w)

/-- What `mtron_getrect` does for a list of steps, from the caller's buffer
`d` to the caller's buffer `d1`: for each step two READ_LINE exchanges in a
row, both with the command word of the step's tile and scanline, the second on
the buffer that the first returned, and in between one `memcpy` of
`end_pos - start_pos + 1` bytes from `start_pos` of the buffer the first
exchange returned to the cursor of the caller's buffer. -/
def GetPairs (k : Consts) : List TileStep → List Exchange → List Nat → List Nat → Prop
  | [], l, d, d1 => l = [] ∧ d1 = d
  | _ :: _, [], _, _ => False
  | _ :: _, [_], _, _ => False
  | st :: steps, e1 :: e2 :: l, d, d1 =>
    e1.op = setFields st.tile k.MTRON_READ_LINE 0 st.line ∧
    e2.op = setFields st.tile k.MTRON_READ_LINE 0 st.line ∧
    e2.buf = e1.out ∧
    ∃ d2 : List Nat,
      memcpy d st.cursor e1.out st.start_pos ((st.end_pos - st.start_pos + 1 : Nat) : Int)
        = some d2 ∧
      GetPairs k steps l d2 d1

/-- What `mtron_putrect` exchanges for a list of steps: for each step a
READ_LINE and then a WRITE_LINE with the command words of the step's tile and
scanline, where the buffer handed to WRITE_LINE is the buffer READ_LINE
returned with the bytes `start_pos .. end_pos` replaced by the
`end_pos - start_pos + 1` bytes of `data` at the cursor. -/
def PutPairs (k : Consts) (data : List Nat) : List TileStep → List Exchange → Prop
  | [], l => l = []
  | _ :: _, [] => False
  | _ :: _, [_] => False
  | st :: steps, e1 :: e2 :: l =>
    e1.op = setFields st.tile k.MTRON_READ_LINE 0 st.line ∧
    e2.op = setFields st.tile k.MTRON_WRITE_LINE 0 st.line ∧
    memcpy e1.out st.start_pos data st.cursor ((st.end_pos - st.start_pos + 1 : Nat) : Int)
      = some e2.buf ∧
    PutPairs k data steps l

/-! ## Well-formed constants and grids -/

/-- The constants and the grid keep every `int` product the driver forms
(`rows*SUBDISPLAY_HEIGHT`, `cols*SUBDISPLAY_WIDTH`, `row*cols + col`) inside
`int`, the tile sizes are positive, and the grid has at least one row and one
column.  Outside of this the C code divides by zero or overflows an `int`. -/
def IntSafe (k : Consts) (m : multitron) : Prop :=
  0 < k.SUBDISPLAY_WIDTH ∧ 0 < k.SUBDISPLAY_HEIGHT ∧ 1 ≤ m.rows ∧ 1 ≤ m.cols ∧
  m.rows * k.SUBDISPLAY_HEIGHT < 2147483648 ∧ m.cols * k.SUBDISPLAY_WIDTH < 2147483648 ∧
  m.rows * m.cols < 2147483648

instance (k : Consts) (m : multitron) : Decidable (IntSafe k m) := by
  unfold IntSafe; infer_instance

/-- The logical coordinate `(x, y)` lies on the grid. -/
def InBounds (k : Consts) (m : multitron) (x y : Nat) : Prop :=
  (x : Int) < m.cols * k.SUBDISPLAY_WIDTH ∧ (y : Int) < m.rows * k.SUBDISPLAY_HEIGHT

instance (k : Consts) (m : multitron) (x y : Nat) : Decidable (InBounds k m x y) := by
  unfold InBounds; infer_instance

/-- The constants and the grid fit the store/load hardware: a tile is at most
256 bytes wide (the length of a scanline), the scanline number and the tile
index fit their 7-bit fields of the command word, and the two opcodes are
distinct 5-bit values. -/
def Addressable (k : Consts) (m : multitron) : Prop :=
  0 < k.SUBDISPLAY_WIDTH ∧ k.SUBDISPLAY_WIDTH ≤ 256 ∧
  0 < k.SUBDISPLAY_HEIGHT ∧ k.SUBDISPLAY_HEIGHT ≤ 128 ∧
  k.MTRON_READ_LINE < 32 ∧ k.MTRON_WRITE_LINE < 32 ∧
  k.MTRON_READ_LINE ≠ k.MTRON_WRITE_LINE ∧
  1 ≤ m.rows ∧ 1 ≤ m.cols ∧ m.rows * m.cols ≤ 128

instance (k : Consts) (m : multitron) : Decidable (Addressable k m) := by
  unfold Addressable; infer_instance

/-- Row-major index of the tile that holds the logical coordinate `(x, y)`. -/
def tileOf (k : Consts) (m : multitron) (x y : Nat) : Nat :=
  (y / k.SUBDISPLAY_HEIGHT) * m.cols.toNat + x / k.SUBDISPLAY_WIDTH

theorem toI32_of_range {z : Int} (h1 : -2147483648 ≤ z) (h2 : z < 2147483648) :
    toI32 z = z := by
  unfold toI32; omega

theorem toU32_of_range {z : Int} (h1 : 0 ≤ z) (h2 : z < 4294967296) :
    toU32 z = z.toNat := by
  unfold toU32; congr 1; omega

theorem toU32_natCast {n : Nat} (h : n < 4294967296) : toU32 (n : Int) = n := by
  unfold toU32; omega

theorem toU32_neg {z : Int} (h1 : -2147483648 ≤ z) (h2 : z < 0) :
    2147483648 ≤ toU32 z := by
  unfold toU32; omega

/-! ## `getDisplayID` -/

theorem div_lt_of_lt_mul_int {y H : Nat} {rows : Int} (h : (y : Int) < rows * H) :
    ((y / H : Nat) : Int) < rows := by
  by_contra hc
  have hc : rows ≤ ((y / H : Nat) : Int) := not_lt.mp hc
  have h1 : rows * (H : Int) ≤ ((y / H : Nat) : Int) * (H : Int) :=
    mul_le_mul_of_nonneg_right hc (Int.ofNat_nonneg H)
  have h2 : (y / H) * H ≤ y := Nat.div_mul_le_self y H
  have h3 : (((y / H) * H : Nat) : Int) ≤ (y : Int) := by exact_mod_cast h2
  rw [Nat.cast_mul] at h3
  omega

theorem tileIndex_bounds {k : Consts} {m : multitron} {x y : Nat}
    (hs : IntSafe k m) (hb : InBounds k m x y) :
    0 ≤ ((y / k.SUBDISPLAY_HEIGHT : Nat) : Int) * m.cols + ((x / k.SUBDISPLAY_WIDTH : Nat) : Int) ∧
    ((y / k.SUBDISPLAY_HEIGHT : Nat) : Int) * m.cols + ((x / k.SUBDISPLAY_WIDTH : Nat) : Int)
      < m.rows * m.cols := by
  obtain ⟨_, _, hr, hc, _, _, _⟩ := hs
  obtain ⟨hx, hy⟩ := hb
  have h1 := div_lt_of_lt_mul_int hy
  have h2 := div_lt_of_lt_mul_int hx
  generalize y / k.SUBDISPLAY_HEIGHT = q at h1 ⊢
  generalize x / k.SUBDISPLAY_WIDTH = c at h2 ⊢
  have h3 : 0 ≤ (q : Int) * m.cols := mul_nonneg (Int.ofNat_nonneg _) (by omega)
  have h4 : ((q : Int) + 1) * m.cols ≤ m.rows * m.cols :=
    mul_le_mul_of_nonneg_right (by omega) (by omega)
  rw [add_mul, one_mul] at h4
  constructor
  · omega
  · omega

theorem toU32_toI32_of_range {z : Int} (h1 : 0 ≤ z) (h2 : z < 2147483648) :
    toU32 (toI32 z) = z.toNat := by
  rw [toI32_of_range (by omega) h2, toU32_of_range h1 (by omega)]

theorem getDisplayID_inBounds {k : Consts} {m : multitron} {x y : Nat}
    (hs : IntSafe k m) (hb : InBounds k m x y) :
    getDisplayID k m x y =
      (((y / k.SUBDISPLAY_HEIGHT : Nat) : Int) * m.cols + ((x / k.SUBDISPLAY_WIDTH : Nat) : Int),
       y % k.SUBDISPLAY_HEIGHT, x % k.SUBDISPLAY_WIDTH) := by
  have hidx := tileIndex_bounds hs hb
  obtain ⟨hW, hH, hr, hc, hrH, hcW, hrc⟩ := hs
  obtain ⟨hx, hy⟩ := hb
  have h1 := div_lt_of_lt_mul_int hy
  have h2 := div_lt_of_lt_mul_int hx
  have hr1 : m.rows ≤ m.rows * k.SUBDISPLAY_HEIGHT :=
    le_mul_of_one_le_right (by omega) (by omega)
  have hc1 : m.cols ≤ m.cols * k.SUBDISPLAY_WIDTH :=
    le_mul_of_one_le_right (by omega) (by omega)
  have hcond : ¬ (y ≥ (m.rows * k.SUBDISPLAY_HEIGHT).toNat ∨
      x ≥ (m.cols * k.SUBDISPLAY_WIDTH).toNat) := by omega
  unfold getDisplayID
  simp only [toU32_toI32_of_range (z := m.rows * k.SUBDISPLAY_HEIGHT) (by omega) hrH,
    toU32_toI32_of_range (z := m.cols * k.SUBDISPLAY_WIDTH) (by omega) hcW]
  rw [if_neg hcond]
  generalize y % k.SUBDISPLAY_HEIGHT = sy
  generalize x % k.SUBDISPLAY_WIDTH = sx
  generalize y / k.SUBDISPLAY_HEIGHT = q at h1 hidx ⊢
  generalize x / k.SUBDISPLAY_WIDTH = c at h2 hidx ⊢
  rw [toI32_of_range (z := (q : Int)) (by omega) (by omega),
    toI32_of_range (z := (c : Int)) (by omega) (by omega),
    toI32_of_range (z := (q : Int) * m.cols + (c : Int)) (by omega) (by omega)]

theorem getDisplayID_outOfBounds {k : Consts} {m : multitron} {x y : Nat}
    (hs : IntSafe k m) (hb : ¬ InBounds k m x y) :
    getDisplayID k m x y = (-1, y % k.SUBDISPLAY_HEIGHT, x % k.SUBDISPLAY_WIDTH) := by
  obtain ⟨hW, hH, hr, hc, hrH, hcW, hrc⟩ := hs
  unfold InBounds at hb
  have hr0 : 0 ≤ m.rows * k.SUBDISPLAY_HEIGHT := mul_nonneg (by omega) (by omega)
  have hc0 : 0 ≤ m.cols * k.SUBDISPLAY_WIDTH := mul_nonneg (by omega) (by omega)
  have hcond : (y ≥ (m.rows * k.SUBDISPLAY_HEIGHT).toNat ∨
      x ≥ (m.cols * k.SUBDISPLAY_WIDTH).toNat) := by omega
  unfold getDisplayID
  simp only [toU32_toI32_of_range (z := m.rows * k.SUBDISPLAY_HEIGHT) (by omega) hrH,
    toU32_toI32_of_range (z := m.cols * k.SUBDISPLAY_WIDTH) (by omega) hcW]
  rw [if_pos hcond]

/-! ## `setFields` -/

theorem setFields_eq_sum {d o r s : Nat} (hd : d < 128) (ho : o < 32) (hr : r < 8192)
    (hs : s < 128) :
    setFields d o r s = d + o * 128 + r * 4096 + s * 33554432 := by
  unfold setFields
  have e1 : d ||| (o <<< 7) = d + o * 128 := by
    rw [Nat.shiftLeft_eq, Nat.or_comm]
    have := Nat.mul_add_lt_is_or (i := 7) (b := d) (by omega) o
    rw [Nat.mul_comm (2 ^ 7) o] at this
    rw [← this]; omega
  have e2 : (d + o * 128) ||| (r <<< 12) = d + o * 128 + r * 4096 := by
    rw [Nat.shiftLeft_eq, Nat.or_comm]
    have := Nat.mul_add_lt_is_or (i := 12) (b := d + o * 128) (by omega) r
    rw [Nat.mul_comm (2 ^ 12) r] at this
    rw [← this]; omega
  have e3 : (d + o * 128 + r * 4096) ||| (s <<< 25) = d + o * 128 + r * 4096 + s * 33554432 := by
    rw [Nat.shiftLeft_eq, Nat.or_comm]
    have := Nat.mul_add_lt_is_or (i := 25) (b := d + o * 128 + r * 4096) (by omega) s
    rw [Nat.mul_comm (2 ^ 25) s] at this
    rw [← this]; omega
  rw [e1, e2, e3]
  omega

theorem and_mask_eq_mod (x n : Nat) : x &&& (2 ^ n - 1) = x % 2 ^ n :=
  Nat.and_pow_two_sub_one_eq_mod x n

/-- The fields the hardware reads back from a command word built by
`setFields` from in-range fields. -/
theorem setFields_decode {d o r s : Nat} (hd : d < 128) (ho : o < 32) (hr : r < 8192)
    (hs : s < 128) :
    setFields d o r s % 128 = d ∧ (setFields d o r s / 128) % 32 = o ∧
    (setFields d o r s / 4096) % 8192 = r ∧ (setFields d o r s / 33554432) % 128 = s := by
  rw [setFields_eq_sum hd ho hr hs]
  omega

/-! ## `memcpy` lemmas -/

theorem memcpy_of_nat (dst src : List Nat) (d s n : Nat)
    (hd : d + n ≤ dst.length) (hs : s + n ≤ src.length) :
    memcpy dst d src s n
      = some (dst.take d ++ ((src.drop s).take n ++ dst.drop (d + n))) := by
  unfold memcpy
  rw [if_pos (by omega)]
  simp

theorem memcpy_length (dst src : List Nat) (d s n : Nat)
    (hd : d + n ≤ dst.length) (hs : s + n ≤ src.length) :
    (dst.take d ++ ((src.drop s).take n ++ dst.drop (d + n))).length = dst.length := by
  simp only [List.length_append, List.length_take, List.length_drop]
  omega

theorem memcpy_getElem? (dst src : List Nat) (d s n : Nat)
    (hd : d + n ≤ dst.length) (hs : s + n ≤ src.length) (p : Nat) :
    (dst.take d ++ ((src.drop s).take n ++ dst.drop (d + n)))[p]?
      = if d ≤ p ∧ p < d + n then src[s + (p - d)]? else dst[p]? := by
  simp only [List.getElem?_append, List.length_take, List.length_drop, List.getElem?_take,
    List.getElem?_drop]
  have h1 : min d dst.length = d := by omega
  have h2 : min n (src.length - s) = n := by omega
  rw [h1, h2]
  by_cases c1 : p < d
  · rw [if_pos c1, if_pos c1, if_neg (by omega)]
  · rw [if_neg c1]
    by_cases c2 : p - d < n
    · rw [if_pos c2, if_pos c2, if_pos (by omega)]
    · rw [if_neg c2, if_neg (by omega)]
      congr 1
      omega

/-! ## The store/load hardware on the driver's command words -/

theorem scan_length (display : Display) (t l : Nat) :
    (scanOf display t l).length = 256 := by
  simp [scanOf]

theorem Addressable.intSafe {k : Consts} {m : multitron} (h : Addressable k m) :
    IntSafe k m := by
  obtain ⟨hW0, hW, hH0, hH, _, _, _, hr, hc, hrc⟩ := h
  have h1 : m.rows * 1 ≤ m.rows * m.cols := mul_le_mul_of_nonneg_left hc (by omega)
  have h2 : 1 * m.cols ≤ m.rows * m.cols := mul_le_mul_of_nonneg_right hr (by omega)
  have h3 : m.rows * (k.SUBDISPLAY_HEIGHT : Int) ≤ 128 * 128 :=
    mul_le_mul (by omega) (by omega) (by omega) (by omega)
  have h4 : m.cols * (k.SUBDISPLAY_WIDTH : Int) ≤ 128 * 256 :=
    mul_le_mul (by omega) (by omega) (by omega) (by omega)
  refine ⟨hW0, hH0, hr, hc, ?_, ?_, ?_⟩ <;> omega

theorem tileOf_cast {k : Consts} {m : multitron} (x y : Nat) (hc : 1 ≤ m.cols) :
    ((tileOf k m x y : Nat) : Int)
      = ((y / k.SUBDISPLAY_HEIGHT : Nat) : Int) * m.cols + ((x / k.SUBDISPLAY_WIDTH : Nat) : Int) := by
  unfold tileOf
  rw [Nat.cast_add, Nat.cast_mul, Int.toNat_of_nonneg (by omega)]

theorem tileOf_lt {k : Consts} {m : multitron} {x y : Nat}
    (h : Addressable k m) (hb : InBounds k m x y) : tileOf k m x y < 128 := by
  have hidx := tileIndex_bounds h.intSafe hb
  obtain ⟨_, _, _, _, _, _, _, hr, hc, hrc⟩ := h
  rw [← tileOf_cast x y hc] at hidx
  omega

theorem getDisplayID_tileOf {k : Consts} {m : multitron} {x y : Nat}
    (hs : IntSafe k m) (hb : InBounds k m x y) :
    getDisplayID k m x y
      = (((tileOf k m x y : Nat) : Int), y % k.SUBDISPLAY_HEIGHT, x % k.SUBDISPLAY_WIDTH) := by
  rw [getDisplayID_inBounds hs hb, tileOf_cast x y hs.2.2.2.1]

/-! ## The pixel accessors on the store/load hardware -/

theorem memcpy_read_byte (src : List Nat) (c s : Nat) (hs : s < src.length) :
    memcpy [c] 0 src s 1 = some [src.getD s 0] := by
  have hm := memcpy_of_nat [c] src 0 s 1 (by simp) (by omega)
  simp only [Nat.cast_zero, Nat.cast_one] at hm
  rw [hm]
  congr 1
  apply List.ext_getElem?
  intro p
  rw [memcpy_getElem? [c] src 0 s 1 (by simp) (by omega) p]
  by_cases hp : p = 0
  · subst hp
    rw [if_pos (by omega), List.getD_eq_getElem?_getD]
    simp [List.getElem?_eq_getElem hs]
  · rw [if_neg (by omega)]
    have : 1 ≤ p := by omega
    simp [List.getElem?_eq_none, this]

theorem memcpy_write_byte (dst : List Nat) (c d : Nat) (hd : d < dst.length) :
    memcpy dst d [c] 0 1 = some (dst.set d c) := by
  have hm := memcpy_of_nat dst [c] d 0 1 (by omega) (by simp)
  simp only [Nat.cast_zero, Nat.cast_one] at hm
  rw [hm]
  congr 1
  apply List.ext_getElem?
  intro p
  rw [memcpy_getElem? dst [c] d 0 1 (by omega) (by simp) p, List.getElem?_set]
  by_cases hp : d = p
  · subst hp
    rw [if_pos (by omega), if_pos rfl, if_pos hd]
    simp
  · rw [if_neg (by omega), if_neg hp]

/-- Two coordinates on the grid with the same tile and the same local offsets
are the same coordinate. -/
theorem tileOf_injective {k : Consts} {m : multitron} {x y x' y' : Nat}
    (hs : IntSafe k m) (hb : InBounds k m x y) (hb' : InBounds k m x' y')
    (ht : tileOf k m x y = tileOf k m x' y')
    (hy : y % k.SUBDISPLAY_HEIGHT = y' % k.SUBDISPLAY_HEIGHT)
    (hx : x % k.SUBDISPLAY_WIDTH = x' % k.SUBDISPLAY_WIDTH) :
    x = x' ∧ y = y' := by
  obtain ⟨hW0, hH0, hr, hc, _, _, _⟩ := hs
  have c1 : x / k.SUBDISPLAY_WIDTH < m.cols.toNat := by
    have := div_lt_of_lt_mul_int hb.1
    omega
  have c2 : x' / k.SUBDISPLAY_WIDTH < m.cols.toNat := by
    have := div_lt_of_lt_mul_int hb'.1
    omega
  unfold tileOf at ht
  have e1 := Nat.div_add_mod x k.SUBDISPLAY_WIDTH
  have e2 := Nat.div_add_mod x' k.SUBDISPLAY_WIDTH
  have e3 := Nat.div_add_mod y k.SUBDISPLAY_HEIGHT
  have e4 := Nat.div_add_mod y' k.SUBDISPLAY_HEIGHT
  generalize x / k.SUBDISPLAY_WIDTH = a at *
  generalize x' / k.SUBDISPLAY_WIDTH = a' at *
  generalize y / k.SUBDISPLAY_HEIGHT = b at *
  generalize y' / k.SUBDISPLAY_HEIGHT = b' at *
  generalize m.cols.toNat = C at *
  have q1 : (b * C + a) / C = b := by
    rw [Nat.add_comm, Nat.add_mul_div_right _ _ (by omega), Nat.div_eq_of_lt c1, Nat.zero_add]
  have q2 : (b' * C + a') / C = b' := by
    rw [Nat.add_comm, Nat.add_mul_div_right _ _ (by omega), Nat.div_eq_of_lt c2, Nat.zero_add]
  have hbb : b = b' := by rw [← q1, ← q2, ht]
  subst hbb
  have haa : a = a' := by omega
  subst haa
  constructor
  · rw [← e1, ← e2, hx]
  · rw [← e3, ← e4, hy]

/-! ## Claims on the command word and the tile resolver -/

/-- C1: on a grid with at least one row and one column, `getDisplayID` maps an
in-bounds `(x, y)` to the row-major tile index
`(y / SUBDISPLAY_HEIGHT) * cols + (x / SUBDISPLAY_WIDTH)` and stores
`scaled_y = y mod SUBDISPLAY_HEIGHT` and `scaled_x = x mod SUBDISPLAY_WIDTH`. -/
theorem getDisplayID_resolves (k : Consts) (m : multitron) (x y : Nat)
    (hs : IntSafe k m)
    (hx : (x : Int) < m.cols * k.SUBDISPLAY_WIDTH)
    (hy : (y : Int) < m.rows * k.SUBDISPLAY_HEIGHT) :
    getDisplayID k m x y =
      (((y / k.SUBDISPLAY_HEIGHT : Nat) : Int) * m.cols + ((x / k.SUBDISPLAY_WIDTH : Nat) : Int),
       y % k.SUBDISPLAY_HEIGHT, x % k.SUBDISPLAY_WIDTH) :=
  getDisplayID_inBounds hs ⟨hx, hy⟩

/-- Witness of C1: with tile size 4 on a 2x2 grid, `(5, 1)` resolves to tile 1
with local offsets `(1, 1)`. -/
theorem getDisplayID_resolves_witness :
    IntSafe ⟨4, 4, 2, 3⟩ ⟨2, 2⟩ ∧ getDisplayID ⟨4, 4, 2, 3⟩ ⟨2, 2⟩ 5 1 = (1, 1, 1) :=
  ⟨by decide,
   (getDisplayID_resolves ⟨4, 4, 2, 3⟩ ⟨2, 2⟩ 5 1 (by decide) (by decide) (by decide)).trans
     (by decide)⟩

/-- C2: on a grid with at least one row and one column, `getDisplayID` returns
-1 exactly when `x >= cols*SUBDISPLAY_WIDTH` or `y >= rows*SUBDISPLAY_HEIGHT`;
a negative `int` converted to `uint32_t` is rejected in either coordinate. -/
theorem getDisplayID_rejects_iff (k : Consts) (m : multitron) (x y : Nat)
    (hs : IntSafe k m) :
    ((getDisplayID k m x y).1 = -1 ↔
      ((x : Int) ≥ m.cols * k.SUBDISPLAY_WIDTH ∨ (y : Int) ≥ m.rows * k.SUBDISPLAY_HEIGHT)) ∧
    (∀ z : Int, -2147483648 ≤ z → z < 0 →
      (getDisplayID k m (toU32 z) y).1 = -1 ∧ (getDisplayID k m x (toU32 z)).1 = -1) := by
  constructor
  · by_cases hb : InBounds k m x y
    · have hidx := tileIndex_bounds hs hb
      rw [getDisplayID_inBounds hs hb]
      unfold InBounds at hb
      constructor
      · intro h
        simp only at h
        omega
      · intro h
        omega
    · rw [getDisplayID_outOfBounds hs hb]
      unfold InBounds at hb
      constructor
      · intro _
        omega
      · intro _
        rfl
  · intro z hz1 hz2
    have hz := toU32_neg hz1 hz2
    obtain ⟨hW, hH, hr, hc, hrH, hcW, hrc⟩ := hs
    have hs : IntSafe k m := ⟨hW, hH, hr, hc, hrH, hcW, hrc⟩
    generalize toU32 z = u at hz
    constructor
    · have hb : ¬ InBounds k m u y := by
        unfold InBounds; omega
      rw [getDisplayID_outOfBounds hs hb]
    · have hb : ¬ InBounds k m x u := by
        unfold InBounds; omega
      rw [getDisplayID_outOfBounds hs hb]

/-- Witness of C2: on a 2x1 grid of 256x128 tiles the coordinate `(512, 0)` and
the converted negative `-1` are rejected. -/
theorem getDisplayID_rejects_iff_witness :
    IntSafe ⟨256, 128, 2, 3⟩ ⟨1, 2⟩ ∧
    (((getDisplayID ⟨256, 128, 2, 3⟩ ⟨1, 2⟩ 512 0).1 = -1 ↔
      (((512 : Nat) : Int) ≥ (2 : Int) * (256 : Nat) ∨ ((0 : Nat) : Int) ≥ (1 : Int) * (128 : Nat))) ∧
    (∀ z : Int, -2147483648 ≤ z → z < 0 →
      (getDisplayID ⟨256, 128, 2, 3⟩ ⟨1, 2⟩ (toU32 z) 0).1 = -1 ∧
      (getDisplayID ⟨256, 128, 2, 3⟩ ⟨1, 2⟩ 512 (toU32 z)).1 = -1)) :=
  ⟨by decide, getDisplayID_rejects_iff ⟨256, 128, 2, 3⟩ ⟨1, 2⟩ 512 0 (by decide)⟩

/-- C3: on a grid with at least one row and one column, the tile index that
`getDisplayID` returns for an in-bounds `(x, y)` lies in `[0, rows*cols)`. -/
theorem getDisplayID_index_range (k : Consts) (m : multitron) (x y : Nat)
    (hs : IntSafe k m)
    (hx : (x : Int) < m.cols * k.SUBDISPLAY_WIDTH)
    (hy : (y : Int) < m.rows * k.SUBDISPLAY_HEIGHT) :
    0 ≤ (getDisplayID k m x y).1 ∧ (getDisplayID k m x y).1 < m.rows * m.cols := by
  rw [getDisplayID_inBounds hs ⟨hx, hy⟩]
  exact tileIndex_bounds hs ⟨hx, hy⟩

/-- Witness of C3: the bottom-right pixel of a 3x2 grid of 256x128 tiles. -/
theorem getDisplayID_index_range_witness :
    IntSafe ⟨256, 128, 2, 3⟩ ⟨3, 2⟩ ∧
    0 ≤ (getDisplayID ⟨256, 128, 2, 3⟩ ⟨3, 2⟩ 511 383).1 ∧
    (getDisplayID ⟨256, 128, 2, 3⟩ ⟨3, 2⟩ 511 383).1 < (3 : Int) * 2 :=
  ⟨by decide,
   getDisplayID_index_range ⟨256, 128, 2, 3⟩ ⟨3, 2⟩ 511 383 (by decide) (by decide) (by decide)⟩

/-- C4: for in-range fields (`d_id < 2^7`, `opcode < 2^5`, `res < 2^13`,
`scan_line < 2^7`), `setFields` is `d_id + opcode*2^7 + res*2^12 + scan_line*2^25`,
every field is recovered by shifting right by its offset (0, 7, 12, 25) and
masking to its width (7, 5, 13, 7), and so the packing is injective. -/
theorem setFields_layout (d_id opcode res scan_line : Nat)
    (hd : d_id < 2 ^ 7) (ho : opcode < 2 ^ 5) (hr : res < 2 ^ 13) (hs : scan_line < 2 ^ 7) :
    setFields d_id opcode res scan_line
      = d_id + opcode * 2 ^ 7 + res * 2 ^ 12 + scan_line * 2 ^ 25 ∧
    setFields d_id opcode res scan_line < 2 ^ 32 ∧
    (setFields d_id opcode res scan_line >>> 0) &&& (2 ^ 7 - 1) = d_id ∧
    (setFields d_id opcode res scan_line >>> 7) &&& (2 ^ 5 - 1) = opcode ∧
    (setFields d_id opcode res scan_line >>> 12) &&& (2 ^ 13 - 1) = res ∧
    (setFields d_id opcode res scan_line >>> 25) &&& (2 ^ 7 - 1) = scan_line ∧
    (∀ d' o' r' s' : Nat, d' < 2 ^ 7 → o' < 2 ^ 5 → r' < 2 ^ 13 → s' < 2 ^ 7 →
      setFields d_id opcode res scan_line = setFields d' o' r' s' →
      d_id = d' ∧ opcode = o' ∧ res = r' ∧ scan_line = s') := by
  have hd' : d_id < 128 := by omega
  have ho' : opcode < 32 := by omega
  have hr' : res < 8192 := by omega
  have hs' : scan_line < 128 := by omega
  have hsum := setFields_eq_sum hd' ho' hr' hs'
  obtain ⟨f1, f2, f3, f4⟩ := setFields_decode hd' ho' hr' hs'
  refine ⟨by rw [hsum]; omega, by rw [hsum]; omega, ?_, ?_, ?_, ?_, ?_⟩
  · rw [and_mask_eq_mod, Nat.shiftRight_eq_div_pow]; omega
  · rw [and_mask_eq_mod, Nat.shiftRight_eq_div_pow]; omega
  · rw [and_mask_eq_mod, Nat.shiftRight_eq_div_pow]; omega
  · rw [and_mask_eq_mod, Nat.shiftRight_eq_div_pow]; omega
  · intro d' o' r' s' hd2 ho2 hr2 hs2 heq
    rw [hsum, setFields_eq_sum (by omega) (by omega) (by omega) (by omega)] at heq
    omega

/-- Witness of C4: tile 5, opcode 2, reserved 0, scanline 100. -/
theorem setFields_layout_witness :
    setFields 5 2 0 100 = 5 + 2 * 2 ^ 7 + 0 * 2 ^ 12 + 100 * 2 ^ 25 ∧
    setFields 5 2 0 100 < 2 ^ 32 ∧
    (setFields 5 2 0 100 >>> 0) &&& (2 ^ 7 - 1) = 5 ∧
    (setFields 5 2 0 100 >>> 7) &&& (2 ^ 5 - 1) = 2 ∧
    (setFields 5 2 0 100 >>> 12) &&& (2 ^ 13 - 1) = 0 ∧
    (setFields 5 2 0 100 >>> 25) &&& (2 ^ 7 - 1) = 100 ∧
    (∀ d' o' r' s' : Nat, d' < 2 ^ 7 → o' < 2 ^ 5 → r' < 2 ^ 13 → s' < 2 ^ 7 →
      setFields 5 2 0 100 = setFields d' o' r' s' →
      5 = d' ∧ 2 = o' ∧ 0 = r' ∧ 100 = s') :=
  setFields_layout 5 2 0 100 (by decide) (by decide) (by decide) (by decide)

/-! ## Claims on the pixel accessors -/

theorem toI32_natCast {n : Nat} (h : n < 2147483648) : toI32 (n : Int) = n :=
  toI32_of_range (by omega) (by omega)

theorem toU32_tmod_natCast (i H : Nat) (h : i % H < 4294967296) :
    toU32 ((i : Int).tmod (H : Int)) = i % H := by
  rw [← Int.ofNat_tmod, toU32_natCast h]

theorem tilePos_eq {k : Consts} (hW : k.SUBDISPLAY_WIDTH = 256) {x w : Nat} (hw : 1 ≤ w)
    (hxw : x + w ≤ 2147483648) (base q : Nat) (hq1 : x / 256 ≤ q)
    (hq2 : q ≤ (x + w - 1) / 256) :
    tilePos k x w ((base + x / 256 : Nat) : Int) ((base + (x + w - 1) / 256 : Nat) : Int)
        ((base + q : Nat) : Int)
      = (((max x (256 * q) % 256 : Nat) : Int),
         ((min (x + w - 1) (256 * q + 255) % 256 : Nat) : Int)) := by
  have e : (x + w + 4294967295) % 4294967296 = x + w - 1 := by omega
  have e1 : x % 256 < 2147483648 := by omega
  have e2 : (x + w - 1) % 256 < 2147483648 := by omega
  unfold tilePos
  rw [hW, e, toI32_natCast e1, toI32_natCast e2]
  by_cases c1 : ((base + x / 256 : Nat) : Int) = ((base + (x + w - 1) / 256 : Nat) : Int)
  · rw [if_pos c1]
    have f1 : max x (256 * q) % 256 = x % 256 := by omega
    have f2 : min (x + w - 1) (256 * q + 255) % 256 = (x + w - 1) % 256 := by omega
    rw [f1, f2]
  · rw [if_neg c1]
    by_cases c2 : ((base + q : Nat) : Int) = ((base + x / 256 : Nat) : Int)
    · rw [if_pos c2]
      have f1 : max x (256 * q) % 256 = x % 256 := by omega
      have f2 : min (x + w - 1) (256 * q + 255) % 256 = 255 := by omega
      rw [f1, f2]
      rfl
    · rw [if_neg c2]
      by_cases c3 : ((base + q : Nat) : Int) = ((base + (x + w - 1) / 256 : Nat) : Int)
      · rw [if_pos c3]
        have f1 : max x (256 * q) % 256 = 0 := by omega
        have f2 : min (x + w - 1) (256 * q + 255) % 256 = (x + w - 1) % 256 := by omega
        rw [f1, f2]
        rfl
      · rw [if_neg c3]
        have f1 : max x (256 * q) % 256 = 0 := by omega
        have f2 : min (x + w - 1) (256 * q + 255) % 256 = 255 := by omega
        rw [f1, f2]
        rfl

theorem span_facts {x w q : Nat} (hw : 1 ≤ w) (hq1 : x / 256 ≤ q)
    (hq : q ≤ (x + w - 1) / 256) :
    ∃ lo hi : Nat, max x (256 * q) = lo ∧ min (x + w - 1) (256 * q + 255) = hi ∧
      min (x + w) (max x (256 * q)) = lo ∧ min (x + w) (max x (256 * (q + 1))) = hi + 1 ∧
      x ≤ lo ∧ lo ≤ hi ∧ hi + 1 ≤ x + w ∧ 256 * q ≤ lo ∧ hi ≤ 256 * q + 255 ∧
      (hi + 1 = x + w ∨ hi = 256 * q + 255) :=
  ⟨_, _, rfl, rfl, by omega, by omega, by omega, by omega, by omega, by omega, by omega,
    by omega⟩

/-! ## `mtron_getrect` on the store/load hardware -/

theorem getrect_tiles_exit {σ : Type} (k : Consts) (tronctl : Tronctl σ) (x w : Nat) (i : Int)
    (displayID displayID_end j : Int) (hj : displayID_end < j) (fuel : Nat) (dev : σ)
    (scan data : List Nat) (cur : Int) :
    getrect_tiles k tronctl x w i displayID displayID_end (fuel + 1) j dev scan data cur
      = .returns (dev, scan, data, cur) := by
  rw [getrect_tiles, if_neg (by omega)]

theorem tileOf_row {k : Consts} {m : multitron} (hW : k.SUBDISPLAY_WIDTH = 256) (x i : Nat) :
    tileOf k m x i = i / k.SUBDISPLAY_HEIGHT * m.cols.toNat + x / 256 := by
  unfold tileOf
  rw [hW]

theorem putrect_tiles_exit {σ : Type} (k : Consts) (tronctl : Tronctl σ) (x w : Nat) (i : Int)
    (displayID displayID_end j : Int) (data : List Nat) (hj : displayID_end < j) (fuel : Nat)
    (dev : σ) (scan : List Nat) (cur : Int) :
    putrect_tiles k tronctl x w i displayID displayID_end data (fuel + 1) j dev scan cur
      = .returns (dev, scan, cur) := by
  rw [putrect_tiles, if_neg (by omega)]

theorem rect_hyps {k : Consts} {m : multitron} (hW : k.SUBDISPLAY_WIDTH = 256)
    {x y w h : Nat}
    (hx : (x : Int) + w ≤ m.cols * k.SUBDISPLAY_WIDTH)
    (hy : (y : Int) + h ≤ m.rows * k.SUBDISPLAY_HEIGHT) :
    ((x + w : Nat) : Int) ≤ m.cols * 256 ∧
    ((y + h : Nat) : Int) ≤ m.rows * k.SUBDISPLAY_HEIGHT := by
  rw [hW] at hx
  push_cast at hx ⊢
  exact ⟨hx, hy⟩

/-- Without 32-bit wrap, a rectangle that leaves the grid is rejected by the
first check of `mtron_getrect`, before any exchange. -/
theorem getrect_rejects {σ : Type} (k : Consts) (tronctl : Tronctl σ) (m : multitron)
    (dev : σ) (scanline : List Nat) (x y w h : Nat) (data : List Nat) (hs : IntSafe k m)
    (hxw : x + w < 4294967296) (hyh : y + h < 4294967296)
    (hout : (x : Int) + w > m.cols * k.SUBDISPLAY_WIDTH ∨
      (y : Int) + h > m.rows * k.SUBDISPLAY_HEIGHT) :
    mtron_getrect k tronctl m dev scanline x y w h data = .returns (-1, dev, data) := by
  obtain ⟨hW, hH, hr, hc, hrH, hcW, hrc⟩ := hs
  have hr0 : 0 ≤ m.rows * k.SUBDISPLAY_HEIGHT := mul_nonneg (by omega) (by omega)
  have hc0 : 0 ≤ m.cols * k.SUBDISPLAY_WIDTH := mul_nonneg (by omega) (by omega)
  have hcond : (x + w) % 4294967296 > (m.cols * k.SUBDISPLAY_WIDTH).toNat ∨
      (y + h) % 4294967296 > (m.rows * k.SUBDISPLAY_HEIGHT).toNat := by omega
  unfold mtron_getrect
  rw [toU32_toI32_of_range hc0 hcW, toU32_toI32_of_range hr0 hrH, if_pos hcond]

/-- Without 32-bit wrap, a rectangle that leaves the grid is rejected by the
first check of `mtron_putrect`, before any exchange. -/
theorem putrect_rejects {σ : Type} (k : Consts) (tronctl : Tronctl σ) (m : multitron)
    (dev : σ) (scanline : List Nat) (x y w h : Nat) (data : List Nat) (hs : IntSafe k m)
    (hxw : x + w < 4294967296) (hyh : y + h < 4294967296)
    (hout : (x : Int) + w > m.cols * k.SUBDISPLAY_WIDTH ∨
      (y : Int) + h > m.rows * k.SUBDISPLAY_HEIGHT) :
    mtron_putrect k tronctl m dev scanline x y w h data = .returns (-1, dev) := by
  obtain ⟨hW, hH, hr, hc, hrH, hcW, hrc⟩ := hs
  have hr0 : 0 ≤ m.rows * k.SUBDISPLAY_HEIGHT := mul_nonneg (by omega) (by omega)
  have hc0 : 0 ≤ m.cols * k.SUBDISPLAY_WIDTH := mul_nonneg (by omega) (by omega)
  have hcond : (x + w) % 4294967296 > (m.cols * k.SUBDISPLAY_WIDTH).toNat ∨
      (y + h) % 4294967296 > (m.rows * k.SUBDISPLAY_HEIGHT).toNat := by omega
  unfold mtron_putrect
  rw [toU32_toI32_of_range hc0 hcW, toU32_toI32_of_range hr0 hrH, if_pos hcond]

/-- C10, at wrapping inputs: on a 1x1 grid of 256x128 tiles, with `y = 10` and
`h = 2^32 - 5` the 32-bit sum `y+h` is 5, the bounds check passes, the row loop
runs no iteration and both `mtron_getrect` and `mtron_putrect` return 0; with
`x = 10` and `w = 2^32 - 5` the check passes as well and the first `memcpy`
is called with the count `4 - 10 + 1 = -5`, which is undefined behaviour.
Neither call returns -1. -/
theorem rect_wrap_not_rejected :
    (∀ (display : Display) (scanline data : List Nat),
      mtron_getrect ⟨256, 128, 2, 3⟩ (storeLoad ⟨256, 128, 2, 3⟩) ⟨1, 1⟩ display scanline
        0 10 1 4294967291 data = .returns (0, display, data)) ∧
    (∀ (display : Display) (scanline data : List Nat),
      mtron_putrect ⟨256, 128, 2, 3⟩ (storeLoad ⟨256, 128, 2, 3⟩) ⟨1, 1⟩ display scanline
        0 10 1 4294967291 data = .returns (0, display)) ∧
    (∀ (display : Display) (scanline data : List Nat),
      mtron_getrect ⟨256, 128, 2, 3⟩ (storeLoad ⟨256, 128, 2, 3⟩) ⟨1, 1⟩ display scanline
        10 0 4294967291 1 data = .undefined) ∧
    (∀ (display : Display) (scanline data : List Nat),
      mtron_putrect ⟨256, 128, 2, 3⟩ (storeLoad ⟨256, 128, 2, 3⟩) ⟨1, 1⟩ display scanline
        10 0 4294967291 1 data = .undefined) := by
  refine ⟨fun _ _ _ => rfl, fun _ _ _ => rfl, fun _ _ _ => rfl, fun _ _ _ => rfl⟩

/-! ## Claim on the inverse of the tile resolver -/

/-- C20: on a grid with at least one row and one column, two in-bounds
coordinates that `getDisplayID` resolves to the same tile index and the same
local offsets are equal, and `(x, y)` is recovered from the result as
`x = (index mod cols) * SUBDISPLAY_WIDTH + scaled_x` and
`y = (index / cols) * SUBDISPLAY_HEIGHT + scaled_y`. -/
theorem getDisplayID_injective (k : Consts) (m : multitron) (x1 y1 x2 y2 : Nat)
    (hs : IntSafe k m)
    (hx1 : (x1 : Int) < m.cols * k.SUBDISPLAY_WIDTH)
    (hy1 : (y1 : Int) < m.rows * k.SUBDISPLAY_HEIGHT)
    (hx2 : (x2 : Int) < m.cols * k.SUBDISPLAY_WIDTH)
    (hy2 : (y2 : Int) < m.rows * k.SUBDISPLAY_HEIGHT) :
    (getDisplayID k m x1 y1 = getDisplayID k m x2 y2 → x1 = x2 ∧ y1 = y2) ∧
    (x1 : Int) = ((getDisplayID k m x1 y1).1 % m.cols) * k.SUBDISPLAY_WIDTH
      + (getDisplayID k m x1 y1).2.2 ∧
    (y1 : Int) = ((getDisplayID k m x1 y1).1 / m.cols) * k.SUBDISPLAY_HEIGHT
      + (getDisplayID k m x1 y1).2.1 := by
  have hb1 : InBounds k m x1 y1 := ⟨hx1, hy1⟩
  have hb2 : InBounds k m x2 y2 := ⟨hx2, hy2⟩
  have hc : 1 ≤ m.cols := hs.2.2.2.1
  refine ⟨?_, ?_, ?_⟩
  · intro heq
    rw [getDisplayID_tileOf hs hb1, getDisplayID_tileOf hs hb2] at heq
    have e1 : ((tileOf k m x1 y1 : Nat) : Int) = ((tileOf k m x2 y2 : Nat) : Int) :=
      congrArg Prod.fst heq
    have e2 : y1 % k.SUBDISPLAY_HEIGHT = y2 % k.SUBDISPLAY_HEIGHT :=
      congrArg (fun t => t.2.1) heq
    have e3 : x1 % k.SUBDISPLAY_WIDTH = x2 % k.SUBDISPLAY_WIDTH :=
      congrArg (fun t => t.2.2) heq
    exact tileOf_injective hs hb1 hb2 (by exact_mod_cast e1) e2 e3
  · rw [getDisplayID_inBounds hs hb1]
    dsimp only
    have hlt := div_lt_of_lt_mul_int hx1
    have hmod : (((y1 / k.SUBDISPLAY_HEIGHT : Nat) : Int) * m.cols
        + ((x1 / k.SUBDISPLAY_WIDTH : Nat) : Int)) % m.cols
        = ((x1 / k.SUBDISPLAY_WIDTH : Nat) : Int) := by
      rw [add_comm, Int.add_mul_emod_self, Int.emod_eq_of_lt (Int.ofNat_nonneg _) hlt]
    rw [hmod]
    have := Nat.div_add_mod x1 k.SUBDISPLAY_WIDTH
    have h2 : ((k.SUBDISPLAY_WIDTH * (x1 / k.SUBDISPLAY_WIDTH) + x1 % k.SUBDISPLAY_WIDTH : Nat) : Int)
        = (x1 : Int) := by rw [this]
    rw [← h2]
    push_cast
    ring
  · rw [getDisplayID_inBounds hs hb1]
    dsimp only
    have hlt := div_lt_of_lt_mul_int hx1
    have hdiv : (((y1 / k.SUBDISPLAY_HEIGHT : Nat) : Int) * m.cols
        + ((x1 / k.SUBDISPLAY_WIDTH : Nat) : Int)) / m.cols
        = ((y1 / k.SUBDISPLAY_HEIGHT : Nat) : Int) := by
      rw [add_comm, Int.add_mul_ediv_right _ _ (by omega),
        Int.ediv_eq_zero_of_lt (Int.ofNat_nonneg _) hlt, zero_add]
    rw [hdiv]
    have := Nat.div_add_mod y1 k.SUBDISPLAY_HEIGHT
    have h2 : ((k.SUBDISPLAY_HEIGHT * (y1 / k.SUBDISPLAY_HEIGHT) + y1 % k.SUBDISPLAY_HEIGHT : Nat) : Int)
        = (y1 : Int) := by rw [this]
    rw [← h2]
    push_cast
    ring

/-- Witness of C20: the pixels `(300, 130)` and `(300, 130)` of a 2x2 grid of
256x128 tiles. -/
theorem getDisplayID_injective_witness :
    IntSafe ⟨256, 128, 2, 3⟩ ⟨2, 2⟩ ∧
    (getDisplayID ⟨256, 128, 2, 3⟩ ⟨2, 2⟩ 300 130 = getDisplayID ⟨256, 128, 2, 3⟩ ⟨2, 2⟩ 300 130 →
      300 = 300 ∧ 130 = 130) ∧
    ((300 : Nat) : Int) = ((getDisplayID ⟨256, 128, 2, 3⟩ ⟨2, 2⟩ 300 130).1 % 2) * (256 : Nat)
      + (getDisplayID ⟨256, 128, 2, 3⟩ ⟨2, 2⟩ 300 130).2.2 ∧
    ((130 : Nat) : Int) = ((getDisplayID ⟨256, 128, 2, 3⟩ ⟨2, 2⟩ 300 130).1 / 2) * (128 : Nat)
      + (getDisplayID ⟨256, 128, 2, 3⟩ ⟨2, 2⟩ 300 130).2.1 :=
  ⟨by decide,
   getDisplayID_injective ⟨256, 128, 2, 3⟩ ⟨2, 2⟩ 300 130 300 130 (by decide) (by decide)
     (by decide) (by decide) (by decide)⟩

/-! ## Claims on device failures in the pixel accessors -/

theorem getDisplayID_nonneg {k : Consts} {m : multitron} {x y : Nat}
    (hs : IntSafe k m) (hb : InBounds k m x y) :
    (getDisplayID k m x y).1 ≠ -1 ∧ 0 ≤ (getDisplayID k m x y).1 := by
  have hidx := tileIndex_bounds hs hb
  rw [getDisplayID_inBounds hs hb]
  dsimp only
  omega

/-- Whatever the device answers, `mtron_getpixel` returns 0 for a pixel of
the grid. -/
theorem getpixel_returns_zero {σ : Type} {k : Consts} {m : multitron} (tronctl : Tronctl σ)
    (hk : Keeps256 tronctl) (hs : IntSafe k m) (hW : k.SUBDISPLAY_WIDTH ≤ 256)
    (dev : σ) (scanline : List Nat) (hscan : scanline.length = 256)
    {x y : Nat} (hb : InBounds k m x y) (color : Nat) :
    ∃ (dev' : σ) (c : Nat),
      mtron_getpixel k tronctl m dev scanline x y color = .returns (0, dev', c) := by
  obtain ⟨hne, _⟩ := getDisplayID_nonneg hs hb
  have hp : x % k.SUBDISPLAY_WIDTH < 256 := lt_of_lt_of_le (Nat.mod_lt _ hs.1) hW
  unfold mtron_getpixel
  rw [getDisplayID_inBounds hs hb] at hne ⊢
  dsimp only at hne ⊢
  rw [if_neg hne, memcpy_read_byte _ _ _ (by rw [hk _ _ _ hscan]; exact hp)]
  exact ⟨_, _, rfl⟩

/-- Whatever the device answers, `mtron_putpixel` returns 0 for a pixel of
the grid. -/
theorem putpixel_returns_zero {σ : Type} {k : Consts} {m : multitron} (tronctl : Tronctl σ)
    (hk : Keeps256 tronctl) (hs : IntSafe k m) (hW : k.SUBDISPLAY_WIDTH ≤ 256)
    (dev : σ) (scanline : List Nat) (hscan : scanline.length = 256)
    {x y : Nat} (hb : InBounds k m x y) (color : Nat) :
    ∃ dev' : σ, mtron_putpixel k tronctl m dev scanline x y color = .returns (0, dev') := by
  obtain ⟨hne, _⟩ := getDisplayID_nonneg hs hb
  have hp : x % k.SUBDISPLAY_WIDTH < 256 := lt_of_lt_of_le (Nat.mod_lt _ hs.1) hW
  unfold mtron_putpixel
  rw [getDisplayID_inBounds hs hb] at hne ⊢
  dsimp only at hne ⊢
  rw [if_neg hne, memcpy_write_byte _ _ _ (by rw [hk _ _ _ hscan]; exact hp)]
  exact ⟨_, rfl⟩

theorem traced_keeps256 {σ : Type} {tronctl : Tronctl σ} (hk : Keeps256 tronctl) :
    Keeps256 (traced tronctl) := by
  intro dev op buf hbuf
  exact hk dev.1 op buf hbuf

set_option maxRecDepth 100000 in
/-- C13, counterexample: on a device whose every exchange returns the status
-1, `mtron_getpixel(0, 0)` and `mtron_putpixel(0, 0, 7)` on a 1x1 grid issue
their exchanges (one READ_LINE; one READ_LINE and one WRITE_LINE), each with
status -1, and return 0. -/
theorem pixel_failure_not_reported :
    mtron_getpixel ⟨256, 128, 2, 3⟩ (traced failing) ⟨1, 1⟩ ((), []) (List.replicate 256 0)
        0 0 7
      = .returns (0, ((), [⟨setFields 0 2 0 0, List.replicate 256 0, -1,
          List.replicate 256 0⟩]), 0) ∧
    mtron_putpixel ⟨256, 128, 2, 3⟩ (traced failing) ⟨1, 1⟩ ((), []) (List.replicate 256 0)
        0 0 7
      = .returns (0, ((), [⟨setFields 0 2 0 0, List.replicate 256 0, -1,
          List.replicate 256 0⟩,
        ⟨setFields 0 3 0 0, (List.replicate 256 0).set 0 7, -1,
          (List.replicate 256 0).set 0 7⟩])) :=
  ⟨rfl, rfl⟩

/-- C13, as amended: for every pixel of the grid and every device,
`mtron_getpixel` and `mtron_putpixel` return 0 whatever status their
exchanges return. -/
theorem pixel_status_ignored {σ : Type} (k : Consts) (m : multitron) (tronctl : Tronctl σ)
    (dev : σ) (scanline : List Nat) (x y color : Nat)
    (hk : Keeps256 tronctl) (hs : IntSafe k m) (hW : k.SUBDISPLAY_WIDTH ≤ 256)
    (hscan : scanline.length = 256)
    (hx : (x : Int) < m.cols * k.SUBDISPLAY_WIDTH)
    (hy : (y : Int) < m.rows * k.SUBDISPLAY_HEIGHT) :
    (∃ (dev' : σ) (c : Nat),
      mtron_getpixel k tronctl m dev scanline x y color = .returns (0, dev', c)) ∧
    (∃ dev' : σ, mtron_putpixel k tronctl m dev scanline x y color = .returns (0, dev')) :=
  ⟨getpixel_returns_zero tronctl hk hs hW dev scanline hscan ⟨hx, hy⟩ color,
   putpixel_returns_zero tronctl hk hs hW dev scanline hscan ⟨hx, hy⟩ color⟩

/-- Witness of C13 as amended: the failing device on a 1x1 grid of 256x128
tiles. -/
theorem pixel_status_ignored_witness :
    Keeps256 failing ∧ IntSafe ⟨256, 128, 2, 3⟩ ⟨1, 1⟩ ∧
    (∃ (dev' : Unit) (c : Nat),
      mtron_getpixel ⟨256, 128, 2, 3⟩ failing ⟨1, 1⟩ () (List.replicate 256 0) 0 0 7
        = .returns (0, dev', c)) ∧
    (∃ dev' : Unit,
      mtron_putpixel ⟨256, 128, 2, 3⟩ failing ⟨1, 1⟩ () (List.replicate 256 0) 0 0 7
        = .returns (0, dev')) :=
  ⟨fun _ _ _ h => h, by decide,
   pixel_status_ignored ⟨256, 128, 2, 3⟩ ⟨1, 1⟩ failing () (List.replicate 256 0) 0 0 7
     (fun _ _ _ h => h) (by decide) (by decide) (List.length_replicate _ _) (by decide)
     (by decide)⟩

/-! ## Rejected calls -/

theorem getpixel_reject_clean {σ : Type} (k : Consts) (m : multitron) (tronctl : Tronctl σ)
    (dev : σ) (scanline : List Nat) (x y color : Nat) (dev' : σ) (c : Nat)
    (h : mtron_getpixel k tronctl m dev scanline x y color = .returns (-1, dev', c)) :
    dev' = dev ∧ c = color := by
  unfold mtron_getpixel at h
  dsimp only at h
  by_cases hd : (getDisplayID k m x y).1 = -1
  · rw [if_pos hd] at h
    injection h with h
    injection h with h1 h2
    injection h2 with h2 h3
    exact ⟨h2.symm, h3.symm⟩
  · rw [if_neg hd] at h
    split at h
    · cases h
    · injection h with h
      injection h with h1 h2
      cases h1

theorem putpixel_reject_clean {σ : Type} (k : Consts) (m : multitron) (tronctl : Tronctl σ)
    (dev : σ) (scanline : List Nat) (x y color : Nat) (dev' : σ)
    (h : mtron_putpixel k tronctl m dev scanline x y color = .returns (-1, dev')) :
    dev' = dev := by
  unfold mtron_putpixel at h
  dsimp only at h
  by_cases hd : (getDisplayID k m x y).1 = -1
  · rw [if_pos hd] at h
    injection h with h
    injection h with h1 h2
    exact h2.symm
  · rw [if_neg hd] at h
    split at h
    · cases h
    · injection h with h
      injection h with h1 h2
      cases h1

theorem getrect_rows_no_reject {σ : Type} {k : Consts} {m : multitron} (tronctl : Tronctl σ)
    (hs : IntSafe k m) {x w yh : Nat}
    (hx : (x : Int) < m.cols * k.SUBDISPLAY_WIDTH)
    (hxe : (((x + w + 4294967295) % 4294967296 : Nat) : Int) < m.cols * k.SUBDISPLAY_WIDTH)
    (hyh : (yh : Int) ≤ m.rows * k.SUBDISPLAY_HEIGHT) :
    ∀ (fuel : Nat) (i : Int) (dev : σ) (scan data : List Nat) (cur : Int) (dev' : σ)
      (data' : List Nat),
      getrect_rows k tronctl m x w yh fuel i dev scan data cur ≠ .returns (-1, dev', data') := by
  intro fuel
  induction fuel with
  | zero =>
    intro i dev scan data cur dev' data' h
    rw [getrect_rows] at h
    cases h
  | succ fuel ih =>
    intro i dev scan data cur dev' data' h
    rw [getrect_rows] at h
    generalize toU32 i = u at h
    by_cases hc : u < yh
    · have hb1 : InBounds k m x u := ⟨hx, by omega⟩
      have hb2 : InBounds k m ((x + w + 4294967295) % 4294967296) u := ⟨hxe, by omega⟩
      have n1 := (getDisplayID_nonneg hs hb1).2
      have n2 := (getDisplayID_nonneg hs hb2).2
      rw [if_pos hc] at h
      dsimp only at h
      rw [if_neg (by omega)] at h
      split at h
      · exact ih _ _ _ _ _ _ _ h
      · cases h
      · cases h
    · rw [if_neg hc] at h
      injection h with h
      injection h with h1 h2
      cases h1

theorem putrect_rows_no_reject {σ : Type} {k : Consts} {m : multitron} (tronctl : Tronctl σ)
    (hs : IntSafe k m) {x w yh : Nat} (data : List Nat)
    (hx : (x : Int) < m.cols * k.SUBDISPLAY_WIDTH)
    (hxe : (((x + w + 4294967295) % 4294967296 : Nat) : Int) < m.cols * k.SUBDISPLAY_WIDTH)
    (hyh : (yh : Int) ≤ m.rows * k.SUBDISPLAY_HEIGHT) :
    ∀ (fuel : Nat) (i : Int) (dev : σ) (scan : List Nat) (cur : Int) (dev' : σ),
      putrect_rows k tronctl m x w yh data fuel i dev scan cur ≠ .returns (-1, dev') := by
  intro fuel
  induction fuel with
  | zero =>
    intro i dev scan cur dev' h
    rw [putrect_rows] at h
    cases h
  | succ fuel ih =>
    intro i dev scan cur dev' h
    rw [putrect_rows] at h
    generalize toU32 i = u at h
    by_cases hc : u < yh
    · have hb1 : InBounds k m x u := ⟨hx, by omega⟩
      have hb2 : InBounds k m ((x + w + 4294967295) % 4294967296) u := ⟨hxe, by omega⟩
      have n1 := (getDisplayID_nonneg hs hb1).2
      have n2 := (getDisplayID_nonneg hs hb2).2
      rw [if_pos hc] at h
      dsimp only at h
      rw [if_neg (by omega)] at h
      split at h
      · exact ih _ _ _ _ _ h
      · cases h
      · cases h
    · rw [if_neg hc] at h
      injection h with h
      injection h with h1 h2
      cases h1

theorem getrect_reject_clean {σ : Type} (k : Consts) (m : multitron) (tronctl : Tronctl σ)
    (hs : IntSafe k m) (dev : σ) (scanline : List Nat) (x y w h : Nat) (data : List Nat)
    (dev' : σ) (data' : List Nat)
    (hr : mtron_getrect k tronctl m dev scanline x y w h data = .returns (-1, dev', data')) :
    dev' = dev ∧ data' = data := by
  have hr0 : 0 ≤ m.rows * k.SUBDISPLAY_HEIGHT :=
    mul_nonneg (by have := hs.2.2.1; omega) (by omega)
  have hrH := hs.2.2.2.2.1
  unfold mtron_getrect at hr
  rw [toU32_toI32_of_range hr0 hrH] at hr
  by_cases hchk : (x + w) % 4294967296 > toU32 (toI32 (m.cols * k.SUBDISPLAY_WIDTH)) ∨
      (y + h) % 4294967296 > (m.rows * k.SUBDISPLAY_HEIGHT).toNat
  · rw [if_pos hchk] at hr
    injection hr with hr
    injection hr with h1 h2
    injection h2 with h2 h3
    exact ⟨h2.symm, h3.symm⟩
  · rw [if_neg hchk] at hr
    have hyh : (((y + h) % 4294967296 : Nat) : Int) ≤ m.rows * k.SUBDISPLAY_HEIGHT := by omega
    by_cases hX : (x : Int) < m.cols * k.SUBDISPLAY_WIDTH ∧
        (((x + w + 4294967295) % 4294967296 : Nat) : Int) < m.cols * k.SUBDISPLAY_WIDTH
    · exact absurd hr (getrect_rows_no_reject tronctl hs hX.1 hX.2 hyh _ _ _ _ _ _ _ _)
    · rw [show (4294967297 : Nat) = 4294967296 + 1 from rfl, getrect_rows] at hr
      generalize toU32 (toI32 (y : Int)) = u at hr
      by_cases hc : u < (y + h) % 4294967296
      · rw [if_pos hc] at hr
        dsimp only at hr
        have hneg : (getDisplayID k m x u).1 < 0 ∨
            (getDisplayID k m ((x + w + 4294967295) % 4294967296) u).1 < 0 := by
          by_cases h1 : (x : Int) < m.cols * k.SUBDISPLAY_WIDTH
          · right
            rw [getDisplayID_outOfBounds hs (fun hb => hX ⟨h1, hb.1⟩)]
            exact (by decide : (-1 : Int) < 0)
          · left
            rw [getDisplayID_outOfBounds hs (fun hb => h1 hb.1)]
            exact (by decide : (-1 : Int) < 0)
        rw [if_pos hneg] at hr
        injection hr with hr
        injection hr with h1 h2
        injection h2 with h2 h3
        exact ⟨h2.symm, h3.symm⟩
      · rw [if_neg hc] at hr
        injection hr with hr
        injection hr with h1 h2
        cases h1

theorem putrect_reject_clean {σ : Type} (k : Consts) (m : multitron) (tronctl : Tronctl σ)
    (hs : IntSafe k m) (dev : σ) (scanline : List Nat) (x y w h : Nat) (data : List Nat)
    (dev' : σ)
    (hr : mtron_putrect k tronctl m dev scanline x y w h data = .returns (-1, dev')) :
    dev' = dev := by
  have hr0 : 0 ≤ m.rows * k.SUBDISPLAY_HEIGHT :=
    mul_nonneg (by have := hs.2.2.1; omega) (by omega)
  have hrH := hs.2.2.2.2.1
  unfold mtron_putrect at hr
  rw [toU32_toI32_of_range hr0 hrH] at hr
  by_cases hchk : (x + w) % 4294967296 > toU32 (toI32 (m.cols * k.SUBDISPLAY_WIDTH)) ∨
      (y + h) % 4294967296 > (m.rows * k.SUBDISPLAY_HEIGHT).toNat
  · rw [if_pos hchk] at hr
    injection hr with hr
    injection hr with h1 h2
    exact h2.symm
  · rw [if_neg hchk] at hr
    have hyh : (((y + h) % 4294967296 : Nat) : Int) ≤ m.rows * k.SUBDISPLAY_HEIGHT := by omega
    by_cases hX : (x : Int) < m.cols * k.SUBDISPLAY_WIDTH ∧
        (((x + w + 4294967295) % 4294967296 : Nat) : Int) < m.cols * k.SUBDISPLAY_WIDTH
    · exact absurd hr (putrect_rows_no_reject tronctl hs data hX.1 hX.2 hyh _ _ _ _ _ _)
    · rw [show (4294967297 : Nat) = 4294967296 + 1 from rfl, putrect_rows] at hr
      generalize toU32 (toI32 (y : Int)) = u at hr
      by_cases hc : u < (y + h) % 4294967296
      · rw [if_pos hc] at hr
        dsimp only at hr
        have hneg : (getDisplayID k m x u).1 < 0 ∨
            (getDisplayID k m ((x + w + 4294967295) % 4294967296) u).1 < 0 := by
          by_cases h1 : (x : Int) < m.cols * k.SUBDISPLAY_WIDTH
          · right
            rw [getDisplayID_outOfBounds hs (fun hb => hX ⟨h1, hb.1⟩)]
            exact (by decide : (-1 : Int) < 0)
          · left
            rw [getDisplayID_outOfBounds hs (fun hb => h1 hb.1)]
            exact (by decide : (-1 : Int) < 0)
        rw [if_pos hneg] at hr
        injection hr with hr
        injection hr with h1 h2
        exact h2.symm
      · rw [if_neg hc] at hr
        injection hr with hr
        injection hr with h1 h2
        cases h1

/-- C12: on a grid with at least one row and one column, for every input,
also one whose sums `x+w` or `y+h` wrap: whenever `mtron_getpixel`,
`mtron_putpixel`, `mtron_getrect` or `mtron_putrect` returns -1, the record of
exchanges is as before the call (no exchange was issued), the device state is
as before, and the caller's buffer (`*color`, `data`) is as before. -/
theorem reject_before_any_exchange {σ : Type} (k : Consts) (m : multitron)
    (tronctl : Tronctl σ) (dev : σ) (log : List Exchange) (scanline : List Nat)
    (x y w h color : Nat) (data : List Nat) (hs : IntSafe k m) :
    (∀ (dev' : σ × List Exchange) (c : Nat),
      mtron_getpixel k (traced tronctl) m (dev, log) scanline x y color
        = .returns (-1, dev', c) → dev' = (dev, log) ∧ c = color) ∧
    (∀ (dev' : σ × List Exchange),
      mtron_putpixel k (traced tronctl) m (dev, log) scanline x y color
        = .returns (-1, dev') → dev' = (dev, log)) ∧
    (∀ (dev' : σ × List Exchange) (data' : List Nat),
      mtron_getrect k (traced tronctl) m (dev, log) scanline x y w h data
        = .returns (-1, dev', data') → dev' = (dev, log) ∧ data' = data) ∧
    (∀ (dev' : σ × List Exchange),
      mtron_putrect k (traced tronctl) m (dev, log) scanline x y w h data
        = .returns (-1, dev') → dev' = (dev, log)) :=
  ⟨fun dev' c hr => getpixel_reject_clean k m _ _ scanline x y color dev' c hr,
   fun dev' hr => putpixel_reject_clean k m _ _ scanline x y color dev' hr,
   fun dev' data' hr => getrect_reject_clean k m _ hs _ scanline x y w h data dev' data' hr,
   fun dev' hr => putrect_reject_clean k m _ hs _ scanline x y w h data dev' hr⟩

/-- Witness of C12: a 1x1 grid of 256x128 tiles and the rectangle
`x = 300, y = 0, w = 2^32 - 100, h = 1`, whose sum `x+w` wraps to 200 and
which `mtron_getrect` rejects in its first row. -/
theorem reject_before_any_exchange_witness :
    IntSafe ⟨256, 128, 2, 3⟩ ⟨1, 1⟩ ∧
    (∃ (dev' : Display × List Exchange) (data' : List Nat),
      mtron_getrect ⟨256, 128, 2, 3⟩ (traced (storeLoad ⟨256, 128, 2, 3⟩)) ⟨1, 1⟩
        ((fun _ _ _ => 0), []) [] 300 0 4294967196 1 [5] = .returns (-1, dev', data') ∧
      dev' = ((fun _ _ _ => 0), []) ∧ data' = [5]) :=
  ⟨by decide, _, _, rfl,
   (reject_before_any_exchange ⟨256, 128, 2, 3⟩ ⟨1, 1⟩ (storeLoad ⟨256, 128, 2, 3⟩)
     (fun _ _ _ => 0) [] [] 300 0 4294967196 1 0 [5] (by decide)).2.2.1 _ _ rfl⟩

/-! ## Empty rectangles -/

set_option maxRecDepth 100000 in
/-- C11, at rectangles of width 0 on a 1x1 grid of 256x128 tiles, with the
store/load hardware and a record of the exchanges.  With `x = 0, w = 0, h = 1`
the coordinate `x+w-1` wraps to `2^32 - 1`, `getDisplayID` rejects it and both
functions return -1, not 0.  With `x = 10, w = 0, h = 1` both functions return
0 but do touch the hardware: `mtron_getrect` issues two READ_LINE exchanges and
`mtron_putrect` a READ_LINE and a WRITE_LINE for tile 0, scanline 0. -/
theorem empty_rect_not_a_noop :
    mtron_getrect ⟨256, 128, 2, 3⟩ (traced (storeLoad ⟨256, 128, 2, 3⟩)) ⟨1, 1⟩
        ((fun _ _ _ => 0), []) [] 0 0 0 1 []
      = .returns (-1, ((fun _ _ _ => 0), []), []) ∧
    mtron_putrect ⟨256, 128, 2, 3⟩ (traced (storeLoad ⟨256, 128, 2, 3⟩)) ⟨1, 1⟩
        ((fun _ _ _ => 0), []) [] 0 0 0 1 []
      = .returns (-1, ((fun _ _ _ => 0), [])) ∧
    (∃ (dev' : Display × List Exchange),
      mtron_getrect ⟨256, 128, 2, 3⟩ (traced (storeLoad ⟨256, 128, 2, 3⟩)) ⟨1, 1⟩
          ((fun _ _ _ => 0), []) [] 10 0 0 1 []
        = .returns (0, dev', []) ∧
      dev'.2.map (fun e => e.op) = [setFields 0 2 0 0, setFields 0 2 0 0]) ∧
    (∃ (dev' : Display × List Exchange),
      mtron_putrect ⟨256, 128, 2, 3⟩ (traced (storeLoad ⟨256, 128, 2, 3⟩)) ⟨1, 1⟩
          ((fun _ _ _ => 0), []) [] 10 0 0 1 []
        = .returns (0, dev') ∧
      dev'.2.map (fun e => e.op) = [setFields 0 2 0 0, setFields 0 3 0 0]) :=
  ⟨rfl, rfl, ⟨_, rfl, rfl⟩, ⟨_, rfl, rfl⟩⟩

/-- A rectangle of height 0 whose 32-bit sums pass the first check is a
no-op of `mtron_getrect`: it returns 0 before any exchange. -/
theorem getrect_height_zero {σ : Type} (k : Consts) (m : multitron) (tronctl : Tronctl σ)
    (hs : IntSafe k m) (dev : σ) (scanline : List Nat) (x y w : Nat) (data : List Nat)
    (hx : (x : Int) + w ≤ m.cols * k.SUBDISPLAY_WIDTH)
    (hy : (y : Int) ≤ m.rows * k.SUBDISPLAY_HEIGHT) :
    mtron_getrect k tronctl m dev scanline x y w 0 data = .returns (0, dev, data) := by
  obtain ⟨hW, hH, hr, hc, hrH, hcW, hrc⟩ := hs
  have hr0 : 0 ≤ m.rows * k.SUBDISPLAY_HEIGHT := mul_nonneg (by omega) (by omega)
  have hc0 : 0 ≤ m.cols * k.SUBDISPLAY_WIDTH := mul_nonneg (by omega) (by omega)
  have hcond : ¬ ((x + w) % 4294967296 > (m.cols * k.SUBDISPLAY_WIDTH).toNat ∨
      (y + 0) % 4294967296 > (m.rows * k.SUBDISPLAY_HEIGHT).toNat) := by omega
  have hy32 : y < 2147483648 := by omega
  unfold mtron_getrect
  rw [toU32_toI32_of_range hc0 hcW, toU32_toI32_of_range hr0 hrH, if_neg hcond,
    show (4294967297 : Nat) = 4294967296 + 1 from rfl, getrect_rows,
    toI32_natCast hy32, toU32_natCast (by omega), if_neg (by omega)]

/-- A rectangle of height 0 whose 32-bit sums pass the first check is a
no-op of `mtron_putrect`: it returns 0 before any exchange. -/
theorem putrect_height_zero {σ : Type} (k : Consts) (m : multitron) (tronctl : Tronctl σ)
    (hs : IntSafe k m) (dev : σ) (scanline : List Nat) (x y w : Nat) (data : List Nat)
    (hx : (x : Int) + w ≤ m.cols * k.SUBDISPLAY_WIDTH)
    (hy : (y : Int) ≤ m.rows * k.SUBDISPLAY_HEIGHT) :
    mtron_putrect k tronctl m dev scanline x y w 0 data = .returns (0, dev) := by
  obtain ⟨hW, hH, hr, hc, hrH, hcW, hrc⟩ := hs
  have hr0 : 0 ≤ m.rows * k.SUBDISPLAY_HEIGHT := mul_nonneg (by omega) (by omega)
  have hc0 : 0 ≤ m.cols * k.SUBDISPLAY_WIDTH := mul_nonneg (by omega) (by omega)
  have hcond : ¬ ((x + w) % 4294967296 > (m.cols * k.SUBDISPLAY_WIDTH).toNat ∨
      (y + 0) % 4294967296 > (m.rows * k.SUBDISPLAY_HEIGHT).toNat) := by omega
  have hy32 : y < 2147483648 := by omega
  unfold mtron_putrect
  rw [toU32_toI32_of_range hc0 hcW, toU32_toI32_of_range hr0 hrH, if_neg hcond,
    show (4294967297 : Nat) = 4294967296 + 1 from rfl, putrect_rows,
    toI32_natCast hy32, toU32_natCast (by omega), if_neg (by omega)]

/-! ## Rectangle transfers on an arbitrary device, with a record of the exchanges -/

theorem getPairs_append (k : Consts) :
    ∀ (s1 s2 : List TileStep) (l1 l2 : List Exchange) (d d1 d2 : List Nat),
      GetPairs k s1 l1 d d1 → GetPairs k s2 l2 d1 d2 → GetPairs k (s1 ++ s2) (l1 ++ l2) d d2
  | [], s2, l1, l2, d, d1, d2, h1, h2 => by
    rw [GetPairs] at h1
    obtain ⟨h1, h3⟩ := h1
    subst h1
    subst h3
    exact h2
  | st :: s1, s2, [], l2, d, d1, d2, h1, _ => by
    rw [GetPairs] at h1
    exact h1.elim
  | st :: s1, s2, [e], l2, d, d1, d2, h1, _ => by
    rw [GetPairs] at h1
    exact h1.elim
  | st :: s1, s2, e1 :: e2 :: l1, l2, d, d1, d2, h1, h2 => by
    rw [GetPairs] at h1
    obtain ⟨a1, a2, a3, d3, a4, a5⟩ := h1
    rw [List.cons_append, List.cons_append, List.cons_append, GetPairs]
    exact ⟨a1, a2, a3, d3, a4, getPairs_append k s1 s2 l1 l2 d3 d1 d2 a5 h2⟩

theorem putPairs_append (k : Consts) (data : List Nat) :
    ∀ (s1 s2 : List TileStep) (l1 l2 : List Exchange),
      PutPairs k data s1 l1 → PutPairs k data s2 l2 → PutPairs k data (s1 ++ s2) (l1 ++ l2)
  | [], s2, l1, l2, h1, h2 => by
    rw [PutPairs] at h1
    subst h1
    exact h2
  | st :: s1, s2, [], l2, h1, _ => by
    rw [PutPairs] at h1
    exact h1.elim
  | st :: s1, s2, [e], l2, h1, _ => by
    rw [PutPairs] at h1
    exact h1.elim
  | st :: s1, s2, e1 :: e2 :: l1, l2, h1, h2 => by
    rw [PutPairs] at h1
    rw [List.cons_append, List.cons_append, List.cons_append, PutPairs]
    exact ⟨h1.1, h1.2.1, h1.2.2.1, putPairs_append k data s1 s2 l1 l2 h1.2.2.2 h2⟩

theorem getPairs_length (k : Consts) :
    ∀ (s : List TileStep) (l : List Exchange) (d d1 : List Nat),
      GetPairs k s l d d1 → l.length = 2 * s.length
  | [], l, d, d1, h => by
    rw [GetPairs] at h
    obtain ⟨h, _⟩ := h
    subst h
    rfl
  | st :: s, [], d, d1, h => by
    rw [GetPairs] at h
    exact h.elim
  | st :: s, [e], d, d1, h => by
    rw [GetPairs] at h
    exact h.elim
  | st :: s, e1 :: e2 :: l, d, d1, h => by
    rw [GetPairs] at h
    obtain ⟨_, _, _, d3, _, a5⟩ := h
    have := getPairs_length k s l d3 d1 a5
    simp only [List.length_cons]
    omega

/-- One iteration of the inner loop of `mtron_getrect` on any device, for tile
column `q` whose covered columns are `lo .. hi`: two exchanges with the
READ_LINE word of the tile, and one `memcpy` from the buffer of the first. -/
theorem getrect_tiles_step_traced {σ : Type} {k : Consts} (hW : k.SUBDISPLAY_WIDTH = 256)
    (tronctl : Tronctl σ) (hk : Keeps256 tronctl) {x w : Nat} (hw : 1 ≤ w)
    (hxw : x + w ≤ 2147483648) (iN base : Nat)
    (hL : iN % k.SUBDISPLAY_HEIGHT < 4294967296)
    (hbase : base + (x + w - 1) / 256 + 1 < 2147483648) (q : Nat) (hq1 : x / 256 ≤ q)
    (hq2 : q ≤ (x + w - 1) / 256) (fuel : Nat) (dev : σ) (log : List Exchange)
    (scan data : List Nat) (hscan : scan.length = 256) (c0 lo hi : Nat)
    (hlo : max x (256 * q) = lo) (hhi : min (x + w - 1) (256 * q + 255) = hi)
    (hcur : c0 + (hi + 1 - x) ≤ data.length)
    (hlen : data.length < 2147483648) :
    ∃ (dev1 : σ) (e1 e2 : Exchange) (scan1 data1 : List Nat),
      getrect_tiles k (traced tronctl) x w (iN : Int) ((base + x / 256 : Nat) : Int)
        ((base + (x + w - 1) / 256 : Nat) : Int) (fuel + 1) ((base + q : Nat) : Int)
        (dev, log) scan data ((c0 + (lo - x) : Nat) : Int)
      = getrect_tiles k (traced tronctl) x w (iN : Int) ((base + x / 256 : Nat) : Int)
        ((base + (x + w - 1) / 256 : Nat) : Int) fuel ((base + (q + 1) : Nat) : Int)
        (dev1, log ++ [e1, e2]) scan1 data1 ((c0 + (hi + 1 - x) : Nat) : Int) ∧
      scan1.length = 256 ∧ data1.length = data.length ∧
      e1.op = setFields (base + q) k.MTRON_READ_LINE 0 (iN % k.SUBDISPLAY_HEIGHT) ∧
      e2.op = setFields (base + q) k.MTRON_READ_LINE 0 (iN % k.SUBDISPLAY_HEIGHT) ∧
      e2.buf = e1.out ∧
      memcpy data ((c0 + (lo - x) : Nat) : Int) e1.out ((lo % 256 : Nat) : Int)
        ((hi % 256 - lo % 256 + 1 : Nat) : Int) = some data1 := by
  have hle : ((base + q : Nat) : Int) ≤ ((base + (x + w - 1) / 256 : Nat) : Int) := by omega
  have hj : ((base + q : Nat) : Int) + 1 = ((base + (q + 1) : Nat) : Int) := by omega
  have hbq : base + q < 4294967296 := by omega
  have f1 : x ≤ lo ∧ lo ≤ hi ∧ hi + 1 ≤ x + w ∧ 256 * q ≤ lo ∧ hi ≤ 256 * q + 255 := by omega
  have hn : (((hi % 256 : Nat) : Int) - ((lo % 256 : Nat) : Int) + 1)
      = ((hi % 256 - lo % 256 + 1 : Nat) : Int) := by omega
  have hsrc : lo % 256 + (hi % 256 - lo % 256 + 1) ≤ 256 := by omega
  have hdst : c0 + (lo - x) + (hi % 256 - lo % 256 + 1) ≤ data.length := by omega
  have hnext : c0 + (lo - x) + (hi % 256 - lo % 256 + 1) = c0 + (hi + 1 - x) := by omega
  have hn31 : hi % 256 - lo % 256 + 1 < 2147483648 := by omega
  have hc31 : c0 + (hi + 1 - x) < 2147483648 := by omega
  have hq31 : base + (q + 1) < 2147483648 := by omega
  have hq1' : x / 256 ≤ q := hq1
  have hq2' : q ≤ (x + w - 1) / 256 := hq2
  clear hbase f1
  rcases h1 : tronctl dev (setFields (base + q) k.MTRON_READ_LINE 0
      (iN % k.SUBDISPLAY_HEIGHT)) scan with ⟨st1, dev1, out1⟩
  rcases h2 : tronctl dev1 (setFields (base + q) k.MTRON_READ_LINE 0
      (iN % k.SUBDISPLAY_HEIGHT)) out1 with ⟨st2, dev2, out2⟩
  have hl1 : out1.length = 256 := by
    have := hk dev (setFields (base + q) k.MTRON_READ_LINE 0 (iN % k.SUBDISPLAY_HEIGHT))
      scan hscan
    rw [h1] at this
    exact this
  have hl2 : out2.length = 256 := by
    have := hk dev1 (setFields (base + q) k.MTRON_READ_LINE 0 (iN % k.SUBDISPLAY_HEIGHT))
      out1 hl1
    rw [h2] at this
    exact this
  have hm := memcpy_of_nat data out1 (c0 + (lo - x)) (lo % 256)
      (hi % 256 - lo % 256 + 1) hdst (by rw [hl1]; exact hsrc)
  refine ⟨dev2,
    ⟨setFields (base + q) k.MTRON_READ_LINE 0 (iN % k.SUBDISPLAY_HEIGHT), scan, st1, out1⟩,
    ⟨setFields (base + q) k.MTRON_READ_LINE 0 (iN % k.SUBDISPLAY_HEIGHT), out1, st2, out2⟩,
    out2,
    data.take (c0 + (lo - x)) ++ ((out1.drop (lo % 256)).take (hi % 256 - lo % 256 + 1) ++
      data.drop (c0 + (lo - x) + (hi % 256 - lo % 256 + 1))),
    ?_, hl2, ?_, rfl, rfl, rfl, hm⟩
  · rw [getrect_tiles, if_pos hle]
    dsimp only [traced]
    rw [toU32_natCast hbq, toU32_tmod_natCast _ _ hL, h1]
    dsimp only
    rw [tilePos_eq hW hw hxw base q hq1 hq2, hlo, hhi]
    dsimp only
    rw [hn, toI32_natCast hn31, hm]
    dsimp only
    rw [h2]
    dsimp only
    rw [hj, ← Nat.cast_add, toI32_natCast hq31, hnext, toI32_natCast hc31,
      List.append_assoc]
    rfl
  · exact memcpy_length _ _ _ _ _ hdst (by rw [hl1]; exact hsrc)

/-- One iteration of the inner loop of `mtron_putrect` on any device, for tile
column `q` whose covered columns are `lo .. hi`: a READ_LINE exchange, one
`memcpy` into the buffer it returned, and a WRITE_LINE exchange on the result. -/
theorem putrect_tiles_step_traced {σ : Type} {k : Consts} (hW : k.SUBDISPLAY_WIDTH = 256)
    (tronctl : Tronctl σ) (hk : Keeps256 tronctl) {x w : Nat} (hw : 1 ≤ w)
    (hxw : x + w ≤ 2147483648) (iN base : Nat)
    (hL : iN % k.SUBDISPLAY_HEIGHT < 4294967296)
    (hbase : base + (x + w - 1) / 256 + 1 < 2147483648) (q : Nat) (hq1 : x / 256 ≤ q)
    (hq2 : q ≤ (x + w - 1) / 256) (fuel : Nat) (dev : σ) (log : List Exchange)
    (scan data : List Nat) (hscan : scan.length = 256) (c0 lo hi : Nat)
    (hlo : max x (256 * q) = lo) (hhi : min (x + w - 1) (256 * q + 255) = hi)
    (hcur : c0 + (hi + 1 - x) ≤ data.length)
    (hlen : data.length < 2147483648) :
    ∃ (dev1 : σ) (e1 e2 : Exchange) (scan1 : List Nat),
      putrect_tiles k (traced tronctl) x w (iN : Int) ((base + x / 256 : Nat) : Int)
        ((base + (x + w - 1) / 256 : Nat) : Int) data (fuel + 1) ((base + q : Nat) : Int)
        (dev, log) scan ((c0 + (lo - x) : Nat) : Int)
      = putrect_tiles k (traced tronctl) x w (iN : Int) ((base + x / 256 : Nat) : Int)
        ((base + (x + w - 1) / 256 : Nat) : Int) data fuel ((base + (q + 1) : Nat) : Int)
        (dev1, log ++ [e1, e2]) scan1 ((c0 + (hi + 1 - x) : Nat) : Int) ∧
      scan1.length = 256 ∧
      e1.op = setFields (base + q) k.MTRON_READ_LINE 0 (iN % k.SUBDISPLAY_HEIGHT) ∧
      e2.op = setFields (base + q) k.MTRON_WRITE_LINE 0 (iN % k.SUBDISPLAY_HEIGHT) ∧
      memcpy e1.out ((lo % 256 : Nat) : Int) data ((c0 + (lo - x) : Nat) : Int)
        ((hi % 256 - lo % 256 + 1 : Nat) : Int) = some e2.buf := by
  have hle : ((base + q : Nat) : Int) ≤ ((base + (x + w - 1) / 256 : Nat) : Int) := by omega
  have hj : ((base + q : Nat) : Int) + 1 = ((base + (q + 1) : Nat) : Int) := by omega
  have hbq : base + q < 4294967296 := by omega
  have f1 : x ≤ lo ∧ lo ≤ hi ∧ hi + 1 ≤ x + w ∧ 256 * q ≤ lo ∧ hi ≤ 256 * q + 255 := by omega
  have hn : (((hi % 256 : Nat) : Int) - ((lo % 256 : Nat) : Int) + 1)
      = ((hi % 256 - lo % 256 + 1 : Nat) : Int) := by omega
  have hsrc : lo % 256 + (hi % 256 - lo % 256 + 1) ≤ 256 := by omega
  have hdst : c0 + (lo - x) + (hi % 256 - lo % 256 + 1) ≤ data.length := by omega
  have hnext : c0 + (lo - x) + (hi % 256 - lo % 256 + 1) = c0 + (hi + 1 - x) := by omega
  have hn31 : hi % 256 - lo % 256 + 1 < 2147483648 := by omega
  have hc31 : c0 + (hi + 1 - x) < 2147483648 := by omega
  have hq31 : base + (q + 1) < 2147483648 := by omega
  clear hbase f1
  rcases h1 : tronctl dev (setFields (base + q) k.MTRON_READ_LINE 0
      (iN % k.SUBDISPLAY_HEIGHT)) scan with ⟨st1, dev1, out1⟩
  have hl1 : out1.length = 256 := by
    have := hk dev (setFields (base + q) k.MTRON_READ_LINE 0 (iN % k.SUBDISPLAY_HEIGHT))
      scan hscan
    rw [h1] at this
    exact this
  have hm := memcpy_of_nat out1 data (lo % 256) (c0 + (lo - x))
      (hi % 256 - lo % 256 + 1) (by rw [hl1]; exact hsrc) hdst
  have hl2 : (out1.take (lo % 256) ++ ((data.drop (c0 + (lo - x))).take
      (hi % 256 - lo % 256 + 1) ++ out1.drop (lo % 256 + (hi % 256 - lo % 256 + 1)))).length
      = 256 := by
    rw [memcpy_length _ _ _ _ _ (by rw [hl1]; exact hsrc) hdst, hl1]
  rcases h2 : tronctl dev1 (setFields (base + q) k.MTRON_WRITE_LINE 0
      (iN % k.SUBDISPLAY_HEIGHT)) (out1.take (lo % 256) ++ ((data.drop (c0 + (lo - x))).take
      (hi % 256 - lo % 256 + 1) ++ out1.drop (lo % 256 + (hi % 256 - lo % 256 + 1))))
    with ⟨st2, dev2, out2⟩
  have hl3 : out2.length = 256 := by
    have := hk dev1 (setFields (base + q) k.MTRON_WRITE_LINE 0 (iN % k.SUBDISPLAY_HEIGHT))
      _ hl2
    rw [h2] at this
    exact this
  refine ⟨dev2,
    ⟨setFields (base + q) k.MTRON_READ_LINE 0 (iN % k.SUBDISPLAY_HEIGHT), scan, st1, out1⟩,
    ⟨setFields (base + q) k.MTRON_WRITE_LINE 0 (iN % k.SUBDISPLAY_HEIGHT),
      out1.take (lo % 256) ++ ((data.drop (c0 + (lo - x))).take
        (hi % 256 - lo % 256 + 1) ++ out1.drop (lo % 256 + (hi % 256 - lo % 256 + 1))),
      st2, out2⟩,
    out2, ?_, hl3, rfl, rfl, hm⟩
  rw [putrect_tiles, if_pos hle]
  dsimp only [traced]
  rw [toU32_natCast hbq, toU32_tmod_natCast _ _ hL, h1]
  dsimp only
  rw [tilePos_eq hW hw hxw base q hq1 hq2, hlo, hhi]
  dsimp only
  rw [hn, toI32_natCast hn31, hm]
  dsimp only
  rw [h2]
  dsimp only
  rw [hj, ← Nat.cast_add, toI32_natCast hq31, hnext, toI32_natCast hc31,
    List.append_assoc]
  rfl

/-- The tiles of one row of `mtron_getrect` from tile column `q` on, on any
device: the loop returns with the cursor at the end of the row, and the
exchanges are those of the steps of the tile columns `q .. (x+w-1)/256`. -/
theorem getrect_tiles_traced {σ : Type} {k : Consts} (hW : k.SUBDISPLAY_WIDTH = 256)
    (tronctl : Tronctl σ) (hk : Keeps256 tronctl) {x w : Nat} (hw : 1 ≤ w)
    (hxw : x + w ≤ 2147483648) (iN base : Nat)
    (hL : iN % k.SUBDISPLAY_HEIGHT < 4294967296)
    (hbase : base + (x + w - 1) / 256 + 1 < 2147483648) (c0 len : Nat) (hc0 : c0 + w ≤ len)
    (hlen : len < 2147483648) :
    ∀ (n fuel q : Nat) (dev : σ) (log : List Exchange) (scan data : List Nat),
      x / 256 ≤ q → q + n = (x + w - 1) / 256 + 1 → n < fuel → scan.length = 256 →
      data.length = len →
      ∃ (dev1 : σ) (l : List Exchange) (scan1 data1 : List Nat),
        getrect_tiles k (traced tronctl) x w (iN : Int) ((base + x / 256 : Nat) : Int)
          ((base + (x + w - 1) / 256 : Nat) : Int) fuel ((base + q : Nat) : Int)
          (dev, log) scan data ((c0 + (min (x + w) (max x (256 * q)) - x) : Nat) : Int)
          = .returns ((dev1, log ++ l), scan1, data1, ((c0 + w : Nat) : Int)) ∧
        scan1.length = 256 ∧ data1.length = len ∧
        GetPairs k ((List.range' q n).map (fun q1 =>
          (⟨base + q1, iN % k.SUBDISPLAY_HEIGHT, max x (256 * q1) % 256,
            min (x + w - 1) (256 * q1 + 255) % 256, c0 + (max x (256 * q1) - x)⟩ : TileStep)))
          l data data1 := by
  intro n
  induction n with
  | zero =>
    intro fuel q dev log scan data hq1 hq2 hf hsl hdl
    obtain ⟨fuel, rfl⟩ : ∃ f, fuel = f + 1 := ⟨fuel - 1, by omega⟩
    have hcur : c0 + (min (x + w) (max x (256 * q)) - x) = c0 + w := by omega
    rw [getrect_tiles_exit _ _ _ _ _ _ _ _ (by omega), hcur]
    refine ⟨dev, [], scan, data, ?_, hsl, hdl, ?_⟩
    · rw [List.append_nil]
    · rw [List.range'_zero, List.map_nil, GetPairs]
      exact ⟨rfl, rfl⟩
  | succ n ih =>
    intro fuel q dev log scan data hq1 hq2 hf hsl hdl
    obtain ⟨fuel, rfl⟩ : ∃ f, fuel = f + 1 := ⟨fuel - 1, by omega⟩
    have hq : q ≤ (x + w - 1) / 256 := by omega
    obtain ⟨lo, hi, e1, e2, e3, e4, f1, f2, f3, f4, f5, f6⟩ := span_facts hw hq1 hq
    obtain ⟨dev1, x1, x2, scan1, data1, hstep, hsl1, hdl1, o1, o2, o3, hm⟩ :=
      getrect_tiles_step_traced hW tronctl hk hw hxw iN base hL hbase q hq1 hq fuel dev log
        scan data hsl c0 lo hi e1 e2 (by omega) (by omega)
    have ih' := ih fuel (q + 1) dev1 (log ++ [x1, x2]) scan1 data1 (by omega) (by omega)
      (by omega) hsl1 (by omega)
    rw [e4] at ih'
    obtain ⟨dev2, l, scan2, data2, hrun, hsl2, hdl2, hp⟩ := ih'
    rw [e3, hstep, hrun]
    refine ⟨dev2, x1 :: x2 :: l, scan2, data2, ?_, hsl2, hdl2, ?_⟩
    · rw [List.append_assoc]
      rfl
    · rw [List.range'_succ, List.map_cons, GetPairs]
      dsimp only
      rw [e1, e2]
      exact ⟨o1, o2, o3, data1, hm, hp⟩

/-- The tiles of one row of `mtron_putrect` from tile column `q` on, on any
device: the loop returns with the cursor at the end of the row, and the
exchanges are those of the steps of the tile columns `q .. (x+w-1)/256`. -/
theorem putrect_tiles_traced {σ : Type} {k : Consts} (hW : k.SUBDISPLAY_WIDTH = 256)
    (tronctl : Tronctl σ) (hk : Keeps256 tronctl) {x w : Nat} (hw : 1 ≤ w)
    (hxw : x + w ≤ 2147483648) (iN base : Nat)
    (hL : iN % k.SUBDISPLAY_HEIGHT < 4294967296)
    (hbase : base + (x + w - 1) / 256 + 1 < 2147483648) (c0 : Nat) (data : List Nat)
    (hc0 : c0 + w ≤ data.length) (hlen : data.length < 2147483648) :
    ∀ (n fuel q : Nat) (dev : σ) (log : List Exchange) (scan : List Nat),
      x / 256 ≤ q → q + n = (x + w - 1) / 256 + 1 → n < fuel → scan.length = 256 →
      ∃ (dev1 : σ) (l : List Exchange) (scan1 : List Nat),
        putrect_tiles k (traced tronctl) x w (iN : Int) ((base + x / 256 : Nat) : Int)
          ((base + (x + w - 1) / 256 : Nat) : Int) data fuel ((base + q : Nat) : Int)
          (dev, log) scan ((c0 + (min (x + w) (max x (256 * q)) - x) : Nat) : Int)
          = .returns ((dev1, log ++ l), scan1, ((c0 + w : Nat) : Int)) ∧
        scan1.length = 256 ∧
        PutPairs k data ((List.range' q n).map (fun q1 =>
          (⟨base + q1, iN % k.SUBDISPLAY_HEIGHT, max x (256 * q1) % 256,
            min (x + w - 1) (256 * q1 + 255) % 256, c0 + (max x (256 * q1) - x)⟩ : TileStep)))
          l := by
  intro n
  induction n with
  | zero =>
    intro fuel q dev log scan hq1 hq2 hf hsl
    obtain ⟨fuel, rfl⟩ : ∃ f, fuel = f + 1 := ⟨fuel - 1, by omega⟩
    have hcur : c0 + (min (x + w) (max x (256 * q)) - x) = c0 + w := by omega
    rw [putrect_tiles_exit _ _ _ _ _ _ _ _ _ (by omega), hcur]
    refine ⟨dev, [], scan, ?_, hsl, ?_⟩
    · rw [List.append_nil]
    · rw [List.range'_zero, List.map_nil, PutPairs]
  | succ n ih =>
    intro fuel q dev log scan hq1 hq2 hf hsl
    obtain ⟨fuel, rfl⟩ : ∃ f, fuel = f + 1 := ⟨fuel - 1, by omega⟩
    have hq : q ≤ (x + w - 1) / 256 := by omega
    obtain ⟨lo, hi, e1, e2, e3, e4, f1, f2, f3, f4, f5, f6⟩ := span_facts hw hq1 hq
    obtain ⟨dev1, x1, x2, scan1, hstep, hsl1, o1, o2, hm⟩ :=
      putrect_tiles_step_traced hW tronctl hk hw hxw iN base hL hbase q hq1 hq fuel dev log
        scan data hsl c0 lo hi e1 e2 (by omega) hlen
    have ih' := ih fuel (q + 1) dev1 (log ++ [x1, x2]) scan1 (by omega) (by omega)
      (by omega) hsl1
    rw [e4] at ih'
    obtain ⟨dev2, l, scan2, hrun, hsl2, hp⟩ := ih'
    rw [e3, hstep, hrun]
    refine ⟨dev2, x1 :: x2 :: l, scan2, ?_, hsl2, ?_⟩
    · rw [List.append_assoc]
      rfl
    · rw [List.range'_succ, List.map_cons, PutPairs]
      dsimp only
      rw [e1, e2]
      exact ⟨o1, o2, hm, hp⟩

theorem row_facts_gen {k : Consts} {m : multitron} (hs : IntSafe k m)
    (hW : k.SUBDISPLAY_WIDTH = 256) {x w : Nat} (hw : 1 ≤ w)
    (hx : ((x + w : Nat) : Int) ≤ m.cols * 256) {i : Nat}
    (hi : (i : Int) < m.rows * k.SUBDISPLAY_HEIGHT) :
    i % k.SUBDISPLAY_HEIGHT < 4294967296 ∧
    i / k.SUBDISPLAY_HEIGHT * m.cols.toNat + (x + w - 1) / 256 + 1 < 2147483648 ∧
    x + w ≤ 2147483648 := by
  have hb2 : InBounds k m (x + w - 1) i := by
    unfold InBounds; rw [hW]; constructor
    · push_cast at hx ⊢; omega
    · exact hi
  have hidx := tileIndex_bounds hs hb2
  rw [← tileOf_cast _ _ hs.2.2.2.1, tileOf_row hW] at hidx
  have hrc := hs.2.2.2.2.2.2
  have hcW := hs.2.2.2.2.2.1
  have hrH := hs.2.2.2.2.1
  rw [hW] at hcW
  have hm : i % k.SUBDISPLAY_HEIGHT ≤ i := Nat.mod_le _ _
  refine ⟨by omega, by omega, ?_⟩
  push_cast at hx hcW
  omega

/-- One row of `mtron_getrect` on any device: the two `getDisplayID` calls
succeed and the inner loop starts at the row's first tile. -/
theorem getrect_rows_step_gen {σ : Type} {k : Consts} {m : multitron} (hs : IntSafe k m)
    (hW : k.SUBDISPLAY_WIDTH = 256) (tronctl : Tronctl σ) {x w : Nat} (hw : 1 ≤ w)
    (hx : ((x + w : Nat) : Int) ≤ m.cols * 256) (yh iN : Nat) (hi : iN < yh)
    (hiy : (iN : Int) < m.rows * k.SUBDISPLAY_HEIGHT)
    (fuel : Nat) (dev : σ) (scan data : List Nat) (cur : Int)
    (dev1 : σ) (scanline1 data1 : List Nat) (read_data1 : Int)
    (hinner : getrect_tiles k tronctl x w (iN : Int)
        ((iN / k.SUBDISPLAY_HEIGHT * m.cols.toNat + x / 256 : Nat) : Int)
        ((iN / k.SUBDISPLAY_HEIGHT * m.cols.toNat + (x + w - 1) / 256 : Nat) : Int)
        4294967297
        ((iN / k.SUBDISPLAY_HEIGHT * m.cols.toNat + x / 256 : Nat) : Int)
        dev scan data cur = .returns (dev1, scanline1, data1, read_data1)) :
    getrect_rows k tronctl m x w yh (fuel + 1) (iN : Int) dev scan data cur
      = getrect_rows k tronctl m x w yh fuel ((iN + 1 : Nat) : Int) dev1 scanline1
          data1 read_data1 := by
  have hrH := hs.2.2.2.2.1
  have hcW := hs.2.2.2.2.2.1
  have hi32 : iN < 4294967296 := by omega
  have hb1 : InBounds k m x iN := by
    unfold InBounds; rw [hW]; constructor
    · push_cast at hx ⊢; omega
    · exact hiy
  have hb2 : InBounds k m (x + w - 1) iN := by
    unfold InBounds; rw [hW]; constructor
    · push_cast at hx ⊢; omega
    · exact hiy
  have e : (x + w + 4294967295) % 4294967296 = x + w - 1 := by
    rw [hW] at hcW; push_cast at hx; omega
  have hinc : toI32 ((iN : Int) + 1) = ((iN + 1 : Nat) : Int) := by
    rw [← toI32_natCast (show iN + 1 < 2147483648 by omega)]; rfl
  rw [getrect_rows, toU32_natCast hi32, if_pos hi]
  dsimp only
  rw [e, getDisplayID_tileOf hs hb1, getDisplayID_tileOf hs hb2, tileOf_row hW, tileOf_row hW]
  dsimp only
  rw [if_neg (by omega), hinc, hinner]

/-- One row of `mtron_putrect` on any device: the two `getDisplayID` calls
succeed and the inner loop starts at the row's first tile. -/
theorem putrect_rows_step_gen {σ : Type} {k : Consts} {m : multitron} (hs : IntSafe k m)
    (hW : k.SUBDISPLAY_WIDTH = 256) (tronctl : Tronctl σ) {x w : Nat} (hw : 1 ≤ w)
    (hx : ((x + w : Nat) : Int) ≤ m.cols * 256) (yh iN : Nat) (hi : iN < yh)
    (hiy : (iN : Int) < m.rows * k.SUBDISPLAY_HEIGHT)
    (fuel : Nat) (dev : σ) (scan data : List Nat) (cur : Int)
    (dev1 : σ) (scanline1 : List Nat) (written_data1 : Int)
    (hinner : putrect_tiles k tronctl x w (iN : Int)
        ((iN / k.SUBDISPLAY_HEIGHT * m.cols.toNat + x / 256 : Nat) : Int)
        ((iN / k.SUBDISPLAY_HEIGHT * m.cols.toNat + (x + w - 1) / 256 : Nat) : Int)
        data 4294967297
        ((iN / k.SUBDISPLAY_HEIGHT * m.cols.toNat + x / 256 : Nat) : Int)
        dev scan cur = .returns (dev1, scanline1, written_data1)) :
    putrect_rows k tronctl m x w yh data (fuel + 1) (iN : Int) dev scan cur
      = putrect_rows k tronctl m x w yh data fuel ((iN + 1 : Nat) : Int) dev1 scanline1
          written_data1 := by
  have hrH := hs.2.2.2.2.1
  have hcW := hs.2.2.2.2.2.1
  have hi32 : iN < 4294967296 := by omega
  have hb1 : InBounds k m x iN := by
    unfold InBounds; rw [hW]; constructor
    · push_cast at hx ⊢; omega
    · exact hiy
  have hb2 : InBounds k m (x + w - 1) iN := by
    unfold InBounds; rw [hW]; constructor
    · push_cast at hx ⊢; omega
    · exact hiy
  have e : (x + w + 4294967295) % 4294967296 = x + w - 1 := by
    rw [hW] at hcW; push_cast at hx; omega
  have hinc : toI32 ((iN : Int) + 1) = ((iN + 1 : Nat) : Int) := by
    rw [← toI32_natCast (show iN + 1 < 2147483648 by omega)]; rfl
  rw [putrect_rows, toU32_natCast hi32, if_pos hi]
  dsimp only
  rw [e, getDisplayID_tileOf hs hb1, getDisplayID_tileOf hs hb2, tileOf_row hW, tileOf_row hW]
  dsimp only
  rw [if_neg (by omega), hinc, hinner]

theorem rangeSucc_flatMap {α : Type} (f : Nat → List α) (r n : Nat) :
    (List.range' r (n + 1)).flatMap f = f r ++ (List.range' (r + 1) n).flatMap f := by
  rw [List.range'_succ]
  rfl

/-- The rows of `mtron_getrect` from row `y + r` on, on any device: the loop
returns 0 and the exchanges are those of the steps of the rows left. -/
theorem getrect_rows_traced {σ : Type} {k : Consts} {m : multitron} (hs : IntSafe k m)
    (hW : k.SUBDISPLAY_WIDTH = 256) (tronctl : Tronctl σ) (hk : Keeps256 tronctl)
    {x y w hh : Nat} (hw : 1 ≤ w)
    (hx : ((x + w : Nat) : Int) ≤ m.cols * 256)
    (hy : ((y + hh : Nat) : Int) ≤ m.rows * k.SUBDISPLAY_HEIGHT)
    (len : Nat) (hlen : hh * w ≤ len) (hlen2 : len < 2147483648) :
    ∀ (n fuel r : Nat) (dev : σ) (log : List Exchange) (scan data : List Nat),
      r + n = hh → n < fuel → scan.length = 256 → data.length = len →
      ∃ (dev1 : σ) (l : List Exchange) (data1 : List Nat),
        getrect_rows k (traced tronctl) m x w (y + hh) fuel ((y + r : Nat) : Int) (dev, log)
          scan data ((r * w : Nat) : Int) = .returns (0, (dev1, log ++ l), data1) ∧
        data1.length = len ∧
        GetPairs k ((List.range' r n).flatMap (rowSteps k m x y w)) l data data1 := by
  intro n
  induction n with
  | zero =>
    intro fuel r dev log scan data hr hf hsl hdl
    obtain ⟨fuel, rfl⟩ : ∃ f, fuel = f + 1 := ⟨fuel - 1, by omega⟩
    have hre : r = hh := by omega
    subst hre
    rw [getrect_rows, toU32_natCast (by push_cast at hy; have := hs.2.2.2.2.1; omega),
      if_neg (by omega)]
    refine ⟨dev, [], data, ?_, hdl, ?_⟩
    · rw [List.append_nil]
    · rw [List.range'_zero]
      exact ⟨rfl, rfl⟩
  | succ n ih =>
    intro fuel r dev log scan data hr hf hsl hdl
    obtain ⟨fuel, rfl⟩ : ∃ f, fuel = f + 1 := ⟨fuel - 1, by omega⟩
    have hrh : r < hh := by omega
    have hiy : ((y + r : Nat) : Int) < m.rows * k.SUBDISPLAY_HEIGHT := by
      push_cast at hy ⊢; omega
    obtain ⟨hL, hbase, hxw⟩ := row_facts_gen hs hW hw hx hiy
    have hmul : (r + 1) * w ≤ hh * w := Nat.mul_le_mul_right w hrh
    have hsucc : (r + 1) * w = r * w + w := Nat.succ_mul r w
    obtain ⟨dev1, l1, scan1, data1, hrun, hsl1, hdl1, hp1⟩ :=
      getrect_tiles_traced hW tronctl hk hw hxw (y + r) _ hL hbase (r * w) len
        (by omega) hlen2 ((x + w - 1) / 256 + 1 - x / 256) 4294967297 (x / 256) dev log scan
        data le_rfl (by omega) (by omega) hsl hdl
    have hz : r * w + (min (x + w) (max x (256 * (x / 256))) - x) = r * w := by omega
    rw [hz] at hrun
    rw [getrect_rows_step_gen hs hW (traced tronctl) hw hx (y + hh) (y + r) (by omega) hiy fuel
      (dev, log) scan data _ _ _ _ _ hrun, ← hsucc, Nat.add_assoc]
    obtain ⟨dev2, l2, data2, hrun2, hdl2, hp2⟩ :=
      ih fuel (r + 1) dev1 (log ++ l1) scan1 data1 (by omega) (by omega) hsl1 hdl1
    rw [hrun2]
    refine ⟨dev2, l1 ++ l2, data2, ?_, hdl2, ?_⟩
    · rw [List.append_assoc]
    · rw [rangeSucc_flatMap]
      exact getPairs_append k _ _ _ _ _ _ _ hp1 hp2

/-- The rows of `mtron_putrect` from row `y + r` on, on any device: the loop
returns 0 and the exchanges are those of the steps of the rows left. -/
theorem putrect_rows_traced {σ : Type} {k : Consts} {m : multitron} (hs : IntSafe k m)
    (hW : k.SUBDISPLAY_WIDTH = 256) (tronctl : Tronctl σ) (hk : Keeps256 tronctl)
    {x y w hh : Nat} (hw : 1 ≤ w)
    (hx : ((x + w : Nat) : Int) ≤ m.cols * 256)
    (hy : ((y + hh : Nat) : Int) ≤ m.rows * k.SUBDISPLAY_HEIGHT)
    (data : List Nat) (hlen : hh * w ≤ data.length) (hlen2 : data.length < 2147483648) :
    ∀ (n fuel r : Nat) (dev : σ) (log : List Exchange) (scan : List Nat),
      r + n = hh → n < fuel → scan.length = 256 →
      ∃ (dev1 : σ) (l : List Exchange),
        putrect_rows k (traced tronctl) m x w (y + hh) data fuel ((y + r : Nat) : Int)
          (dev, log) scan ((r * w : Nat) : Int) = .returns (0, (dev1, log ++ l)) ∧
        PutPairs k data ((List.range' r n).flatMap (rowSteps k m x y w)) l := by
  intro n
  induction n with
  | zero =>
    intro fuel r dev log scan hr hf hsl
    obtain ⟨fuel, rfl⟩ : ∃ f, fuel = f + 1 := ⟨fuel - 1, by omega⟩
    have hre : r = hh := by omega
    subst hre
    rw [putrect_rows, toU32_natCast (by push_cast at hy; have := hs.2.2.2.2.1; omega),
      if_neg (by omega)]
    refine ⟨dev, [], ?_, ?_⟩
    · rw [List.append_nil]
    · rw [List.range'_zero]
      exact rfl
  | succ n ih =>
    intro fuel r dev log scan hr hf hsl
    obtain ⟨fuel, rfl⟩ : ∃ f, fuel = f + 1 := ⟨fuel - 1, by omega⟩
    have hrh : r < hh := by omega
    have hiy : ((y + r : Nat) : Int) < m.rows * k.SUBDISPLAY_HEIGHT := by
      push_cast at hy ⊢; omega
    obtain ⟨hL, hbase, hxw⟩ := row_facts_gen hs hW hw hx hiy
    have hmul : (r + 1) * w ≤ hh * w := Nat.mul_le_mul_right w hrh
    have hsucc : (r + 1) * w = r * w + w := Nat.succ_mul r w
    obtain ⟨dev1, l1, scan1, hrun, hsl1, hp1⟩ :=
      putrect_tiles_traced hW tronctl hk hw hxw (y + r) _ hL hbase (r * w) data
        (by omega) hlen2 ((x + w - 1) / 256 + 1 - x / 256) 4294967297 (x / 256) dev log scan
        le_rfl (by omega) (by omega) hsl
    have hz : r * w + (min (x + w) (max x (256 * (x / 256))) - x) = r * w := by omega
    rw [hz] at hrun
    rw [putrect_rows_step_gen hs hW (traced tronctl) hw hx (y + hh) (y + r) (by omega) hiy fuel
      (dev, log) scan data _ _ _ _ hrun, ← hsucc, Nat.add_assoc]
    obtain ⟨dev2, l2, hrun2, hp2⟩ :=
      ih fuel (r + 1) dev1 (log ++ l1) scan1 (by omega) (by omega) hsl1
    rw [hrun2]
    refine ⟨dev2, l1 ++ l2, ?_, ?_⟩
    · rw [List.append_assoc]
    · rw [rangeSucc_flatMap]
      exact putPairs_append k data _ _ _ _ hp1 hp2

theorem rect_check_gen {k : Consts} {m : multitron} (hs : IntSafe k m)
    (hW : k.SUBDISPLAY_WIDTH = 256) {x y w hh : Nat}
    (hx : ((x + w : Nat) : Int) ≤ m.cols * 256)
    (hy : ((y + hh : Nat) : Int) ≤ m.rows * k.SUBDISPLAY_HEIGHT) :
    x + w < 2147483648 ∧ y + hh < 2147483648 ∧
    ¬ ((x + w) % 4294967296 > toU32 (toI32 (m.cols * k.SUBDISPLAY_WIDTH)) ∨
       (y + hh) % 4294967296 > toU32 (toI32 (m.rows * k.SUBDISPLAY_HEIGHT))) := by
  obtain ⟨hW0, hH0, hr, hc, hrH, hcW, hrc⟩ := hs
  have h4 : 0 ≤ m.rows * (k.SUBDISPLAY_HEIGHT : Int) := mul_nonneg (by omega) (by omega)
  rw [hW] at hcW
  have a1 : x + w < 2147483648 := by push_cast at hx hcW; omega
  have a2 : y + hh < 2147483648 := by push_cast at hy; omega
  have e1 : toU32 (toI32 (m.cols * k.SUBDISPLAY_WIDTH)) = (m.cols * 256).toNat := by
    rw [hW]
    exact toU32_toI32_of_range (z := m.cols * ((256 : Nat) : Int)) (by omega) hcW
  have e2 : toU32 (toI32 (m.rows * k.SUBDISPLAY_HEIGHT))
      = (m.rows * k.SUBDISPLAY_HEIGHT).toNat :=
    toU32_toI32_of_range h4 hrH
  refine ⟨a1, a2, ?_⟩
  rw [e1, e2]
  push_cast at hx hy
  omega

/-- What `mtron_getrect` does on any device for a rectangle on the grid: it
returns 0 whatever the statuses are, and its exchanges and copies are those of
the steps of the rectangle, in order. -/
theorem getrect_traced {σ : Type} {k : Consts} {m : multitron} (hs : IntSafe k m)
    (hW : k.SUBDISPLAY_WIDTH = 256) (tronctl : Tronctl σ) (hk : Keeps256 tronctl)
    (dev : σ) (log : List Exchange) (scan : List Nat) (hsl : scan.length = 256)
    {x y w hh : Nat} (hw : 1 ≤ w)
    (hx : ((x + w : Nat) : Int) ≤ m.cols * 256)
    (hy : ((y + hh : Nat) : Int) ≤ m.rows * k.SUBDISPLAY_HEIGHT)
    (data : List Nat) (hdl : data.length = hh * w) (h31 : hh * w < 2147483648) :
    ∃ (dev1 : σ) (l : List Exchange) (data1 : List Nat),
      mtron_getrect k (traced tronctl) m (dev, log) scan x y w hh data
        = .returns (0, (dev1, log ++ l), data1) ∧
      data1.length = hh * w ∧
      GetPairs k (rectSteps k m x y w hh) l data data1 := by
  obtain ⟨a1, a2, hchk⟩ := rect_check_gen hs hW hx hy
  obtain ⟨dev1, l, data1, hrun, hlen, hp⟩ :=
    getrect_rows_traced hs hW tronctl hk hw hx hy (hh * w) le_rfl h31 hh 4294967297 0
      dev log scan data (by omega) (by omega) hsl hdl
  refine ⟨dev1, l, data1, ?_, hlen, hp⟩
  have e3 : (y + hh) % 4294967296 = y + hh := by omega
  have e4 : ((0 * w : Nat) : Int) = 0 := by simp
  rw [Nat.add_zero, e4] at hrun
  unfold mtron_getrect
  rw [if_neg hchk, e3, toI32_natCast (by omega)]
  exact hrun

/-- What `mtron_putrect` does on any device for a rectangle on the grid: it
returns 0 whatever the statuses are, and its exchanges and copies are those of
the steps of the rectangle, in order. -/
theorem putrect_traced {σ : Type} {k : Consts} {m : multitron} (hs : IntSafe k m)
    (hW : k.SUBDISPLAY_WIDTH = 256) (tronctl : Tronctl σ) (hk : Keeps256 tronctl)
    (dev : σ) (log : List Exchange) (scan : List Nat) (hsl : scan.length = 256)
    {x y w hh : Nat} (hw : 1 ≤ w)
    (hx : ((x + w : Nat) : Int) ≤ m.cols * 256)
    (hy : ((y + hh : Nat) : Int) ≤ m.rows * k.SUBDISPLAY_HEIGHT)
    (data : List Nat) (hdl : data.length = hh * w) (h31 : hh * w < 2147483648) :
    ∃ (dev1 : σ) (l : List Exchange),
      mtron_putrect k (traced tronctl) m (dev, log) scan x y w hh data
        = .returns (0, (dev1, log ++ l)) ∧
      PutPairs k data (rectSteps k m x y w hh) l := by
  obtain ⟨a1, a2, hchk⟩ := rect_check_gen hs hW hx hy
  obtain ⟨dev1, l, hrun, hp⟩ :=
    putrect_rows_traced hs hW tronctl hk hw hx hy data (by omega) (by omega) hh 4294967297 0
      dev log scan (by omega) (by omega) hsl
  refine ⟨dev1, l, ?_, hp⟩
  have e3 : (y + hh) % 4294967296 = y + hh := by omega
  have e4 : ((0 * w : Nat) : Int) = 0 := by simp
  rw [Nat.add_zero, e4] at hrun
  unfold mtron_putrect
  rw [if_neg hchk, e3, toI32_natCast (by omega)]
  exact hrun

theorem putPairs_length (k : Consts) (data : List Nat) :
    ∀ (s : List TileStep) (l : List Exchange), PutPairs k data s l → l.length = 2 * s.length
  | [], l, h => by
    rw [PutPairs] at h
    subst h
    rfl
  | st :: s, [], h => by
    rw [PutPairs] at h
    exact h.elim
  | st :: s, [e], h => by
    rw [PutPairs] at h
    exact h.elim
  | st :: s, e1 :: e2 :: l, h => by
    rw [PutPairs] at h
    have := putPairs_length k data s l h.2.2.2
    simp only [List.length_cons]
    omega

theorem putPairs_ops (k : Consts) (data : List Nat) :
    ∀ (s : List TileStep) (l : List Exchange), PutPairs k data s l →
      l.map Exchange.op = s.flatMap (fun st =>
        [setFields st.tile k.MTRON_READ_LINE 0 st.line,
         setFields st.tile k.MTRON_WRITE_LINE 0 st.line])
  | [], l, h => by
    rw [PutPairs] at h
    subst h
    rfl
  | st :: s, [], h => by
    rw [PutPairs] at h
    exact h.elim
  | st :: s, [e], h => by
    rw [PutPairs] at h
    exact h.elim
  | st :: s, e1 :: e2 :: l, h => by
    rw [PutPairs] at h
    have ih := putPairs_ops k data s l h.2.2.2
    rw [List.map_cons, List.map_cons, ih, h.1, h.2.1]
    rfl

theorem getPairs_ops (k : Consts) :
    ∀ (s : List TileStep) (l : List Exchange) (d d1 : List Nat), GetPairs k s l d d1 →
      l.map Exchange.op = s.flatMap (fun st =>
        [setFields st.tile k.MTRON_READ_LINE 0 st.line,
         setFields st.tile k.MTRON_READ_LINE 0 st.line])
  | [], l, d, d1, h => by
    rw [GetPairs] at h
    obtain ⟨h, _⟩ := h
    subst h
    rfl
  | st :: s, [], d, d1, h => by
    rw [GetPairs] at h
    exact h.elim
  | st :: s, [e], d, d1, h => by
    rw [GetPairs] at h
    exact h.elim
  | st :: s, e1 :: e2 :: l, d, d1, h => by
    rw [GetPairs] at h
    obtain ⟨a1, a2, _, d3, _, a5⟩ := h
    have ih := getPairs_ops k s l d3 d1 a5
    rw [List.map_cons, List.map_cons, ih, a1, a2]
    rfl

theorem rowSteps_length (k : Consts) (m : multitron) (x y w r : Nat) :
    (rowSteps k m x y w r).length = (x + w - 1) / 256 + 1 - x / 256 := by
  unfold rowSteps
  rw [List.length_map, List.length_range']

theorem rowsFrom_length (k : Consts) (m : multitron) (x y w : Nat) :
    ∀ n r : Nat, ((List.range' r n).flatMap (rowSteps k m x y w)).length
      = n * ((x + w - 1) / 256 + 1 - x / 256)
  | 0, r => by
    rw [List.range'_zero, Nat.zero_mul]
    rfl
  | n + 1, r => by
    rw [rangeSucc_flatMap, List.length_append, rowSteps_length, rowsFrom_length k m x y w n,
      Nat.succ_mul, Nat.add_comm]

theorem rectSteps_length (k : Consts) (m : multitron) (x y w h : Nat) :
    (rectSteps k m x y w h).length = h * ((x + w - 1) / 256 + 1 - x / 256) :=
  rowsFrom_length k m x y w h 0

theorem storeLoad_keeps256 (k : Consts) : Keeps256 (storeLoad k) := by
  intro display op buf hb
  unfold storeLoad
  dsimp only
  split
  · exact scan_length _ _ _
  · split
    · exact hb
    · exact hb

/-! ## Claims on device failures in the rectangle transfers -/

set_option maxRecDepth 100000 in
/-- C14, counterexample: on a device whose every exchange fails with status
-1, `mtron_getrect` and `mtron_putrect` of the 100x1 rectangle at `(200, 0)`
of a 1x2 grid of 256x128 tiles go on after the first failed exchange, issue
all four exchanges and return 0. -/
theorem rect_failure_not_reported :
    (∃ (l : List Exchange) (data' : List Nat),
      mtron_getrect ⟨256, 128, 2, 3⟩ (traced failing) ⟨1, 2⟩ ((), []) (List.replicate 256 0)
        200 0 100 1 (List.replicate 100 0) = .returns (0, ((), l), data') ∧
      l.map Exchange.status = [-1, -1, -1, -1]) ∧
    (∃ l : List Exchange,
      mtron_putrect ⟨256, 128, 2, 3⟩ (traced failing) ⟨1, 2⟩ ((), []) (List.replicate 256 0)
        200 0 100 1 (List.replicate 100 0) = .returns (0, ((), l)) ∧
      l.map Exchange.status = [-1, -1, -1, -1]) :=
  ⟨⟨_, _, rfl, rfl⟩, ⟨_, rfl, rfl⟩⟩

theorem getPairs_reads_sublist (k : Consts) :
    ∀ (s : List TileStep) (l : List Exchange) (d d1 : List Nat), GetPairs k s l d d1 →
      (s.map (fun st => setFields st.tile k.MTRON_READ_LINE 0 st.line)).Sublist
        (l.map Exchange.op)
  | [], l, d, d1, _ => List.nil_sublist _
  | st :: s, [], d, d1, h => by
    rw [GetPairs] at h
    exact h.elim
  | st :: s, [e], d, d1, h => by
    rw [GetPairs] at h
    exact h.elim
  | st :: s, e1 :: e2 :: l, d, d1, h => by
    rw [GetPairs] at h
    obtain ⟨a1, _, _, d3, _, a5⟩ := h
    have ih := getPairs_reads_sublist k s l d3 d1 a5
    rw [List.map_cons, List.map_cons, List.map_cons, a1]
    exact (ih.cons _).cons₂ _

/-- C14 as amended: for a rectangle with `w >= 1` on the grid (tiles 256
bytes wide, a buffer of `w*h` bytes), `mtron_getrect` and `mtron_putrect`
return 0 on every device, whatever status its exchanges return, and a non-zero
status aborts nothing: the record of `mtron_getrect` holds, in order, the
READ_LINE word of every row and every tile the row spans, and the words of
`mtron_putrect` are the READ_LINE and the WRITE_LINE word of every row and
tile. -/
theorem rect_status_ignored {σ : Type} (k : Consts) (m : multitron) (tronctl : Tronctl σ)
    (dev : σ) (scanline : List Nat) (x y w h : Nat) (data : List Nat)
    (hs : IntSafe k m) (hW : k.SUBDISPLAY_WIDTH = 256) (hk : Keeps256 tronctl)
    (hsl : scanline.length = 256) (hw : 1 ≤ w)
    (hx : (x : Int) + w ≤ m.cols * k.SUBDISPLAY_WIDTH)
    (hy : (y : Int) + h ≤ m.rows * k.SUBDISPLAY_HEIGHT)
    (hdata : data.length = w * h) (h31 : w * h < 2147483648) :
    (∃ (dev1 : σ) (l : List Exchange) (data1 : List Nat),
      mtron_getrect k (traced tronctl) m (dev, []) scanline x y w h data
        = .returns (0, (dev1, l), data1) ∧
      ((rectSteps k m x y w h).map
        (fun st => setFields st.tile k.MTRON_READ_LINE 0 st.line)).Sublist
        (l.map Exchange.op)) ∧
    (∃ (dev1 : σ) (l : List Exchange),
      mtron_putrect k (traced tronctl) m (dev, []) scanline x y w h data
        = .returns (0, (dev1, l)) ∧
      l.map Exchange.op = (rectSteps k m x y w h).flatMap (fun st =>
        [setFields st.tile k.MTRON_READ_LINE 0 st.line,
         setFields st.tile k.MTRON_WRITE_LINE 0 st.line])) := by
  obtain ⟨hx1, hy1⟩ := rect_hyps hW hx hy
  have hdl : data.length = h * w := by rw [hdata, Nat.mul_comm]
  have h31b : h * w < 2147483648 := by rw [Nat.mul_comm]; exact h31
  obtain ⟨dev1, l1, data1, hrun1, _, hp1⟩ :=
    getrect_traced hs hW tronctl hk dev [] scanline hsl hw hx1 hy1 data hdl h31b
  obtain ⟨dev2, l2, hrun2, hp2⟩ :=
    putrect_traced hs hW tronctl hk dev [] scanline hsl hw hx1 hy1 data hdl h31b
  rw [List.nil_append] at hrun1 hrun2
  exact ⟨⟨dev1, l1, data1, hrun1, getPairs_reads_sublist k _ _ _ _ hp1⟩,
    ⟨dev2, l2, hrun2, putPairs_ops k data _ _ hp2⟩⟩

/-- Witness of C14 as amended: the failing device, a 100x2 rectangle at
`(200, 5)` across the two tiles of a 1x2 grid of 256x128 tiles. -/
theorem rect_status_ignored_witness :
    Keeps256 failing ∧ IntSafe ⟨256, 128, 2, 3⟩ ⟨1, 2⟩ ∧
    (∃ (dev1 : Unit) (l : List Exchange) (data1 : List Nat),
      mtron_getrect ⟨256, 128, 2, 3⟩ (traced failing) ⟨1, 2⟩ ((), []) (List.replicate 256 0)
        200 5 100 2 (List.replicate 200 7) = .returns (0, (dev1, l), data1) ∧
      ((rectSteps ⟨256, 128, 2, 3⟩ ⟨1, 2⟩ 200 5 100 2).map
        (fun st => setFields st.tile 2 0 st.line)).Sublist (l.map Exchange.op)) ∧
    (∃ (dev1 : Unit) (l : List Exchange),
      mtron_putrect ⟨256, 128, 2, 3⟩ (traced failing) ⟨1, 2⟩ ((), []) (List.replicate 256 0)
        200 5 100 2 (List.replicate 200 7) = .returns (0, (dev1, l)) ∧
      l.map Exchange.op = (rectSteps ⟨256, 128, 2, 3⟩ ⟨1, 2⟩ 200 5 100 2).flatMap (fun st =>
        [setFields st.tile 2 0 st.line, setFields st.tile 3 0 st.line])) :=
  ⟨fun _ _ _ h => h, by decide,
   rect_status_ignored ⟨256, 128, 2, 3⟩ ⟨1, 2⟩ failing () (List.replicate 256 0) 200 5 100 2
     (List.replicate 200 7) (by decide) rfl (fun _ _ _ h => h) (List.length_replicate _ _)
     (by decide) (by decide) (by decide) (List.length_replicate _ _) (by decide)⟩

/-! ## Claims on the exchanges of the rectangle transfers -/

set_option maxRecDepth 100000 in
/-- C16: on the store/load hardware, `mtron_getrect` of the 100x1 rectangle at
`(200, 0)` of a 1x2 grid of 256x128 tiles, which spans the two tiles of one
row, issues four exchanges and not two: the READ_LINE word of tile 0 twice,
then the READ_LINE word of tile 1 twice. -/
theorem getrect_reads_twice :
    ∃ (l : List Exchange) (data' : List Nat),
      mtron_getrect ⟨256, 128, 2, 3⟩ (traced (storeLoad ⟨256, 128, 2, 3⟩)) ⟨1, 2⟩
        ((fun _ _ _ => 0), []) (List.replicate 256 0) 200 0 100 1 (List.replicate 100 0)
        = .returns (0, ((fun _ _ _ => 0), l), data') ∧
      l.map Exchange.op
        = [setFields 0 2 0 0, setFields 0 2 0 0, setFields 1 2 0 0, setFields 1 2 0 0] ∧
      l.length = 4 ∧ 1 * ((200 + 100 - 1) / 256 - 200 / 256 + 1) = 2 :=
  ⟨_, _, rfl, rfl, rfl, rfl⟩

/-- C17: for a rectangle with `w >= 1` on the grid (tiles 256 bytes wide, a
buffer of `w*h` bytes), `mtron_putrect` returns 0 on every device and its
exchanges are, for the rows in increasing order and in each row the tiles in
increasing order, the READ_LINE word of the tile and scanline followed by the
WRITE_LINE word of the same tile and scanline; the buffer handed to WRITE_LINE
is the result of the `memcpy` of `end_pos - start_pos + 1` bytes from the
cursor of the caller's buffer to `start_pos` of the buffer READ_LINE returned. -/
theorem putrect_read_then_write {σ : Type} (k : Consts) (m : multitron) (tronctl : Tronctl σ)
    (dev : σ) (scanline : List Nat) (x y w h : Nat) (data : List Nat)
    (hs : IntSafe k m) (hW : k.SUBDISPLAY_WIDTH = 256) (hk : Keeps256 tronctl)
    (hsl : scanline.length = 256) (hw : 1 ≤ w)
    (hx : (x : Int) + w ≤ m.cols * k.SUBDISPLAY_WIDTH)
    (hy : (y : Int) + h ≤ m.rows * k.SUBDISPLAY_HEIGHT)
    (hdata : data.length = w * h) (h31 : w * h < 2147483648) :
    ∃ (dev1 : σ) (l : List Exchange),
      mtron_putrect k (traced tronctl) m (dev, []) scanline x y w h data
        = .returns (0, (dev1, l)) ∧
      l.map Exchange.op = (rectSteps k m x y w h).flatMap (fun st =>
        [setFields st.tile k.MTRON_READ_LINE 0 st.line,
         setFields st.tile k.MTRON_WRITE_LINE 0 st.line]) ∧
      PutPairs k data (rectSteps k m x y w h) l := by
  obtain ⟨hx1, hy1⟩ := rect_hyps hW hx hy
  have hdl : data.length = h * w := by rw [hdata, Nat.mul_comm]
  have h31b : h * w < 2147483648 := by rw [Nat.mul_comm]; exact h31
  obtain ⟨dev2, l2, hrun2, hp2⟩ :=
    putrect_traced hs hW tronctl hk dev [] scanline hsl hw hx1 hy1 data hdl h31b
  rw [List.nil_append] at hrun2
  exact ⟨dev2, l2, hrun2, putPairs_ops k data _ _ hp2, hp2⟩

/-- Witness of C17: the store/load hardware, a 100x2 rectangle at `(200, 5)`
across the two tiles of a 1x2 grid of 256x128 tiles. -/
theorem putrect_read_then_write_witness :
    Keeps256 (storeLoad ⟨256, 128, 2, 3⟩) ∧ IntSafe ⟨256, 128, 2, 3⟩ ⟨1, 2⟩ ∧
    ∃ (dev1 : Display) (l : List Exchange),
      mtron_putrect ⟨256, 128, 2, 3⟩ (traced (storeLoad ⟨256, 128, 2, 3⟩)) ⟨1, 2⟩
        ((fun _ _ _ => 0), []) (List.replicate 256 0) 200 5 100 2 (List.replicate 200 7)
        = .returns (0, (dev1, l)) ∧
      l.map Exchange.op = (rectSteps ⟨256, 128, 2, 3⟩ ⟨1, 2⟩ 200 5 100 2).flatMap (fun st =>
        [setFields st.tile 2 0 st.line, setFields st.tile 3 0 st.line]) ∧
      PutPairs ⟨256, 128, 2, 3⟩ (List.replicate 200 7)
        (rectSteps ⟨256, 128, 2, 3⟩ ⟨1, 2⟩ 200 5 100 2) l :=
  ⟨storeLoad_keeps256 _, by decide,
   putrect_read_then_write ⟨256, 128, 2, 3⟩ ⟨1, 2⟩ (storeLoad ⟨256, 128, 2, 3⟩)
     (fun _ _ _ => 0) (List.replicate 256 0) 200 5 100 2
     (List.replicate 200 7) (by decide) rfl (storeLoad_keeps256 _) (List.length_replicate _ _)
     (by decide) (by decide) (by decide) (List.length_replicate _ _) (by decide)⟩

/-! ## Claim on the tiles and the byte ranges of a row -/

/-- The two `getDisplayID` calls of a row of the rectangle loops: the first
and the last tile of the row. -/
theorem row_displayIDs {k : Consts} {m : multitron} (hs : IntSafe k m)
    (hW : k.SUBDISPLAY_WIDTH = 256) {x w : Nat} (hw : 1 ≤ w)
    (hx : ((x + w : Nat) : Int) ≤ m.cols * 256) {i : Nat}
    (hiy : (i : Int) < m.rows * k.SUBDISPLAY_HEIGHT) :
    (getDisplayID k m x i).1
      = ((i / k.SUBDISPLAY_HEIGHT * m.cols.toNat + x / 256 : Nat) : Int) ∧
    (getDisplayID k m ((x + w + 4294967295) % 4294967296) i).1
      = ((i / k.SUBDISPLAY_HEIGHT * m.cols.toNat + (x + w - 1) / 256 : Nat) : Int) := by
  have hcW := hs.2.2.2.2.2.1
  have hb1 : InBounds k m x i := by
    unfold InBounds; rw [hW]; constructor
    · push_cast at hx ⊢; omega
    · exact hiy
  have hb2 : InBounds k m (x + w - 1) i := by
    unfold InBounds; rw [hW]; constructor
    · push_cast at hx ⊢; omega
    · exact hiy
  have e : (x + w + 4294967295) % 4294967296 = x + w - 1 := by
    rw [hW] at hcW; push_cast at hx; omega
  rw [e, getDisplayID_tileOf hs hb1, getDisplayID_tileOf hs hb2, tileOf_row hW, tileOf_row hW]
  exact ⟨rfl, rfl⟩

theorem tile_in_row {c r q : Nat} (hq : q < c) :
    (((r * c + q : Nat) : Int)) / (c : Int) = (r : Int) := by
  rw [← Int.ofNat_ediv, Nat.add_comm, Nat.add_mul_div_right _ _ (by omega),
    Nat.div_eq_of_lt hq, Nat.zero_add]

theorem rowSteps_range (k : Consts) (m : multitron) {x w : Nat} (y : Nat) (hw : 1 ≤ w)
    (r : Nat) :
    rowSteps k m x y w r
      = (List.range ((x + w - 1) / 256 - x / 256 + 1)).map
          (fun t => mkStep k m x y w r (x / 256 + t)) := by
  have hn : (x + w - 1) / 256 + 1 - x / 256 = (x + w - 1) / 256 - x / 256 + 1 := by omega
  unfold rowSteps
  rw [List.range'_eq_map_range, List.map_map, hn]
  rfl

theorem rectSteps_range (k : Consts) (m : multitron) {x w : Nat} (y : Nat) (hw : 1 ≤ w)
    (h : Nat) :
    rectSteps k m x y w h
      = (List.range h).flatMap (fun r =>
          (List.range ((x + w - 1) / 256 - x / 256 + 1)).map
            (fun t => mkStep k m x y w r (x / 256 + t))) := by
  unfold rectSteps
  rw [← List.range_eq_range', show rowSteps k m x y w = (fun r =>
      (List.range ((x + w - 1) / 256 - x / 256 + 1)).map
        (fun t => mkStep k m x y w r (x / 256 + t))) from funext (rowSteps_range k m y hw)]

/-- The byte counts `end_pos - start_pos + 1` of the first `n` steps of a row
add up to the number of columns of the rectangle left of tile column
`x/256 + n`. -/
theorem step_lengths_sum (k : Consts) (m : multitron) {x w : Nat} (y r : Nat) (hw : 1 ≤ w) :
    ∀ n : Nat, n ≤ (x + w - 1) / 256 + 1 - x / 256 →
      ∑ t ∈ Finset.range n,
        ((mkStep k m x y w r (x / 256 + t)).end_pos
          - (mkStep k m x y w r (x / 256 + t)).start_pos + 1)
        = min (x + w) (max x (256 * (x / 256 + n))) - x
  | 0, _ => by
    rw [Finset.sum_range_zero]
    omega
  | n + 1, hn => by
    have hq1 : x / 256 ≤ x / 256 + n := by omega
    have hq2 : x / 256 + n ≤ (x + w - 1) / 256 := by omega
    obtain ⟨lo, hi, e1, e2, e3, e4, f1, f2, f3, f4, f5, f6⟩ := span_facts hw hq1 hq2
    rw [Nat.add_assoc] at e4
    rw [Finset.sum_range_succ, step_lengths_sum k m y r hw n (by omega), e3, e4]
    unfold mkStep
    dsimp only
    rw [e1, e2]
    omega

/-- C15: with tiles 256 bytes wide, for a rectangle with `w >= 1` on the grid
(a buffer of `w*h` bytes, any device): `mtron_getrect` and `mtron_putrect`
return 0 and their exchanges and copies are those of the steps `rectSteps`,
which are, for the rows `r = 0 .. h-1` in order, the steps of the tile columns
`x/256 + t` for `t = 0 .. (x+w-1)/256 - x/256` in order.  For the row
`i = y + r`, with `displayID` and `displayID_end` the results of the two
`getDisplayID` calls of the loops: `displayID >= 0` and
`displayID_end = displayID + ((x+w-1)/256 - x/256)`; the step `t` is for tile
`displayID + t`, which lies in grid row `i / SUBDISPLAY_HEIGHT`, and scanline
`i mod SUBDISPLAY_HEIGHT`; its `start_pos` and `end_pos` are those of the `if`
chain of the loops, with `0 <= start_pos <= end_pos <= 255`, and stand for the
columns `max x (256 q) .. min (x+w-1) (256 q + 255)` of tile column
`q = x/256 + t`: the first range starts at column `x`, each next range starts
one column after the end of the one before, the last ends at `x+w-1`; and the
lengths `end_pos - start_pos + 1` of the row add up to `w`. -/
theorem rect_tiles_and_ranges {σ : Type} (k : Consts) (m : multitron) (tronctl : Tronctl σ)
    (dev : σ) (scanline : List Nat) (x y w h : Nat) (data : List Nat)
    (hs : IntSafe k m) (hW : k.SUBDISPLAY_WIDTH = 256) (hk : Keeps256 tronctl)
    (hsl : scanline.length = 256) (hw : 1 ≤ w)
    (hx : (x : Int) + w ≤ m.cols * k.SUBDISPLAY_WIDTH)
    (hy : (y : Int) + h ≤ m.rows * k.SUBDISPLAY_HEIGHT)
    (hdata : data.length = w * h) (h31 : w * h < 2147483648) :
    (∃ (dev1 : σ) (l : List Exchange) (data1 : List Nat),
      mtron_getrect k (traced tronctl) m (dev, []) scanline x y w h data
        = .returns (0, (dev1, l), data1) ∧
      GetPairs k (rectSteps k m x y w h) l data data1) ∧
    (∃ (dev1 : σ) (l : List Exchange),
      mtron_putrect k (traced tronctl) m (dev, []) scanline x y w h data
        = .returns (0, (dev1, l)) ∧
      PutPairs k data (rectSteps k m x y w h) l) ∧
    rectSteps k m x y w h
      = (List.range h).flatMap (fun r =>
          (List.range ((x + w - 1) / 256 - x / 256 + 1)).map
            (fun t => mkStep k m x y w r (x / 256 + t))) ∧
    ∀ r : Nat, r < h →
      0 ≤ (getDisplayID k m x (y + r)).1 ∧
      (getDisplayID k m ((x + w + 4294967295) % 4294967296) (y + r)).1
        = (getDisplayID k m x (y + r)).1 + (((x + w - 1) / 256 - x / 256 : Nat) : Int) ∧
      (∀ t : Nat, t ≤ (x + w - 1) / 256 - x / 256 →
        ((mkStep k m x y w r (x / 256 + t)).tile : Int)
          = (getDisplayID k m x (y + r)).1 + (t : Int) ∧
        (mkStep k m x y w r (x / 256 + t)).line = (y + r) % k.SUBDISPLAY_HEIGHT ∧
        ((getDisplayID k m x (y + r)).1 + (t : Int)) / m.cols
          = (((y + r) / k.SUBDISPLAY_HEIGHT : Nat) : Int) ∧
        tilePos k x w (getDisplayID k m x (y + r)).1
          (getDisplayID k m ((x + w + 4294967295) % 4294967296) (y + r)).1
          ((getDisplayID k m x (y + r)).1 + (t : Int))
          = (((mkStep k m x y w r (x / 256 + t)).start_pos : Int),
             ((mkStep k m x y w r (x / 256 + t)).end_pos : Int)) ∧
        (mkStep k m x y w r (x / 256 + t)).start_pos
          ≤ (mkStep k m x y w r (x / 256 + t)).end_pos ∧
        (mkStep k m x y w r (x / 256 + t)).end_pos ≤ 255 ∧
        256 * (x / 256 + t) + (mkStep k m x y w r (x / 256 + t)).start_pos
          = max x (256 * (x / 256 + t)) ∧
        256 * (x / 256 + t) + (mkStep k m x y w r (x / 256 + t)).end_pos
          = min (x + w - 1) (256 * (x / 256 + t) + 255) ∧
        (t = 0 → 256 * (x / 256 + t) + (mkStep k m x y w r (x / 256 + t)).start_pos = x) ∧
        (t = (x + w - 1) / 256 - x / 256 →
          256 * (x / 256 + t) + (mkStep k m x y w r (x / 256 + t)).end_pos = x + w - 1) ∧
        (t < (x + w - 1) / 256 - x / 256 →
          256 * (x / 256 + t) + (mkStep k m x y w r (x / 256 + t)).end_pos + 1
            = 256 * (x / 256 + (t + 1))
              + (mkStep k m x y w r (x / 256 + (t + 1))).start_pos)) ∧
      ∑ t ∈ Finset.range ((x + w - 1) / 256 - x / 256 + 1),
        ((mkStep k m x y w r (x / 256 + t)).end_pos
          - (mkStep k m x y w r (x / 256 + t)).start_pos + 1) = w := by
  obtain ⟨hx1, hy1⟩ := rect_hyps hW hx hy
  have hdl : data.length = h * w := by rw [hdata, Nat.mul_comm]
  have h31b : h * w < 2147483648 := by rw [Nat.mul_comm]; exact h31
  obtain ⟨dev1, l1, data1, hrun1, _, hp1⟩ :=
    getrect_traced hs hW tronctl hk dev [] scanline hsl hw hx1 hy1 data hdl h31b
  obtain ⟨dev2, l2, hrun2, hp2⟩ :=
    putrect_traced hs hW tronctl hk dev [] scanline hsl hw hx1 hy1 data hdl h31b
  rw [List.nil_append] at hrun1 hrun2
  refine ⟨⟨dev1, l1, data1, hrun1, hp1⟩, ⟨dev2, l2, hrun2, hp2⟩, rectSteps_range k m y hw h, ?_⟩
  intro r hr
  have hiy : ((y + r : Nat) : Int) < m.rows * k.SUBDISPLAY_HEIGHT := by
    push_cast at hy1 ⊢; omega
  obtain ⟨_, _, hxw⟩ := row_facts_gen hs hW hw hx1 hiy
  obtain ⟨d1, d2⟩ := row_displayIDs hs hW hw hx1 hiy
  have hc1 := hs.2.2.2.1
  have hbc : (x + w - 1) / 256 < m.cols.toNat := by
    have h1 : ((x + w - 1 : Nat) : Int) < m.cols * ((256 : Nat) : Int) := by
      push_cast at hx1 ⊢; omega
    have := div_lt_of_lt_mul_int h1
    omega
  have hcc : ((m.cols.toNat : Nat) : Int) = m.cols := Int.toNat_of_nonneg (by omega)
  have hab : x / 256 ≤ (x + w - 1) / 256 := by omega
  rw [d1, d2]
  refine ⟨Int.ofNat_nonneg _, by omega, ?_, ?_⟩
  · intro t ht
    have hq1 : x / 256 ≤ x / 256 + t := by omega
    have hq2 : x / 256 + t ≤ (x + w - 1) / 256 := by omega
    have hj : (((y + r) / k.SUBDISPLAY_HEIGHT * m.cols.toNat + x / 256 : Nat) : Int)
        + (t : Int)
        = (((y + r) / k.SUBDISPLAY_HEIGHT * m.cols.toNat + (x / 256 + t) : Nat) : Int) := by
      omega
    rw [hj, tilePos_eq hW hw hxw _ _ hq1 hq2]
    refine ⟨rfl, rfl, ?_, rfl, ?_⟩
    · rw [← hcc]
      exact tile_in_row (by omega)
    · obtain ⟨lo, hi, e1, e2, e3, e4, f1, f2, f3, f4, f5, f6⟩ := span_facts hw hq1 hq2
      unfold mkStep
      dsimp only
      rw [e1, e2]
      refine ⟨by omega, by omega, by omega, by omega, ?_, ?_, ?_⟩
      · intro h0
        omega
      · intro h0
        omega
      · intro h0
        omega
  · have hn : (x + w - 1) / 256 - x / 256 + 1 = (x + w - 1) / 256 + 1 - x / 256 := by omega
    have hend : min (x + w) (max x (256 * (x / 256 + ((x + w - 1) / 256 + 1 - x / 256)))) - x
        = w := by omega
    rw [hn, step_lengths_sum k m y r hw _ le_rfl, hend]

/-- Witness of C15: the store/load hardware and the 100x1 rectangle at
`(200, 0)` of a 1x2 grid of 256x128 tiles: two steps, tile 0 with the range
`[200, 255]` and tile 1 with the range `[0, 43]`, 56 + 44 = 100 bytes. -/
theorem rect_tiles_and_ranges_witness :
    Keeps256 (storeLoad ⟨256, 128, 2, 3⟩) ∧ IntSafe ⟨256, 128, 2, 3⟩ ⟨1, 2⟩ ∧
    rectSteps ⟨256, 128, 2, 3⟩ ⟨1, 2⟩ 200 0 100 1 = [⟨0, 0, 200, 255, 0⟩, ⟨1, 0, 0, 43, 56⟩] ∧
    tilePos ⟨256, 128, 2, 3⟩ 200 100 0 1 0 = (200, 255) ∧
    tilePos ⟨256, 128, 2, 3⟩ 200 100 0 1 1 = (0, 43) ∧
    ((∃ (dev1 : Display) (l : List Exchange) (data1 : List Nat),
      mtron_getrect ⟨256, 128, 2, 3⟩ (traced (storeLoad ⟨256, 128, 2, 3⟩)) ⟨1, 2⟩ ((fun _ _ _ => 0), []) (List.replicate 256 0) 200 0 100 1 (List.replicate 100 0)
        = .returns (0, (dev1, l), data1) ∧
      GetPairs ⟨256, 128, 2, 3⟩ (rectSteps ⟨256, 128, 2, 3⟩ ⟨1, 2⟩ 200 0 100 1) l (List.replicate 100 0) data1) ∧
    (∃ (dev1 : Display) (l : List Exchange),
      mtron_putrect ⟨256, 128, 2, 3⟩ (traced (storeLoad ⟨256, 128, 2, 3⟩)) ⟨1, 2⟩ ((fun _ _ _ => 0), []) (List.replicate 256 0) 200 0 100 1 (List.replicate 100 0)
        = .returns (0, (dev1, l)) ∧
      PutPairs ⟨256, 128, 2, 3⟩ (List.replicate 100 0) (rectSteps ⟨256, 128, 2, 3⟩ ⟨1, 2⟩ 200 0 100 1) l) ∧
    rectSteps ⟨256, 128, 2, 3⟩ ⟨1, 2⟩ 200 0 100 1
      = (List.range 1).flatMap (fun r =>
          (List.range ((200 + 100 - 1) / 256 - 200 / 256 + 1)).map
            (fun t => mkStep ⟨256, 128, 2, 3⟩ ⟨1, 2⟩ 200 0 100 r (200 / 256 + t))) ∧
    ∀ r : Nat, r < 1 →
      0 ≤ (getDisplayID ⟨256, 128, 2, 3⟩ ⟨1, 2⟩ 200 (0 + r)).1 ∧
      (getDisplayID ⟨256, 128, 2, 3⟩ ⟨1, 2⟩ ((200 + 100 + 4294967295) % 4294967296) (0 + r)).1
        = (getDisplayID ⟨256, 128, 2, 3⟩ ⟨1, 2⟩ 200 (0 + r)).1 + (((200 + 100 - 1) / 256 - 200 / 256 : Nat) : Int) ∧
      (∀ t : Nat, t ≤ (200 + 100 - 1) / 256 - 200 / 256 →
        ((mkStep ⟨256, 128, 2, 3⟩ ⟨1, 2⟩ 200 0 100 r (200 / 256 + t)).tile : Int)
          = (getDisplayID ⟨256, 128, 2, 3⟩ ⟨1, 2⟩ 200 (0 + r)).1 + (t : Int) ∧
        (mkStep ⟨256, 128, 2, 3⟩ ⟨1, 2⟩ 200 0 100 r (200 / 256 + t)).line = (0 + r) % 128 ∧
        ((getDisplayID ⟨256, 128, 2, 3⟩ ⟨1, 2⟩ 200 (0 + r)).1 + (t : Int)) / 2
          = (((0 + r) / 128 : Nat) : Int) ∧
        tilePos ⟨256, 128, 2, 3⟩ 200 100 (getDisplayID ⟨256, 128, 2, 3⟩ ⟨1, 2⟩ 200 (0 + r)).1
          (getDisplayID ⟨256, 128, 2, 3⟩ ⟨1, 2⟩ ((200 + 100 + 4294967295) % 4294967296) (0 + r)).1
          ((getDisplayID ⟨256, 128, 2, 3⟩ ⟨1, 2⟩ 200 (0 + r)).1 + (t : Int))
          = (((mkStep ⟨256, 128, 2, 3⟩ ⟨1, 2⟩ 200 0 100 r (200 / 256 + t)).start_pos : Int),
             ((mkStep ⟨256, 128, 2, 3⟩ ⟨1, 2⟩ 200 0 100 r (200 / 256 + t)).end_pos : Int)) ∧
        (mkStep ⟨256, 128, 2, 3⟩ ⟨1, 2⟩ 200 0 100 r (200 / 256 + t)).start_pos
          ≤ (mkStep ⟨256, 128, 2, 3⟩ ⟨1, 2⟩ 200 0 100 r (200 / 256 + t)).end_pos ∧
        (mkStep ⟨256, 128, 2, 3⟩ ⟨1, 2⟩ 200 0 100 r (200 / 256 + t)).end_pos ≤ 255 ∧
        256 * (200 / 256 + t) + (mkStep ⟨256, 128, 2, 3⟩ ⟨1, 2⟩ 200 0 100 r (200 / 256 + t)).start_pos
          = max 200 (256 * (200 / 256 + t)) ∧
        256 * (200 / 256 + t) + (mkStep ⟨256, 128, 2, 3⟩ ⟨1, 2⟩ 200 0 100 r (200 / 256 + t)).end_pos
          = min (200 + 100 - 1) (256 * (200 / 256 + t) + 255) ∧
        (t = 0 → 256 * (200 / 256 + t) + (mkStep ⟨256, 128, 2, 3⟩ ⟨1, 2⟩ 200 0 100 r (200 / 256 + t)).start_pos = 200) ∧
        (t = (200 + 100 - 1) / 256 - 200 / 256 →
          256 * (200 / 256 + t) + (mkStep ⟨256, 128, 2, 3⟩ ⟨1, 2⟩ 200 0 100 r (200 / 256 + t)).end_pos = 200 + 100 - 1) ∧
        (t < (200 + 100 - 1) / 256 - 200 / 256 →
          256 * (200 / 256 + t) + (mkStep ⟨256, 128, 2, 3⟩ ⟨1, 2⟩ 200 0 100 r (200 / 256 + t)).end_pos + 1
            = 256 * (200 / 256 + (t + 1))
              + (mkStep ⟨256, 128, 2, 3⟩ ⟨1, 2⟩ 200 0 100 r (200 / 256 + (t + 1))).start_pos)) ∧
      ∑ t ∈ Finset.range ((200 + 100 - 1) / 256 - 200 / 256 + 1),
        ((mkStep ⟨256, 128, 2, 3⟩ ⟨1, 2⟩ 200 0 100 r (200 / 256 + t)).end_pos
          - (mkStep ⟨256, 128, 2, 3⟩ ⟨1, 2⟩ 200 0 100 r (200 / 256 + t)).start_pos + 1) = 100) :=
  ⟨storeLoad_keeps256 _, by decide, rfl, by decide, by decide,
   rect_tiles_and_ranges ⟨256, 128, 2, 3⟩ ⟨1, 2⟩ (storeLoad ⟨256, 128, 2, 3⟩)
     (fun _ _ _ => 0) (List.replicate 256 0) 200 0 100 1
     (List.replicate 100 0) (by decide) rfl (storeLoad_keeps256 _) (List.length_replicate _ _)
     (by decide) (by decide) (by decide) (List.length_replicate _ _) (by decide)⟩

/-! ## Claim on the ranges of the copies and the running cursor -/

theorem rectSteps_mem {k : Consts} {m : multitron} {x y w h : Nat} {st : TileStep}
    (hst : st ∈ rectSteps k m x y w h) :
    ∃ r q : Nat, r < h ∧ x / 256 ≤ q ∧ q ≤ (x + w - 1) / 256 ∧ st = mkStep k m x y w r q := by
  unfold rectSteps at hst
  rw [List.mem_flatMap] at hst
  obtain ⟨r, hr, hst⟩ := hst
  unfold rowSteps at hst
  rw [List.mem_map] at hst
  obtain ⟨q, hq, hst⟩ := hst
  rw [List.mem_range'_1] at hr hq
  exact ⟨r, q, by omega, by omega, by omega, hst.symm⟩

theorem mkStep_facts (k : Consts) (m : multitron) {x w h r q : Nat} (y : Nat) (hw : 1 ≤ w)
    (hr : r < h) (hq1 : x / 256 ≤ q) (hq2 : q ≤ (x + w - 1) / 256) :
    (mkStep k m x y w r q).start_pos ≤ (mkStep k m x y w r q).end_pos ∧
    (mkStep k m x y w r q).end_pos ≤ 255 ∧
    (mkStep k m x y w r q).cursor
      + ((mkStep k m x y w r q).end_pos - (mkStep k m x y w r q).start_pos + 1) ≤ w * h ∧
    r * w ≤ (mkStep k m x y w r q).cursor := by
  have hmul : (r + 1) * w ≤ h * w := Nat.mul_le_mul_right w hr
  have hsucc : (r + 1) * w = r * w + w := Nat.succ_mul r w
  have hcomm : w * h = h * w := Nat.mul_comm w h
  obtain ⟨lo, hi, e1, e2, e3, e4, f1, f2, f3, f4, f5, f6⟩ := span_facts hw hq1 hq2
  unfold mkStep
  dsimp only
  rw [e1, e2, hcomm]
  generalize r * w = rw0 at hmul hsucc ⊢
  generalize h * w = hw0 at hmul ⊢
  refine ⟨by omega, by omega, by omega, by omega⟩

/-- One row of `mtron_getrect` on any device, entered with the cursor at
`r * w`: the inner loop, on the tiles the two `getDisplayID` calls give,
returns with the cursor at `(r + 1) * w`. -/
theorem getrect_row_cursor {σ : Type} {k : Consts} {m : multitron} (hs : IntSafe k m)
    (hW : k.SUBDISPLAY_WIDTH = 256) (tronctl : Tronctl σ) (hk : Keeps256 tronctl)
    {x y w hh : Nat} (hw : 1 ≤ w)
    (hx : ((x + w : Nat) : Int) ≤ m.cols * 256)
    (hy : ((y + hh : Nat) : Int) ≤ m.rows * k.SUBDISPLAY_HEIGHT)
    (h31 : hh * w < 2147483648) {r : Nat} (hr : r < hh)
    (dev : σ × List Exchange) (scan data : List Nat) (hsl : scan.length = 256)
    (hdl : data.length = hh * w) :
    ∃ (dev1 : σ × List Exchange) (scan1 data1 : List Nat),
      getrect_tiles k (traced tronctl) x w ((y + r : Nat) : Int)
        (getDisplayID k m x (y + r)).1
        (getDisplayID k m ((x + w + 4294967295) % 4294967296) (y + r)).1 4294967297
        (getDisplayID k m x (y + r)).1 dev scan data ((r * w : Nat) : Int)
      = .returns (dev1, scan1, data1, (((r + 1) * w : Nat) : Int)) := by
  have hiy : ((y + r : Nat) : Int) < m.rows * k.SUBDISPLAY_HEIGHT := by
    push_cast at hy ⊢; omega
  obtain ⟨hL, hbase, hxw⟩ := row_facts_gen hs hW hw hx hiy
  obtain ⟨d1, d2⟩ := row_displayIDs hs hW hw hx hiy
  have hmul : (r + 1) * w ≤ hh * w := Nat.mul_le_mul_right w hr
  have hsucc : (r + 1) * w = r * w + w := Nat.succ_mul r w
  obtain ⟨dev1, l1, scan1, data1, hrun, _, _, _⟩ :=
    getrect_tiles_traced hW tronctl hk hw hxw (y + r) _ hL hbase (r * w) (hh * w)
      (by omega) h31 ((x + w - 1) / 256 + 1 - x / 256) 4294967297 (x / 256) dev.1 dev.2 scan
      data le_rfl (by omega) (by omega) hsl hdl
  have hz : r * w + (min (x + w) (max x (256 * (x / 256))) - x) = r * w := by omega
  rw [hz, ← hsucc] at hrun
  rw [d1, d2]
  exact ⟨_, _, _, hrun⟩

/-- One row of `mtron_putrect` on any device, entered with the cursor at
`r * w`: the inner loop, on the tiles the two `getDisplayID` calls give,
returns with the cursor at `(r + 1) * w`. -/
theorem putrect_row_cursor {σ : Type} {k : Consts} {m : multitron} (hs : IntSafe k m)
    (hW : k.SUBDISPLAY_WIDTH = 256) (tronctl : Tronctl σ) (hk : Keeps256 tronctl)
    {x y w hh : Nat} (hw : 1 ≤ w)
    (hx : ((x + w : Nat) : Int) ≤ m.cols * 256)
    (hy : ((y + hh : Nat) : Int) ≤ m.rows * k.SUBDISPLAY_HEIGHT)
    (h31 : hh * w < 2147483648) {r : Nat} (hr : r < hh)
    (dev : σ × List Exchange) (scan data : List Nat) (hsl : scan.length = 256)
    (hdl : data.length = hh * w) :
    ∃ (dev1 : σ × List Exchange) (scan1 : List Nat),
      putrect_tiles k (traced tronctl) x w ((y + r : Nat) : Int)
        (getDisplayID k m x (y + r)).1
        (getDisplayID k m ((x + w + 4294967295) % 4294967296) (y + r)).1 data 4294967297
        (getDisplayID k m x (y + r)).1 dev scan ((r * w : Nat) : Int)
      = .returns (dev1, scan1, (((r + 1) * w : Nat) : Int)) := by
  have hiy : ((y + r : Nat) : Int) < m.rows * k.SUBDISPLAY_HEIGHT := by
    push_cast at hy ⊢; omega
  obtain ⟨hL, hbase, hxw⟩ := row_facts_gen hs hW hw hx hiy
  obtain ⟨d1, d2⟩ := row_displayIDs hs hW hw hx hiy
  have hmul : (r + 1) * w ≤ hh * w := Nat.mul_le_mul_right w hr
  have hsucc : (r + 1) * w = r * w + w := Nat.succ_mul r w
  obtain ⟨dev1, l1, scan1, hrun, _, _⟩ :=
    putrect_tiles_traced hW tronctl hk hw hxw (y + r) _ hL hbase (r * w) data
      (by omega) (by omega) ((x + w - 1) / 256 + 1 - x / 256) 4294967297 (x / 256) dev.1 dev.2
      scan le_rfl (by omega) (by omega) hsl
  have hz : r * w + (min (x + w) (max x (256 * (x / 256))) - x) = r * w := by omega
  rw [hz, ← hsucc] at hrun
  rw [d1, d2]
  exact ⟨_, _, hrun⟩

/-- C18: with tiles 256 bytes wide, for a rectangle with `w >= 1` on the grid
(no 32-bit wrap) and a buffer of `w*h` bytes, on every device: `mtron_getrect`
and `mtron_putrect` return (no `memcpy` leaves its arrays), and their copies
are those of the steps of the rectangle; for every step,
`start_pos <= end_pos <= 255`, so the scanline slice lies inside `[0, 256)`
and the byte count `end_pos - start_pos + 1` is positive, and the slice
`[cursor, cursor + bytes)` of the caller's buffer lies inside `[0, w*h)`; and
the inner loop of row `y + r`, entered with the cursor at `r * w`, leaves it at
`(r + 1) * w`, so the cursor, 0 at the start, is `(i - y) * w` at the start of
row `i` and `w*h` after the last row. -/
theorem rect_copies_in_range {σ : Type} (k : Consts) (m : multitron) (tronctl : Tronctl σ)
    (dev : σ) (scanline : List Nat) (x y w h : Nat) (data : List Nat)
    (hs : IntSafe k m) (hW : k.SUBDISPLAY_WIDTH = 256) (hk : Keeps256 tronctl)
    (hsl : scanline.length = 256) (hw : 1 ≤ w)
    (hx : (x : Int) + w ≤ m.cols * k.SUBDISPLAY_WIDTH)
    (hy : (y : Int) + h ≤ m.rows * k.SUBDISPLAY_HEIGHT)
    (hdata : data.length = w * h) (h31 : w * h < 2147483648) :
    (∃ (dev1 : σ) (l : List Exchange) (data1 : List Nat),
      mtron_getrect k (traced tronctl) m (dev, []) scanline x y w h data
        = .returns (0, (dev1, l), data1) ∧
      GetPairs k (rectSteps k m x y w h) l data data1) ∧
    (∃ (dev1 : σ) (l : List Exchange),
      mtron_putrect k (traced tronctl) m (dev, []) scanline x y w h data
        = .returns (0, (dev1, l)) ∧
      PutPairs k data (rectSteps k m x y w h) l) ∧
    (∀ st : TileStep, st ∈ rectSteps k m x y w h →
      st.start_pos ≤ st.end_pos ∧ st.end_pos ≤ 255 ∧
      st.cursor + (st.end_pos - st.start_pos + 1) ≤ w * h) ∧
    (∀ r : Nat, r < h →
      ∀ (dev2 : σ × List Exchange) (scan2 data2 : List Nat), scan2.length = 256 →
        data2.length = w * h →
        (∃ (dev3 : σ × List Exchange) (scan3 data3 : List Nat),
          getrect_tiles k (traced tronctl) x w ((y + r : Nat) : Int)
            (getDisplayID k m x (y + r)).1
            (getDisplayID k m ((x + w + 4294967295) % 4294967296) (y + r)).1 4294967297
            (getDisplayID k m x (y + r)).1 dev2 scan2 data2 ((r * w : Nat) : Int)
          = .returns (dev3, scan3, data3, (((r + 1) * w : Nat) : Int))) ∧
        (∃ (dev3 : σ × List Exchange) (scan3 : List Nat),
          putrect_tiles k (traced tronctl) x w ((y + r : Nat) : Int)
            (getDisplayID k m x (y + r)).1
            (getDisplayID k m ((x + w + 4294967295) % 4294967296) (y + r)).1 data2 4294967297
            (getDisplayID k m x (y + r)).1 dev2 scan2 ((r * w : Nat) : Int)
          = .returns (dev3, scan3, (((r + 1) * w : Nat) : Int)))) := by
  obtain ⟨hx1, hy1⟩ := rect_hyps hW hx hy
  have hdl : data.length = h * w := by rw [hdata, Nat.mul_comm]
  have h31b : h * w < 2147483648 := by rw [Nat.mul_comm]; exact h31
  obtain ⟨dev1, l1, data1, hrun1, _, hp1⟩ :=
    getrect_traced hs hW tronctl hk dev [] scanline hsl hw hx1 hy1 data hdl h31b
  obtain ⟨dev2, l2, hrun2, hp2⟩ :=
    putrect_traced hs hW tronctl hk dev [] scanline hsl hw hx1 hy1 data hdl h31b
  rw [List.nil_append] at hrun1 hrun2
  refine ⟨⟨dev1, l1, data1, hrun1, hp1⟩, ⟨dev2, l2, hrun2, hp2⟩, ?_, ?_⟩
  · intro st hst
    obtain ⟨r, q, hr, hq1, hq2, rfl⟩ := rectSteps_mem hst
    obtain ⟨g1, g2, g3, _⟩ := mkStep_facts k m y hw hr hq1 hq2
    exact ⟨g1, g2, g3⟩
  · intro r hr dev3 scan3 data3 hsl3 hdl3
    have hdl3b : data3.length = h * w := by rw [hdl3, Nat.mul_comm]
    exact ⟨getrect_row_cursor hs hW tronctl hk hw hx1 hy1 h31b hr dev3 scan3 data3 hsl3 hdl3b,
      putrect_row_cursor hs hW tronctl hk hw hx1 hy1 h31b hr dev3 scan3 data3 hsl3 hdl3b⟩

/-- Witness of C18: the store/load hardware, a 100x2 rectangle at `(200, 5)`
across the two tiles of a 1x2 grid of 256x128 tiles. -/
theorem rect_copies_in_range_witness :
    Keeps256 (storeLoad ⟨256, 128, 2, 3⟩) ∧ IntSafe ⟨256, 128, 2, 3⟩ ⟨1, 2⟩ ∧
    ((∃ (dev1 : Display) (l : List Exchange) (data1 : List Nat),
      mtron_getrect ⟨256, 128, 2, 3⟩ (traced (storeLoad ⟨256, 128, 2, 3⟩)) ⟨1, 2⟩
        ((fun _ _ _ => 0), []) (List.replicate 256 0) 200 5 100 2 (List.replicate 200 7)
        = .returns (0, (dev1, l), data1) ∧
      GetPairs ⟨256, 128, 2, 3⟩ (rectSteps ⟨256, 128, 2, 3⟩ ⟨1, 2⟩ 200 5 100 2) l
        (List.replicate 200 7) data1) ∧
    (∃ (dev1 : Display) (l : List Exchange),
      mtron_putrect ⟨256, 128, 2, 3⟩ (traced (storeLoad ⟨256, 128, 2, 3⟩)) ⟨1, 2⟩
        ((fun _ _ _ => 0), []) (List.replicate 256 0) 200 5 100 2 (List.replicate 200 7)
        = .returns (0, (dev1, l)) ∧
      PutPairs ⟨256, 128, 2, 3⟩ (List.replicate 200 7)
        (rectSteps ⟨256, 128, 2, 3⟩ ⟨1, 2⟩ 200 5 100 2) l) ∧
    (∀ st : TileStep, st ∈ rectSteps ⟨256, 128, 2, 3⟩ ⟨1, 2⟩ 200 5 100 2 →
      st.start_pos ≤ st.end_pos ∧ st.end_pos ≤ 255 ∧
      st.cursor + (st.end_pos - st.start_pos + 1) ≤ 100 * 2) ∧
    (∀ r : Nat, r < 2 →
      ∀ (dev2 : Display × List Exchange) (scan2 data2 : List Nat), scan2.length = 256 →
        data2.length = 100 * 2 →
        (∃ (dev3 : Display × List Exchange) (scan3 data3 : List Nat),
          getrect_tiles ⟨256, 128, 2, 3⟩ (traced (storeLoad ⟨256, 128, 2, 3⟩)) 200 100
            ((5 + r : Nat) : Int)
            (getDisplayID ⟨256, 128, 2, 3⟩ ⟨1, 2⟩ 200 (5 + r)).1
            (getDisplayID ⟨256, 128, 2, 3⟩ ⟨1, 2⟩ ((200 + 100 + 4294967295) % 4294967296)
              (5 + r)).1 4294967297
            (getDisplayID ⟨256, 128, 2, 3⟩ ⟨1, 2⟩ 200 (5 + r)).1 dev2 scan2 data2
            ((r * 100 : Nat) : Int)
          = .returns (dev3, scan3, data3, (((r + 1) * 100 : Nat) : Int))) ∧
        (∃ (dev3 : Display × List Exchange) (scan3 : List Nat),
          putrect_tiles ⟨256, 128, 2, 3⟩ (traced (storeLoad ⟨256, 128, 2, 3⟩)) 200 100
            ((5 + r : Nat) : Int)
            (getDisplayID ⟨256, 128, 2, 3⟩ ⟨1, 2⟩ 200 (5 + r)).1
            (getDisplayID ⟨256, 128, 2, 3⟩ ⟨1, 2⟩ ((200 + 100 + 4294967295) % 4294967296)
              (5 + r)).1 data2 4294967297
            (getDisplayID ⟨256, 128, 2, 3⟩ ⟨1, 2⟩ 200 (5 + r)).1 dev2 scan2
            ((r * 100 : Nat) : Int)
          = .returns (dev3, scan3, (((r + 1) * 100 : Nat) : Int))))) :=
  ⟨storeLoad_keeps256 _, by decide,
   rect_copies_in_range ⟨256, 128, 2, 3⟩ ⟨1, 2⟩ (storeLoad ⟨256, 128, 2, 3⟩)
     (fun _ _ _ => 0) (List.replicate 256 0) 200 5 100 2
     (List.replicate 200 7) (by decide) rfl (storeLoad_keeps256 _) (List.length_replicate _ _)
     (by decide) (by decide) (by decide) (List.length_replicate _ _) (by decide)⟩

/-! ## Claim on the read accessors: no write is issued -/

theorem toI32_range (z : Int) : -2147483648 ≤ toI32 z ∧ toI32 z < 2147483648 := by
  unfold toI32
  omega

theorem storeLoad_read_keeps (k : Consts) (display : Display) (op : Nat) (buf : List Nat)
    (h : op / 128 % 32 = k.MTRON_READ_LINE) : (storeLoad k display op buf).2.1 = display := by
  unfold storeLoad
  dsimp only
  rw [if_pos h]

theorem reads_extend {R : Nat} {log l full : List Exchange} {e1 e2 : Exchange}
    (h : full = log ++ [e1] ++ [e2] ++ l) (h1 : e1.op / 128 % 32 = R)
    (h2 : e2.op / 128 % 32 = R) (h3 : ∀ e : Exchange, e ∈ l → e.op / 128 % 32 = R) :
    ∃ l1 : List Exchange, full = log ++ l1 ∧ ∀ e : Exchange, e ∈ l1 → e.op / 128 % 32 = R := by
  refine ⟨e1 :: e2 :: l, ?_, ?_⟩
  · rw [h, List.append_assoc, List.append_assoc]
    rfl
  · intro e he
    rw [List.mem_cons, List.mem_cons] at he
    rcases he with rfl | rfl | he
    · exact h1
    · exact h2
    · exact h3 e he

/-- The inner loop of `mtron_getrect` on any device: when the loop returns,
every exchange it added has the READ_LINE opcode in its opcode field, and a
device that a READ_LINE word leaves as it is, is as before. -/
theorem getrect_tiles_reads {σ : Type} {k : Consts} (tronctl : Tronctl σ)
    (hR : k.MTRON_READ_LINE < 32)
    (x w iN : Nat) (hL : iN % k.SUBDISPLAY_HEIGHT < 128) (dID dend : Int) (hdend : dend < 128) :
    ∀ (fuel j : Nat) (dev : σ) (log : List Exchange) (scan data : List Nat) (cur : Int)
      (res : (σ × List Exchange) × List Nat × List Nat × Int),
      getrect_tiles k (traced tronctl) x w (iN : Int) dID dend fuel (j : Int) (dev, log) scan
        data cur = .returns res →
      ((∀ (dev : σ) (op : Nat) (buf : List Nat), op / 128 % 32 = k.MTRON_READ_LINE →
        (tronctl dev op buf).2.1 = dev) → res.1.1 = dev) ∧
      ∃ l : List Exchange, res.1.2 = log ++ l ∧
        ∀ e : Exchange, e ∈ l → e.op / 128 % 32 = k.MTRON_READ_LINE := by
  intro fuel
  induction fuel with
  | zero =>
    intro j dev log scan data cur res h
    rw [getrect_tiles] at h
    cases h
  | succ fuel ih =>
    intro j dev log scan data cur res h
    rw [getrect_tiles] at h
    by_cases hle : (j : Int) ≤ dend
    · have hj : j < 128 := by omega
      have hop := (setFields_decode hj hR (by omega : (0 : Nat) < 8192) hL).2.1
      have hinc : toI32 ((j : Int) + 1) = ((j + 1 : Nat) : Int) := by
        rw [← toI32_natCast (show j + 1 < 2147483648 by omega)]; rfl
      rw [if_pos hle, toU32_natCast (by omega), toU32_tmod_natCast _ _ (by omega)] at h
      dsimp only [traced] at h
      rcases htp : tilePos k x w dID dend (j : Int) with ⟨s, e⟩
      rw [htp] at h
      dsimp only at h
      split at h
      · cases h
      · rw [hinc] at h
        obtain ⟨g1, l, g2, g3⟩ := ih _ _ _ _ _ _ _ h
        refine ⟨fun hro => ?_, reads_extend g2 hop hop g3⟩
        rw [g1 hro, hro _ _ _ hop, hro _ _ _ hop]
    · rw [if_neg hle] at h
      injection h with h
      subst h
      exact ⟨fun _ => rfl, [], (List.append_nil _).symm,
        fun e he => absurd he (List.not_mem_nil e)⟩

/-- The rows of `mtron_getrect` on any device, for any 32-bit input: when the
loop returns, every exchange it added has the READ_LINE opcode in its opcode
field, and a device that a READ_LINE word leaves as it is, is as before. -/
theorem getrect_rows_reads {σ : Type} {k : Consts} {m : multitron} (ha : Addressable k m)
    (tronctl : Tronctl σ) (x w yh : Nat) :
    ∀ (fuel : Nat) (i : Int) (dev : σ) (log : List Exchange) (scan data : List Nat) (cur : Int)
      (res : Int × (σ × List Exchange) × List Nat),
      -2147483648 ≤ i → i < 2147483648 →
      getrect_rows k (traced tronctl) m x w yh fuel i (dev, log) scan data cur
        = .returns res →
      ((∀ (dev : σ) (op : Nat) (buf : List Nat), op / 128 % 32 = k.MTRON_READ_LINE →
        (tronctl dev op buf).2.1 = dev) → res.2.1.1 = dev) ∧
      ∃ l : List Exchange, res.2.1.2 = log ++ l ∧
        ∀ e : Exchange, e ∈ l → e.op / 128 % 32 = k.MTRON_READ_LINE := by
  have hs := ha.intSafe
  intro fuel
  induction fuel with
  | zero =>
    intro i dev log scan data cur res _ _ h
    rw [getrect_rows] at h
    cases h
  | succ fuel ih =>
    intro i dev log scan data cur res hi1 hi2 h
    rw [getrect_rows] at h
    by_cases hi0 : 0 ≤ i
    · obtain ⟨iN, rfl⟩ := Int.eq_ofNat_of_zero_le hi0
      have hiN : iN < 2147483648 := by omega
      rw [toU32_natCast (by omega)] at h
      by_cases hc : iN < yh
      · rw [if_pos hc] at h
        dsimp only at h
        by_cases hneg : (getDisplayID k m x iN).1 < 0 ∨
            (getDisplayID k m ((x + w + 4294967295) % 4294967296) iN).1 < 0
        · rw [if_pos hneg] at h
          injection h with h
          subst h
          exact ⟨fun _ => rfl, [], (List.append_nil _).symm,
            fun e he => absurd he (List.not_mem_nil e)⟩
        · rw [if_neg hneg] at h
          have hb1 : InBounds k m x iN := by
            by_contra hb
            apply hneg
            left
            rw [getDisplayID_outOfBounds hs hb]
            exact (by decide : (-1 : Int) < 0)
          have hb2 : InBounds k m ((x + w + 4294967295) % 4294967296) iN := by
            by_contra hb
            apply hneg
            right
            rw [getDisplayID_outOfBounds hs hb]
            exact (by decide : (-1 : Int) < 0)
          have ht2 := tileOf_lt ha hb2
          have hL : iN % k.SUBDISPLAY_HEIGHT < 128 :=
            lt_of_lt_of_le (Nat.mod_lt _ ha.2.2.1) ha.2.2.2.1
          rw [getDisplayID_tileOf hs hb1, getDisplayID_tileOf hs hb2] at h
          dsimp only at h
          split at h
          · rename_i r1 dev1 sc1 da1 c1 heq
            obtain ⟨d1, l1⟩ := dev1
            obtain ⟨g1, la, g2, g3⟩ :=
              getrect_tiles_reads tronctl ha.2.2.2.2.1 x w iN hL _ _ (by exact_mod_cast ht2)
                _ _ _ _ _ _ _ _ heq
            dsimp only at g1 g2
            subst g2
            obtain ⟨f1, lb, f2, f3⟩ := ih _ _ _ _ _ _ _ (toI32_range _).1 (toI32_range _).2 h
            refine ⟨fun hro => ?_, la ++ lb, ?_, ?_⟩
            · rw [f1 hro, g1 hro]
            · rw [f2, List.append_assoc]
            · intro e he
              rw [List.mem_append] at he
              rcases he with he | he
              · exact g3 e he
              · exact f3 e he
          · cases h
          · cases h
      · rw [if_neg hc] at h
        injection h with h
        subst h
        exact ⟨fun _ => rfl, [], (List.append_nil _).symm,
          fun e he => absurd he (List.not_mem_nil e)⟩
    · have hu := toU32_neg hi1 (by omega : i < 0)
      generalize toU32 i = u at h hu
      by_cases hc : u < yh
      · rw [if_pos hc] at h
        dsimp only at h
        have hb1 : ¬ InBounds k m x u := by
          intro hb
          have h1 := hb.2
          have h2 := hs.2.2.2.2.1
          omega
        have hneg : (getDisplayID k m x u).1 < 0 ∨
            (getDisplayID k m ((x + w + 4294967295) % 4294967296) u).1 < 0 := by
          left
          rw [getDisplayID_outOfBounds hs hb1]
          exact (by decide : (-1 : Int) < 0)
        rw [if_pos hneg] at h
        injection h with h
        subst h
        exact ⟨fun _ => rfl, [], (List.append_nil _).symm,
          fun e he => absurd he (List.not_mem_nil e)⟩
      · rw [if_neg hc] at h
        injection h with h
        subst h
        exact ⟨fun _ => rfl, [], (List.append_nil _).symm,
          fun e he => absurd he (List.not_mem_nil e)⟩

theorem getrect_reads {σ : Type} {k : Consts} {m : multitron} (ha : Addressable k m)
    (tronctl : Tronctl σ) (dev : σ) (log : List Exchange) (scanline : List Nat)
    (x y w h : Nat) (data : List Nat) (res : Int × (σ × List Exchange) × List Nat)
    (hr : mtron_getrect k (traced tronctl) m (dev, log) scanline x y w h data = .returns res) :
    ((∀ (dev : σ) (op : Nat) (buf : List Nat), op / 128 % 32 = k.MTRON_READ_LINE →
      (tronctl dev op buf).2.1 = dev) → res.2.1.1 = dev) ∧
    ∃ l : List Exchange, res.2.1.2 = log ++ l ∧
      ∀ e : Exchange, e ∈ l → e.op / 128 % 32 = k.MTRON_READ_LINE := by
  unfold mtron_getrect at hr
  split at hr
  · injection hr with hr
    subst hr
    exact ⟨fun _ => rfl, [], (List.append_nil _).symm,
      fun e he => absurd he (List.not_mem_nil e)⟩
  · exact getrect_rows_reads ha tronctl x w _ _ _ _ _ _ _ _ _ (toI32_range _).1
      (toI32_range _).2 hr

theorem getpixel_reads {σ : Type} {k : Consts} {m : multitron} (ha : Addressable k m)
    (tronctl : Tronctl σ) (dev : σ) (log : List Exchange) (scanline : List Nat)
    (x y color : Nat) (res : Int × (σ × List Exchange) × Nat)
    (hr : mtron_getpixel k (traced tronctl) m (dev, log) scanline x y color = .returns res) :
    ((∀ (dev : σ) (op : Nat) (buf : List Nat), op / 128 % 32 = k.MTRON_READ_LINE →
      (tronctl dev op buf).2.1 = dev) → res.2.1.1 = dev) ∧
    ∃ l : List Exchange, res.2.1.2 = log ++ l ∧
      ∀ e : Exchange, e ∈ l → e.op / 128 % 32 = k.MTRON_READ_LINE := by
  have hs := ha.intSafe
  unfold mtron_getpixel at hr
  dsimp only at hr
  by_cases hd : (getDisplayID k m x y).1 = -1
  · rw [if_pos hd] at hr
    injection hr with hr
    subst hr
    exact ⟨fun _ => rfl, [], (List.append_nil _).symm,
      fun e he => absurd he (List.not_mem_nil e)⟩
  · rw [if_neg hd] at hr
    have hb : InBounds k m x y := by
      by_contra hb
      apply hd
      rw [getDisplayID_outOfBounds hs hb]
    have ht := tileOf_lt ha hb
    have hL : y % k.SUBDISPLAY_HEIGHT < 128 :=
      lt_of_lt_of_le (Nat.mod_lt _ ha.2.2.1) ha.2.2.2.1
    have hop := (setFields_decode ht ha.2.2.2.2.1 (by omega : (0 : Nat) < 8192) hL).2.1
    rw [getDisplayID_tileOf hs hb] at hr
    dsimp only [traced] at hr
    rw [toU32_natCast (by omega)] at hr
    split at hr
    · cases hr
    · injection hr with hr
      subst hr
      refine ⟨fun hro => hro _ _ _ hop, [_], rfl, ?_⟩
      intro e he
      rw [List.mem_singleton] at he
      subst he
      exact hop

set_option maxRecDepth 100000 in
/-- C19, counterexample: on a 2x100 grid of 256x128 tiles (200 tiles; opcodes
READ_LINE = 2, WRITE_LINE = 3), `mtron_getpixel` at `(7687, 131)` resolves to
tile 130, which does not fit the 7-bit tile field: in the command word
100663682 the tile index spills into the opcode field, which reads 3, the
WRITE_LINE opcode, and the store/load hardware stores the buffer of the call
in scanline 3 of tile 2, so the display is not as before. -/
theorem getpixel_word_decodes_as_write :
    ∃ res : Int × (Display × List Exchange) × Nat,
      mtron_getpixel ⟨256, 128, 2, 3⟩ (traced (storeLoad ⟨256, 128, 2, 3⟩)) ⟨2, 100⟩
        ((fun _ _ _ => 0), []) (List.replicate 256 7) 7687 131 0 = .returns res ∧
      res.2.1.2.map Exchange.op = [100663682] ∧
      100663682 / 128 % 32 = (⟨256, 128, 2, 3⟩ : Consts).MTRON_WRITE_LINE ∧
      res.2.1.1 2 3 0 = 7 ∧ res.2.1.1 2 3 0 ≠ (fun _ _ _ => 0 : Display) 2 3 0 :=
  ⟨_, rfl, rfl, rfl, rfl, Nat.succ_ne_zero 6⟩

/-- C19 as amended: on a grid that fits the command word (at most 128 tiles,
at most 128 scanlines per tile, distinct 5-bit opcodes), for every 32-bit
input: when `mtron_getpixel` or `mtron_getrect` returns, on any device, every
exchange it issued has the READ_LINE opcode in the opcode field of its command
word, hence not the WRITE_LINE opcode; and on the store/load hardware the
display after the call is the display before it. -/
theorem reads_issue_no_write {σ : Type} (k : Consts) (m : multitron) (tronctl : Tronctl σ)
    (dev : σ) (display : Display) (scanline : List Nat) (x y w h color : Nat)
    (data : List Nat) (ha : Addressable k m) :
    (∀ res : Int × (σ × List Exchange) × Nat,
      mtron_getpixel k (traced tronctl) m (dev, []) scanline x y color = .returns res →
      ∀ e : Exchange, e ∈ res.2.1.2 →
        e.op / 128 % 32 = k.MTRON_READ_LINE ∧ e.op / 128 % 32 ≠ k.MTRON_WRITE_LINE) ∧
    (∀ res : Int × (σ × List Exchange) × List Nat,
      mtron_getrect k (traced tronctl) m (dev, []) scanline x y w h data = .returns res →
      ∀ e : Exchange, e ∈ res.2.1.2 →
        e.op / 128 % 32 = k.MTRON_READ_LINE ∧ e.op / 128 % 32 ≠ k.MTRON_WRITE_LINE) ∧
    (∀ res : Int × (Display × List Exchange) × Nat,
      mtron_getpixel k (traced (storeLoad k)) m (display, []) scanline x y color
        = .returns res →
      res.2.1.1 = display ∧
      ∀ e : Exchange, e ∈ res.2.1.2 →
        e.op / 128 % 32 = k.MTRON_READ_LINE ∧ e.op / 128 % 32 ≠ k.MTRON_WRITE_LINE) ∧
    (∀ res : Int × (Display × List Exchange) × List Nat,
      mtron_getrect k (traced (storeLoad k)) m (display, []) scanline x y w h data
        = .returns res →
      res.2.1.1 = display ∧
      ∀ e : Exchange, e ∈ res.2.1.2 →
        e.op / 128 % 32 = k.MTRON_READ_LINE ∧ e.op / 128 % 32 ≠ k.MTRON_WRITE_LINE) := by
  have hne : k.MTRON_READ_LINE ≠ k.MTRON_WRITE_LINE := ha.2.2.2.2.2.2.1
  refine ⟨?_, ?_, ?_, ?_⟩
  · intro res hr e he
    obtain ⟨_, l, g2, g3⟩ := getpixel_reads ha tronctl dev [] scanline x y color res hr
    rw [g2, List.nil_append] at he
    exact ⟨g3 e he, by rw [g3 e he]; exact hne⟩
  · intro res hr e he
    obtain ⟨_, l, g2, g3⟩ := getrect_reads ha tronctl dev [] scanline x y w h data res hr
    rw [g2, List.nil_append] at he
    exact ⟨g3 e he, by rw [g3 e he]; exact hne⟩
  · intro res hr
    obtain ⟨g1, l, g2, g3⟩ :=
      getpixel_reads ha (storeLoad k) display [] scanline x y color res hr
    refine ⟨g1 (storeLoad_read_keeps k), ?_⟩
    intro e he
    rw [g2, List.nil_append] at he
    exact ⟨g3 e he, by rw [g3 e he]; exact hne⟩
  · intro res hr
    obtain ⟨g1, l, g2, g3⟩ :=
      getrect_reads ha (storeLoad k) display [] scanline x y w h data res hr
    refine ⟨g1 (storeLoad_read_keeps k), ?_⟩
    intro e he
    rw [g2, List.nil_append] at he
    exact ⟨g3 e he, by rw [g3 e he]; exact hne⟩

set_option maxRecDepth 100000 in
/-- Witness of C19 as amended: `mtron_getpixel` at `(300, 5)` and
`mtron_getrect` of the 100x1 rectangle at `(200, 0)` of a 1x2 grid of 256x128
tiles, on the store/load hardware: both return, the display is as before and
every exchange has the READ_LINE opcode, none the WRITE_LINE opcode. -/
theorem reads_issue_no_write_witness :
    Addressable ⟨256, 128, 2, 3⟩ ⟨1, 2⟩ ∧
    (∃ res : Int × (Display × List Exchange) × Nat,
      mtron_getpixel ⟨256, 128, 2, 3⟩ (traced (storeLoad ⟨256, 128, 2, 3⟩)) ⟨1, 2⟩
        ((fun _ _ _ => 0), []) (List.replicate 256 0) 300 5 9 = .returns res ∧
      res.2.1.1 = (fun _ _ _ => 0) ∧
      ∀ e : Exchange, e ∈ res.2.1.2 → e.op / 128 % 32 = 2 ∧ e.op / 128 % 32 ≠ 3) ∧
    (∃ res : Int × (Display × List Exchange) × List Nat,
      mtron_getrect ⟨256, 128, 2, 3⟩ (traced (storeLoad ⟨256, 128, 2, 3⟩)) ⟨1, 2⟩
        ((fun _ _ _ => 0), []) (List.replicate 256 0) 200 0 100 1 (List.replicate 100 0)
        = .returns res ∧
      res.2.1.1 = (fun _ _ _ => 0) ∧
      ∀ e : Exchange, e ∈ res.2.1.2 → e.op / 128 % 32 = 2 ∧ e.op / 128 % 32 ≠ 3) :=
  ⟨by decide,
   ⟨_, rfl,
    (reads_issue_no_write ⟨256, 128, 2, 3⟩ ⟨1, 2⟩ (storeLoad ⟨256, 128, 2, 3⟩)
      (fun _ _ _ => 0) (fun _ _ _ => 0) (List.replicate 256 0) 300 5 100 1 9
      (List.replicate 100 0) (by decide)).2.2.1 _ rfl⟩,
   ⟨_, rfl,
    (reads_issue_no_write ⟨256, 128, 2, 3⟩ ⟨1, 2⟩ (storeLoad ⟨256, 128, 2, 3⟩)
      (fun _ _ _ => 0) (fun _ _ _ => 0) (List.replicate 256 0) 200 0 100 1 9
      (List.replicate 100 0) (by decide)).2.2.2 _ rfl⟩⟩

end Multitron
